import Mathlib

/-!
# Component naming, application devfile update and component stubs (controllers/update.go)

A shallow embedding of `sanitizeComponentName`, `getComponentName`,
`updateApplicationDevfileModel` and `updateComponentStub`.

Conventions of the embedding.

* A Go `string` is a `List Char` (`Str`).  The character filter of the sanitizer
  leaves ASCII text only, on which Go's byte indexing (`name[0]`, `name[0:58]`,
  `len(name)`) and indexing by character agree.
* The two sources of randomness are arguments: `noun` is the value returned by
  `gofakeit.Noun()`, a word of an English word list, and `token` the value returned by
  `util.GetRandomString(4, true)`, four lowercase letters or digits.  Facts that need
  the noun to be non-empty or the token to be well formed say so as hypotheses.
* An index expression that panics in Go (`name[0]` on an empty string) makes the
  embedded function return `none`.
-/

namespace ApplicationService

/-- Go strings, as sequences of characters. -/
abbrev Str := List Char

/-! ## Character classes -/

/-- Lowercase ASCII letter, `[a-z]`. -/
def isLowerLetter (c : Char) : Bool := decide (97 ≤ c.toNat ∧ c.toNat ≤ 122)

/-- Uppercase ASCII letter, `[A-Z]`. -/
def isUpperLetter (c : Char) : Bool := decide (65 ≤ c.toNat ∧ c.toNat ≤ 90)

/-- ASCII digit, `[0-9]`; `unicode.IsDigit(rune(b))` for a byte `b` of ASCII text. -/
def isDigit (c : Char) : Bool := decide (48 ≤ c.toNat ∧ c.toNat ≤ 57)

/-- Characters kept by the filter: the complement of the regular expression
`[^a-zA-Z0-9-]` of `sanitizeComponentName`. -/
def isKept (c : Char) : Bool :=
  isLowerLetter c || isUpperLetter c || isDigit c || c == '-'

/-- Lowercase letter or digit, `[a-z0-9]`. -/
def isLowerAlnum (c : Char) : Bool := isLowerLetter c || isDigit c

/-- Lowercase letter, digit or hyphen, `[a-z0-9-]`. -/
def isNameChar (c : Char) : Bool := isLowerAlnum c || c == '-'

/-- Go's `strings.ToLower` on a string. -/
def toLower (s : Str) : Str := s.map Char.toLower

/-! ## sanitizeComponentName -/

/-- The literal prefix of `fmt.Sprintf("comp-%s", name)`. -/
def compPrefix : Str := ['c', 'o', 'm', 'p', '-']

/-- Embedding of `sanitizeComponentName(name)`.  `noun` stands for `gofakeit.Noun()` and
`token` for `util.GetRandomString(4, true)`.  The result is `none` when `name[0]` is read
on an empty string. -/
def sanitizeComponentName (noun token : Str) (name : Str) : Option Str :=
  -- name = exclusive.ReplaceAllString(name, "")
  let name := name.filter isKept
  -- if name == "" { name = gofakeit.Noun() }
  let name := if name = [] then noun else name
  -- unicode.IsDigit(rune(name[0]))
  match name with
  | [] => none
  | c :: rest =>
    let name := if isDigit c then compPrefix ++ (c :: rest) else c :: rest
    -- name = strings.ToLower(name)
    let name := toLower name
    -- if len(name) > 58 { name = name[0:58] }
    let name := if name.length > 58 then name.take 58 else name
    -- name = fmt.Sprintf("%s-%s", name, util.GetRandomString(4, true))
    some (name ++ '-' :: token)

/-! ## getComponentName -/

/-- The fields of `appstudiov1alpha1.GitSource` read or written by the controllers. -/
structure GitSource where
  URL : Str
  Revision : Str
  Context : Str
  DevfileURL : Str
  DockerfileURL : Str
deriving DecidableEq, Repr

/-- Scan for `strings.LastIndex` with a one-character separator: `i` is the index of the
next character and `acc` the last index found so far. -/
def lastIndexFrom (sep : Char) : Str → Nat → Int → Int
  | [], _, acc => acc
  | c :: s, i, acc => lastIndexFrom sep s (i + 1) (if c = sep then (i : Int) else acc)

/-- Go's `strings.LastIndex(s, sep)` for a one-character `sep`: the index of the last
occurrence, or `-1`. -/
def stringsLastIndex (s : Str) (sep : Char) : Int := lastIndexFrom sep s 0 (-1)

/-- Go's `strings.Index(s, sep)`: the index of the first occurrence of `sep` in `s`. -/
def stringsIndex (sep : Str) : Str → Option Nat
  | [] => if sep = [] then some 0 else none
  | c :: s =>
    if sep.isPrefixOf (c :: s) then some 0
    else (stringsIndex sep s).map (· + 1)

/-- First element of Go's `strings.Split(s, sep)` for a non-empty `sep`:
`strings.Split(s, sep)[0]`, the part of `s` before the first occurrence of `sep`,
or all of `s` when `sep` does not occur. -/
def splitHead (s sep : Str) : Str :=
  match stringsIndex sep s with
  | some i => s.take i
  | none => s

/-- The literal `".git"`. -/
def dotGit : Str := ['.', 'g', 'i', 't']

/-- The local `repoName` of `getComponentName` for a non-empty `repoUrl`
(update.go lines 349 to 353). -/
def repoName (repoUrl : Str) : Str :=
  -- if string(repoUrl[len(repoUrl)-1]) == "/" { repoUrl = repoUrl[0 : len(repoUrl)-1] }
  let repoUrl := if repoUrl.getLast? = some '/' then repoUrl.take (repoUrl.length - 1) else repoUrl
  -- lastElement := repoUrl[strings.LastIndex(repoUrl, "/")+1:]
  let lastElement := repoUrl.drop (stringsLastIndex repoUrl '/' + 1).toNat
  -- repoName := strings.Split(lastElement, ".git")[0]
  splitHead lastElement dotGit

/-- The local `componentName` of `getComponentName` as passed to `sanitizeComponentName`
(update.go lines 344 to 359): the raw, unsanitized name. -/
def rawComponentName (gitSource : GitSource) : Str :=
  let repoUrl := gitSource.URL
  if repoUrl.length ≠ 0 then
    let repoName := repoName repoUrl
    let context := gitSource.Context
    if context ≠ [] ∧ context ≠ ['.', '/'] ∧ context ≠ ['.'] then
      -- fmt.Sprintf("%s-%s", context, repoName)
      context ++ '-' :: repoName
    else repoName
  else []

/-- Embedding of `getComponentName(gitSource)`. -/
def getComponentName (noun token : Str) (gitSource : GitSource) : Option Str :=
  sanitizeComponentName noun token (rawComponentName gitSource)


/-! ## The application devfile model

`updateApplicationDevfileModel` works on a `data.DevfileData` of the devfile library and
on the attribute store of the devfile API.  Their behaviour is modelled as far as the
function uses it: the project list and the top-level attributes of the workspace
specification. -/

/-- Error values met in `updateApplicationDevfileModel` and `updateComponentStub`. -/
inductive GoError where
  /-- The `*attributes.KeyNotFoundError` of an attribute read. -/
  | keyNotFound (key : Str)
  /-- Any other error of an attribute read: the content cannot be decoded as asked. -/
  | attributeDecode (key : Str)
  /-- The error of `AddProjects` for projects whose names are already taken. -/
  | fieldAlreadyExist (names : List Str)
  /-- An error made with `fmt.Errorf`, with its message. -/
  | errorf (message : Str)
  /-- Any other error value of a collaborator (devfile parser, quantity parser). -/
  | collaborator (message : Str)
  /-- Not an error value: the run-time panic of an index out of range, after which the
  call does not return. -/
  | runtimePanic
deriving DecidableEq, Repr

/-- The type assertion `err.(*attributes.KeyNotFoundError)`. -/
def GoError.isKeyNotFound : GoError → Bool
  | GoError.keyNotFound _ => true
  | _ => false

/-- The fields `Name` and `Value` of a `corev1.EnvVar`. -/
structure EnvVar where
  Name : Str
  Value : Str
deriving DecidableEq, Repr

/-- JSON content of one attribute, as `GetString`, `GetNumber` and `GetInto` tell it
apart. -/
inductive AttrValue where
  /-- A JSON string. -/
  | string (s : Str)
  /-- A JSON number or boolean, with its conversion to a string. -/
  | primitive (text : Str)
  /-- An object, an array, or content that does not decode: not convertible to a string. -/
  | structured
  /-- A JSON array that decodes as a list of environment variables; not convertible to a
  string either. -/
  | envVars (env : List EnvVar)
deriving DecidableEq, Repr

/-- The type `attributes.Attributes`, a map from keys to JSON content, as an association
list read at the first entry of a key. -/
abbrev Attributes := List (Str × AttrValue)

/-- The method `Attributes.GetString(key, &err)`: the returned string and the error stored
in the error holder, `none` when the holder is left untouched. -/
def Attributes.GetString (attrs : Attributes) (key : Str) : Str × Option GoError :=
  match attrs.lookup key with
  | some (AttrValue.string s) => (s, none)
  | some (AttrValue.primitive text) => (text, none)
  | some AttrValue.structured => ([], some (GoError.attributeDecode key))
  | some (AttrValue.envVars _) => ([], some (GoError.attributeDecode key))
  | none => ([], some (GoError.keyNotFound key))

/-- The method `Attributes.GetNumber(key, &err)` followed by the conversion `int(...)` of
the call sites: the integer and the error stored in the error holder.  A JSON number, or
a JSON string that converts to a number, gives its value; `numberOf` is that conversion,
from the text of the number to the integer part of its value. -/
def Attributes.GetNumber (numberOf : Str → Option Int) (attrs : Attributes) (key : Str) :
    Int × Option GoError :=
  match attrs.lookup key with
  | some (AttrValue.string s) =>
    match numberOf s with
    | some n => (n, none)
    | none => (0, some (GoError.attributeDecode key))
  | some (AttrValue.primitive text) =>
    match numberOf text with
    | some n => (n, none)
    | none => (0, some (GoError.attributeDecode key))
  | some AttrValue.structured => (0, some (GoError.attributeDecode key))
  | some (AttrValue.envVars _) => (0, some (GoError.attributeDecode key))
  | none => (0, some (GoError.keyNotFound key))

/-- The method `Attributes.GetInto(key, &into)` for a list of environment variables: the
content of `into` after the call and the returned error. -/
def Attributes.GetInto (attrs : Attributes) (key : Str) (into : List EnvVar) :
    List EnvVar × Option GoError :=
  match attrs.lookup key with
  | some (AttrValue.envVars env) => (env, none)
  | some _ => (into, some (GoError.attributeDecode key))
  | none => (into, some (GoError.keyNotFound key))

/-- The method `Attributes.PutString(key, value)`: `attributes[key] = value` on the map,
which overwrites the entry of an existing key and adds one otherwise. -/
def Attributes.PutString : Attributes → Str → Str → Attributes
  | [], key, value => [(key, AttrValue.string value)]
  | (k, v) :: rest, key, value =>
    if k = key then (k, AttrValue.string value) :: rest
    else (k, v) :: Attributes.PutString rest key value

/-- A devfile project: its name and the remotes of its git source. -/
structure Project where
  Name : Str
  Remotes : List (Str × Str)
deriving DecidableEq, Repr

/-- The state behind a `data.DevfileData`: the projects and the top-level attributes of
its workspace specification (`none` for a nil attribute map). -/
structure DevfileData where
  Projects : List Project
  Attributes : Option Attributes
deriving DecidableEq, Repr

/-- The method `GetProjects(common.DevfileOptions{})`: with empty options the library
returns the project list as it is. -/
def DevfileData.GetProjects (d : DevfileData) : Except GoError (List Project) :=
  Except.ok d.Projects

/-- The method `AddProjects(projects)`: a project whose name is not among the names
present before the call is appended; the others are reported in the returned error. -/
def DevfileData.AddProjects (d : DevfileData) (projects : List Project) :
    DevfileData × Option GoError :=
  let taken := d.Projects.map (·.Name)
  let added := projects.filter (fun project => !(taken.contains project.Name))
  let rejected := projects.filter (fun project => taken.contains project.Name)
  ({ d with Projects := d.Projects ++ added },
    if rejected = [] then none else some (GoError.fieldAlreadyExist (rejected.map (·.Name))))

/-- The part `Spec.Source` of a component: the git source, `none` for a nil pointer. -/
structure ComponentSource where
  GitSource : Option GitSource
deriving DecidableEq, Repr

/-- The resource kinds `corev1.ResourceCPU`, `corev1.ResourceMemory` and
`corev1.ResourceStorage`. -/
inductive ResourceName where
  | cpu
  | memory
  | storage
deriving DecidableEq, Repr

/-- A `resource.Quantity`, held as its canonical text. -/
structure Quantity where
  canonical : Str
deriving DecidableEq, Repr

/-- A `corev1.ResourceList`, a map from resource kinds to quantities.  The code tests
such maps with `len` only, so the nil map and the empty map are both the empty list. -/
abbrev ResourceList := List (ResourceName × Quantity)

/-- The fields `Limits` and `Requests` of `corev1.ResourceRequirements`. -/
structure ResourceRequirements where
  Limits : ResourceList := []
  Requests : ResourceList := []
deriving DecidableEq, Repr

/-- The fields of `appstudiov1alpha1.ComponentSpec` read by
`updateApplicationDevfileModel` or written by `updateComponentStub`; the fields of a stub
start at their zero values. -/
structure ComponentSpec where
  ComponentName : Str
  Source : ComponentSource
  ContainerImage : Str
  Application : Str := []
  TargetPort : Int := 0
  Route : Str := []
  Replicas : Int := 0
  Resources : ResourceRequirements := {}
  Env : List EnvVar := []
deriving DecidableEq, Repr

/-- A component resource: its object name and its specification. -/
structure Component where
  Name : Str
  Spec : ComponentSpec
deriving DecidableEq, Repr

/-- The message prefix of the duplicate-name error. -/
def alreadyHasComponent : Str := "application already has a component with name ".toList

/-- The key prefix of `fmt.Sprintf("containerImage/%s", ...)`. -/
def containerImagePrefix : Str := "containerImage/".toList

/-- The methods of the interface `data.DevfileData` that `updateApplicationDevfileModel`
calls on its git path and that return an error value.  `hasAppDevfileData` is an interface
value: the function runs with the implementation that the caller passes, and each method
may fail. -/
structure ProjectMethods where
  GetProjects : DevfileData → Except GoError (List Project)
  AddProjects : DevfileData → List Project → DevfileData × Option GoError

/-- The methods of the devfile library. -/
def libraryMethods : ProjectMethods :=
  { GetProjects := DevfileData.GetProjects, AddProjects := DevfileData.AddProjects }

/-- Embedding of the body of `updateApplicationDevfileModel(hasAppDevfileData, component)`
over any implementation of `GetProjects` and `AddProjects`: the model after the call and
the returned error.  The model is mutated in place in Go, so the first component is the
state the caller sees afterwards on every path. -/
def updateApplicationDevfileModelVia (methods : ProjectMethods)
    (hasAppDevfileData : DevfileData) (component : Component) :
    DevfileData × Option GoError :=
  match component.Spec.Source.GitSource with
  | some gitSource =>
    let newProject : Project :=
      { Name := component.Spec.ComponentName, Remotes := [("origin".toList, gitSource.URL)] }
    -- projects, err := hasAppDevfileData.GetProjects(common.DevfileOptions{})
    match methods.GetProjects hasAppDevfileData with
    | Except.error err => (hasAppDevfileData, some err)
    | Except.ok projects =>
      -- for _, project := range projects { if project.Name == newProject.Name { return ... } }
      if projects.any (fun project => project.Name = newProject.Name) then
        (hasAppDevfileData, some (GoError.errorf (alreadyHasComponent ++ newProject.Name)))
      else
        -- err = hasAppDevfileData.AddProjects([]devfileAPIV1.Project{newProject})
        match methods.AddProjects hasAppDevfileData [newProject] with
        | (d, some err) => (d, some err)
        | (d, none) => (d, none)
  | none =>
    if component.Spec.ContainerImage ≠ [] then
      -- devSpec points into the model: a write to devSpec.Attributes is a write to the model
      let devSpec := hasAppDevfileData
      -- if devfileAttributes == nil { devfileAttributes = attributes.Attributes{}; ... }
      let (devfileAttributes, devSpec) :=
        match devSpec.Attributes with
        | none => (([] : Attributes), { devSpec with Attributes := some [] })
        | some attrs => (attrs, devSpec)
      let imageAttrString := containerImagePrefix ++ component.Spec.ComponentName
      let (componentImage, err) := Attributes.GetString devfileAttributes imageAttrString
      -- if err != nil { if _, ok := err.(*attributes.KeyNotFoundError); !ok { return err } }
      match err.filter (fun e => !e.isKeyNotFound) with
      | some e => (devSpec, some e)
      | none =>
        if componentImage ≠ [] then
          (devSpec, some (GoError.errorf (alreadyHasComponent ++ component.Name)))
        else
          -- devSpec.Attributes = devfileAttributes.PutString(imageAttrString, ...)
          let written :=
            Attributes.PutString devfileAttributes imageAttrString component.Spec.ContainerImage
          ({ devSpec with Attributes := some written }, none)
    else
      (hasAppDevfileData, some (GoError.errorf "component source is nil".toList))

/-- Embedding of `updateApplicationDevfileModel(hasAppDevfileData, component)` on a model of
the devfile library: the body runs with the library's `GetProjects` and `AddProjects`. -/
def updateApplicationDevfileModel (hasAppDevfileData : DevfileData) (component : Component) :
    DevfileData × Option GoError :=
  updateApplicationDevfileModelVia libraryMethods hasAppDevfileData component

/-- The key under which the image of a component is recorded. -/
def imageKey (component : Component) : Str :=
  containerImagePrefix ++ component.Spec.ComponentName

/-- The model with the component's image written at its key, in the attribute map of the
model or in a new map when the model has none; the projects are untouched. -/
def withImageWritten (d : DevfileData) (component : Component) : DevfileData :=
  let attrs := d.Attributes.getD []
  { d with
    Attributes := some (attrs.PutString (imageKey component) component.Spec.ContainerImage) }

/-- A project named `name` with the single remote `origin`. -/
def originProject (name url : Str) : Project :=
  { Name := name, Remotes := [("origin".toList, url)] }

/-- A model with two projects and no attribute map. -/
def twoProjectModel : DevfileData :=
  { Projects := [originProject "frontend".toList "https://host/a".toList,
                 originProject "backend".toList "https://host/b".toList],
    Attributes := none }

/-- A git source with URL `https://host/c` only. -/
def plainGitSource : GitSource :=
  { URL := "https://host/c".toList, Revision := [], Context := [], DevfileURL := [],
    DockerfileURL := [] }

/-- A git-sourced component named `backend`. -/
def backendComponent : Component :=
  { Name := "backend-cr".toList,
    Spec := { ComponentName := "backend".toList,
              Source := { GitSource := some plainGitSource },
              ContainerImage := [] } }

/-- An `AddProjects` that, called with one project, either appends it to the projects and
returns no error, or returns an error and leaves the model as it was. -/
def addsOneOrNothing (methods : ProjectMethods) : Prop :=
  ∀ (d : DevfileData) (project : Project),
    methods.AddProjects d [project] =
        ({ d with Projects := d.Projects ++ [project] }, none) ∨
      ∃ err, methods.AddProjects d [project] = (d, some err)

/-- The error of the example implementation whose project listing fails. -/
def listingError : GoError := GoError.collaborator "projects cannot be listed".toList

/-- The error of the example implementation that cannot add a project. -/
def addingError : GoError := GoError.collaborator "project cannot be added".toList

/-- An implementation whose `GetProjects` fails. -/
def listingFails : ProjectMethods :=
  { GetProjects := fun _ => Except.error listingError,
    AddProjects := DevfileData.AddProjects }

/-- An implementation whose `AddProjects` fails and adds nothing. -/
def addingFails : ProjectMethods :=
  { GetProjects := DevfileData.GetProjects,
    AddProjects := fun d _ => (d, some addingError) }

/-! ## updateComponentStub

The function reads the scan results (devfiles, devfile URLs, dockerfile links and ports,
each keyed by context) and records one detection entry per context.  Go visits a map in
an unspecified order: a map that is ranged over is the list of its entries in the order
of the visit, and the claims hold for every such list.  The collaborators that are not
part of `update.go` are arguments. -/

/-- Go's `m[key] = value` on a map held as an association list: the entry of an existing
key is overwritten, a new key is added. -/
def mapSet {κ β : Type} [DecidableEq κ] : List (κ × β) → κ → β → List (κ × β)
  | [], key, value => [(key, value)]
  | (k, v) :: rest, key, value =>
    if k = key then (k, value) :: rest else (k, v) :: mapSet rest key value

/-- Go's `delete(m, key)`. -/
def mapDelete {κ β : Type} [DecidableEq κ] (m : List (κ × β)) (key : κ) : List (κ × β) :=
  m.filter (fun entry => decide (entry.1 ≠ key))

/-- Go's `m[key]` on a map of strings: the empty string for a missing key. -/
def mapGet (m : List (Str × Str)) (key : Str) : Str := (m.lookup key).getD []

/-- The attribute keys of package `devfile` that `updateComponentStub` reads. -/
structure AttributeKeys where
  ContainerENVKey : Str
  ContainerImagePortKey : Str
  RouteKey : Str
  ReplicaKey : Str
  CpuLimitKey : Str
  MemoryLimitKey : Str
  StorageLimitKey : Str
  CpuRequestKey : Str
  MemoryRequestKey : Str
  StorageRequestKey : Str
deriving DecidableEq, Repr

/-- The component types of a devfile. -/
inductive ComponentType where
  | Container
  | Kubernetes
  | Openshift
  | Volume
  | Image
  | Custom
deriving DecidableEq, Repr

/-- A component of a parsed devfile: its name, its type and its attributes. -/
structure DevfileComponent where
  Name : Str
  ComponentType : ComponentType
  Attributes : Attributes
deriving DecidableEq, Repr

/-- The fields of the devfile metadata that the stub records. -/
structure DevfileMetadata where
  Language : Str
  ProjectType : Str
deriving DecidableEq, Repr

/-- The state behind the `data.DevfileData` of a parsed component devfile: its metadata
and its components. -/
structure ParsedDevfile where
  Metadata : DevfileMetadata
  Components : List DevfileComponent
deriving DecidableEq, Repr

/-- The method `GetMetadata()`. -/
def ParsedDevfile.GetMetadata (d : ParsedDevfile) : DevfileMetadata := d.Metadata

/-- The method `GetComponents` with the component-type option and no attribute filter:
the library returns the components of that type, in the order of the devfile, and no
error. -/
def ParsedDevfile.GetComponents (d : ParsedDevfile) (componentType : ComponentType) :
    Except GoError (List DevfileComponent) :=
  Except.ok (d.Components.filter (fun component => component.ComponentType = componentType))

/-- What `updateComponentStub` uses and `update.go` does not define: the devfile parser
`devfile.ParseDevfile`, the quantity parser `resource.ParseQuantity`, the conversion of
`GetNumber`, the attribute keys, and the random draws (`gofakeit.Noun()` and
`util.GetRandomString(4, true)`) of the call of `getComponentName` made for a context. -/
structure Collaborators where
  ParseDevfile : Str → Except GoError ParsedDevfile
  ParseQuantity : Str → Except GoError Quantity
  numberOf : Str → Option Int
  keys : AttributeKeys
  noun : Str → Str
  token : Str → Str

/-- The check `if err != nil { if _, ok := err.(*attributes.KeyNotFoundError); !ok { return
err } }`: the error it returns, if any. -/
def fatal (err : Option GoError) : Option GoError :=
  err.filter (fun e => !e.isKeyNotFound)

/-- The content of the error holder `err` after a read that raised `raised`: a read that
succeeds leaves the holder as it was. -/
def storeError (raised holder : Option GoError) : Option GoError :=
  match raised with
  | some e => some e
  | none => holder

/-- The component stub under construction and the local variable `err`. -/
abbrev StubState := ComponentSpec × Option GoError

/-- The block `// Devfile Env` (update.go lines 162 to 168), which declares `err`. -/
def readEnv (c : Collaborators) (attrs : Attributes) (componentStub : ComponentSpec) :
    Except GoError StubState :=
  -- err := kubernetesComponentAttribute.GetInto(devfile.ContainerENVKey, &componentStub.Env)
  let read := attrs.GetInto c.keys.ContainerENVKey componentStub.Env
  let err := read.2
  match fatal err with
  | some e => Except.error e
  | none => Except.ok ({ componentStub with Env := read.1 }, err)

/-- The block `// Devfile Port` (lines 170 to 178). -/
def readPort (c : Collaborators) (attrs : Attributes) (state : StubState) :
    Except GoError StubState :=
  if state.1.TargetPort = 0 then
    -- componentStub.TargetPort = int(kubernetesComponentAttribute.GetNumber(..., &err))
    let read := attrs.GetNumber c.numberOf c.keys.ContainerImagePortKey
    let err := storeError read.2 state.2
    match fatal err with
    | some e => Except.error e
    | none => Except.ok ({ state.1 with TargetPort := read.1 }, err)
  else Except.ok state

/-- The block `// Devfile Route` (lines 180 to 186). -/
def readRoute (c : Collaborators) (attrs : Attributes) (state : StubState) :
    Except GoError StubState :=
  let read := attrs.GetString c.keys.RouteKey
  let err := storeError read.2 state.2
  match fatal err with
  | some e => Except.error e
  | none => Except.ok ({ state.1 with Route := read.1 }, err)

/-- The block `// Devfile Replica` (lines 188 to 194). -/
def readReplicas (c : Collaborators) (attrs : Attributes) (state : StubState) :
    Except GoError StubState :=
  let read := attrs.GetNumber c.numberOf c.keys.ReplicaKey
  let err := storeError read.2 state.2
  match fatal err with
  | some e => Except.error e
  | none => Except.ok ({ state.1 with Replicas := read.1 }, err)

/-- One of the six blocks `// CPU Limit` to `// Storage Request` (lines 202 to 296), which
differ in the key, the resource kind and the map only: the string is read, a read error
other than key-not-found is returned, and a non-empty string is parsed and recorded in
the map `list` under `name`. -/
def readResource (c : Collaborators) (attrs : Attributes) (key : Str) (name : ResourceName)
    (state : ResourceList × Option GoError) : Except GoError (ResourceList × Option GoError) :=
  -- cpuLimitString := kubernetesComponentAttribute.GetString(devfile.CpuLimitKey, &err)
  let read := attrs.GetString key
  let err := storeError read.2 state.2
  match fatal err with
  | some e => Except.error e
  | none =>
    if read.1 ≠ [] then
      -- cpuLimit, err := resource.ParseQuantity(cpuLimitString), with its own `err`
      match c.ParseQuantity read.1 with
      | Except.error e => Except.error e
      | Except.ok quantity => Except.ok (mapSet state.1 name quantity, err)
    else Except.ok (state.1, err)

/-- The block `// Devfile Limits` (lines 196 to 245). -/
def readLimits (c : Collaborators) (attrs : Attributes) (state : StubState) :
    Except GoError StubState :=
  -- if len(componentStub.Resources.Limits) == 0 { ... = make(corev1.ResourceList) }
  let limits : ResourceList :=
    if state.1.Resources.Limits.length = 0 then [] else state.1.Resources.Limits
  (readResource c attrs c.keys.CpuLimitKey ResourceName.cpu (limits, state.2)).bind fun r =>
  (readResource c attrs c.keys.MemoryLimitKey ResourceName.memory r).bind fun r =>
  (readResource c attrs c.keys.StorageLimitKey ResourceName.storage r).bind fun r =>
  Except.ok ({ state.1 with Resources := { state.1.Resources with Limits := r.1 } }, r.2)

/-- The block `// Devfile Request` (lines 247 to 296). -/
def readRequests (c : Collaborators) (attrs : Attributes) (state : StubState) :
    Except GoError StubState :=
  -- if len(componentStub.Resources.Requests) == 0 { ... = make(corev1.ResourceList) }
  let requests : ResourceList :=
    if state.1.Resources.Requests.length = 0 then [] else state.1.Resources.Requests
  (readResource c attrs c.keys.CpuRequestKey ResourceName.cpu (requests, state.2)).bind fun r =>
  (readResource c attrs c.keys.MemoryRequestKey ResourceName.memory r).bind fun r =>
  (readResource c attrs c.keys.StorageRequestKey ResourceName.storage r).bind fun r =>
  Except.ok ({ state.1 with Resources := { state.1.Resources with Requests := r.1 } }, r.2)

/-- The body of `if len(devfileKubernetesComponents) != 0` (lines 160 to 296): the stub is
filled from the attributes of the first Kubernetes component, block after block, and the
first error that is not key-not-found is returned. -/
def populateFromAttributes (c : Collaborators) (kubernetesComponentAttribute : Attributes)
    (componentStub : ComponentSpec) : Except GoError ComponentSpec :=
  (readEnv c kubernetesComponentAttribute componentStub).bind fun state =>
  (readPort c kubernetesComponentAttribute state).bind fun state =>
  (readRoute c kubernetesComponentAttribute state).bind fun state =>
  (readReplicas c kubernetesComponentAttribute state).bind fun state =>
  (readLimits c kubernetesComponentAttribute state).bind fun state =>
  (readRequests c kubernetesComponentAttribute state).bind fun state =>
  Except.ok state.1

/-- The part `Spec.GitSource` of a component detection query. -/
structure ComponentDetectionQuerySpec where
  GitSource : GitSource
deriving DecidableEq, Repr

/-- A `ComponentDetectionDescription`, the value type of `ComponentDetectionMap`. -/
structure ComponentDetectionDescription where
  DevfileFound : Bool
  Language : Str
  ProjectType : Str
  ComponentStub : ComponentSpec
deriving DecidableEq, Repr

/-- The map `appstudiov1alpha1.ComponentDetectionMap`, from component names to
descriptions. -/
abbrev ComponentDetectionMap := List (Str × ComponentDetectionDescription)

/-- The part `Status.ComponentDetected` of a component detection query. -/
structure ComponentDetectionQueryStatus where
  ComponentDetected : ComponentDetectionMap
deriving DecidableEq, Repr

/-- A component detection query: the fields of `Spec` and `Status` used here. -/
structure ComponentDetectionQuery where
  Spec : ComponentDetectionQuerySpec
  Status : ComponentDetectionQueryStatus
deriving DecidableEq, Repr

/-- The literal `"insert-application-name"`. -/
def insertApplicationName : Str := "insert-application-name".toList

/-- The stub with the scanned port (lines 144 to 156): the first port of the context when
the context has ports. -/
def initialStub (componentName : Str) (gitSource : GitSource) (ports : List Int) :
    ComponentSpec :=
  let componentStub : ComponentSpec :=
    { ComponentName := componentName, Application := insertApplicationName,
      Source := { GitSource := some gitSource }, ContainerImage := [] }
  -- if len(componentPortsMap[context]) != 0 { componentStub.TargetPort = ...[0] }
  match ports with
  | [] => componentStub
  | port :: _ => { componentStub with TargetPort := port }

/-- The body of the loop over `devfilesMap` up to the description that is recorded
(lines 114 to 304): the component name and the description built for `context`, or the
error returned.  `dockerfileContextMap` is the dockerfile map at the time of the visit. -/
def devfileComponentStub (c : Collaborators) (componentDetectionQuery : ComponentDetectionQuery)
    (devfilesURLMap dockerfileContextMap : List (Str × Str))
    (componentPortsMap : List (Str × List Int)) (context devfileBytes : Str) :
    Except GoError (Str × ComponentDetectionDescription) :=
  match c.ParseDevfile devfileBytes with
  | Except.error err => Except.error err
  | Except.ok compDevfileData =>
    let devfileMetadata := compDevfileData.GetMetadata
    match compDevfileData.GetComponents ComponentType.Kubernetes with
    | Except.error err => Except.error err
    | Except.ok devfileKubernetesComponents =>
      let gitSource : GitSource :=
        { Context := context,
          URL := componentDetectionQuery.Spec.GitSource.URL,
          Revision := componentDetectionQuery.Spec.GitSource.Revision,
          DevfileURL := mapGet devfilesURLMap context,
          DockerfileURL := mapGet dockerfileContextMap context }
      match getComponentName (c.noun context) (c.token context) gitSource with
      | none => Except.error GoError.runtimePanic
      | some componentName =>
        let componentStub :=
          initialStub componentName gitSource ((componentPortsMap.lookup context).getD [])
        -- only the first Kubernetes component is read
        let populated :=
          match devfileKubernetesComponents with
          | [] => Except.ok componentStub
          | first :: _ => populateFromAttributes c first.Attributes componentStub
        match populated with
        | Except.error err => Except.error err
        | Except.ok componentStub =>
          Except.ok (componentName,
            { DevfileFound := decide ((mapGet devfilesURLMap context).length ≠ 0),
              Language := devfileMetadata.Language,
              ProjectType := devfileMetadata.ProjectType,
              ComponentStub := componentStub })

/-- What `updateComponentStub` mutates: the map `Status.ComponentDetected` of the query and
the dockerfile map. -/
structure DetectionState where
  ComponentDetected : ComponentDetectionMap
  dockerfileContextMap : List (Str × Str)
deriving DecidableEq, Repr

/-- The loop over `devfilesMap` (lines 113 to 308), on the entries in the order of the
visit: the state when the loop ends or returns, and the error returned. -/
def devfileLoop (c : Collaborators) (componentDetectionQuery : ComponentDetectionQuery)
    (devfilesURLMap : List (Str × Str)) (componentPortsMap : List (Str × List Int)) :
    List (Str × Str) → DetectionState → DetectionState × Option GoError
  | [], state => (state, none)
  | (context, devfileBytes) :: rest, state =>
    match devfileComponentStub c componentDetectionQuery devfilesURLMap
        state.dockerfileContextMap componentPortsMap context devfileBytes with
    | Except.error err => (state, some err)
    | Except.ok (componentName, description) =>
      devfileLoop c componentDetectionQuery devfilesURLMap componentPortsMap rest
        { -- componentDetectionQuery.Status.ComponentDetected[componentName] = ...
          ComponentDetected := mapSet state.ComponentDetected componentName description,
          -- delete(dockerfileContextMap, context)
          dockerfileContextMap := mapDelete state.dockerfileContextMap context }

/-- The literal `"Dockerfile"`. -/
def dockerfileSentinel : Str := "Dockerfile".toList

/-- The loop over the dockerfile map (lines 313 to 338), on the entries in the order of
the visit: the detection map when the loop ends, and `runtimePanic` when a component
name cannot be built. -/
def dockerfileLoop (c : Collaborators) (componentDetectionQuery : ComponentDetectionQuery) :
    List (Str × Str) → ComponentDetectionMap → ComponentDetectionMap × Option GoError
  | [], detected => (detected, none)
  | (context, link) :: rest, detected =>
    let gitSource : GitSource :=
      { Context := context,
        URL := componentDetectionQuery.Spec.GitSource.URL,
        Revision := componentDetectionQuery.Spec.GitSource.Revision,
        DevfileURL := [],
        DockerfileURL := link }
    match getComponentName (c.noun context) (c.token context) gitSource with
    | none => (detected, some GoError.runtimePanic)
    | some componentName =>
      dockerfileLoop c componentDetectionQuery rest
        (mapSet detected componentName
          { DevfileFound := false,
            Language := dockerfileSentinel,
            ProjectType := dockerfileSentinel,
            ComponentStub :=
              { ComponentName := componentName, Application := insertApplicationName,
                Source := { GitSource := some gitSource }, ContainerImage := [] } })

/-- Embedding of `updateComponentStub`: the detection map and the dockerfile map after the
call, and the returned error.  A nil query is `none`; it has no detection map, and the
returned state then holds the empty one. -/
def updateComponentStub (c : Collaborators)
    (componentDetectionQuery : Option ComponentDetectionQuery)
    (devfilesMap devfilesURLMap dockerfileContextMap : List (Str × Str))
    (componentPortsMap : List (Str × List Int)) : DetectionState × Option GoError :=
  match componentDetectionQuery with
  | none =>
    ({ ComponentDetected := [], dockerfileContextMap := dockerfileContextMap },
      some (GoError.errorf "componentDetectionQuery is nil".toList))
  | some query =>
    -- if len(...Status.ComponentDetected) == 0 { ... = make(ComponentDetectionMap) }
    let detected : ComponentDetectionMap :=
      if query.Status.ComponentDetected.length = 0 then [] else query.Status.ComponentDetected
    match devfileLoop c query devfilesURLMap componentPortsMap devfilesMap
        { ComponentDetected := detected, dockerfileContextMap := dockerfileContextMap } with
    | (state, some err) => (state, some err)
    | (state, none) =>
      match dockerfileLoop c query state.dockerfileContextMap state.ComponentDetected with
      | (detected, err) =>
        ({ ComponentDetected := detected, dockerfileContextMap := state.dockerfileContextMap },
          err)

/-! ## Reference notions for updateComponentStub -/

/-- A computation that returns an error. -/
def failed {α : Type} (x : Except GoError α) : Prop := ∃ e, x = Except.error e

/-- The six resource keys, limits first. -/
def resourceKeys (keys : AttributeKeys) : List Str :=
  [keys.CpuLimitKey, keys.MemoryLimitKey, keys.StorageLimitKey,
   keys.CpuRequestKey, keys.MemoryRequestKey, keys.StorageRequestKey]

/-- The scanned port of a context: the first element of its port list, 0 when the list is
empty or the context has none. -/
def scannedPort (componentPortsMap : List (Str × List Int)) (context : Str) : Int :=
  ((componentPortsMap.lookup context).getD []).headD 0

/-- Some read of a recognized key fails with an error other than key-not-found, where the
port is read only when the scanned port is 0. -/
def readFails (c : Collaborators) (attrs : Attributes) (scanned : Int) : Prop :=
  fatal (attrs.GetInto c.keys.ContainerENVKey []).2 ≠ none ∨
    (scanned = 0 ∧ fatal (attrs.GetNumber c.numberOf c.keys.ContainerImagePortKey).2 ≠ none) ∨
    fatal (attrs.GetString c.keys.RouteKey).2 ≠ none ∨
    fatal (attrs.GetNumber c.numberOf c.keys.ReplicaKey).2 ≠ none ∨
    ∃ key ∈ resourceKeys c.keys, fatal (attrs.GetString key).2 ≠ none

/-- Some resource key holds a non-empty string that does not parse as a quantity. -/
def unparsableResource (c : Collaborators) (attrs : Attributes) : Prop :=
  ∃ key ∈ resourceKeys c.keys, ∃ text e, attrs.GetString key = (text, none) ∧ text ≠ [] ∧
    c.ParseQuantity text = Except.error e

/-- The map `list` after one resource block that succeeds: a non-empty string that parses
is recorded under `name`. -/
def recordParsed (c : Collaborators) (attrs : Attributes) (key : Str) (name : ResourceName)
    (list : ResourceList) : ResourceList :=
  if (attrs.GetString key).1 = [] then list
  else
    match c.ParseQuantity (attrs.GetString key).1 with
    | Except.ok quantity => mapSet list name quantity
    | Except.error _ => list

/-- The quantity of a resource key that is present: the parsed quantity of the string
read at the key. -/
def presentQuantity (c : Collaborators) (attrs : Attributes) (key : Str) : Option Quantity :=
  match attrs.lookup key with
  | none => none
  | some _ =>
    match c.ParseQuantity (attrs.GetString key).1 with
    | Except.ok quantity => some quantity
    | Except.error _ => none

/-- The entries of the resource kinds whose key is present, and no other entry. -/
def resourceEntries (c : Collaborators) (attrs : Attributes)
    (cpuKey memoryKey storageKey : Str) : ResourceList :=
  [(presentQuantity c attrs cpuKey).map (fun quantity => (ResourceName.cpu, quantity)),
   (presentQuantity c attrs memoryKey).map (fun quantity => (ResourceName.memory, quantity)),
   (presentQuantity c attrs storageKey).map
     (fun quantity => (ResourceName.storage, quantity))].filterMap id

/-- The ten recognized keys. -/
def recognizedKeys (keys : AttributeKeys) : List Str :=
  [keys.ContainerENVKey, keys.ContainerImagePortKey, keys.RouteKey, keys.ReplicaKey] ++
    resourceKeys keys

/-- The git source that the loop over the devfiles builds for a context. -/
def contextGitSource (query : ComponentDetectionQuery)
    (devfilesURLMap dockerfileContextMap : List (Str × Str)) (context : Str) : GitSource :=
  { Context := context,
    URL := query.Spec.GitSource.URL,
    Revision := query.Spec.GitSource.Revision,
    DevfileURL := mapGet devfilesURLMap context,
    DockerfileURL := mapGet dockerfileContextMap context }

/-- The Kubernetes components of a parsed devfile, in the order of the devfile. -/
def kubernetesComponents (parsed : ParsedDevfile) : List DevfileComponent :=
  parsed.Components.filter
    (fun component => component.ComponentType = ComponentType.Kubernetes)

/-- The target port of a stub by the precedence rule: the scanned port when it is not 0,
else the port attribute of the first Kubernetes component, else 0. -/
def expectedTargetPort (c : Collaborators) (scanned : Int)
    (kubernetesComponents : List DevfileComponent) : Int :=
  if scanned ≠ 0 then scanned
  else
    match kubernetesComponents with
    | [] => 0
    | first :: _ => (first.Attributes.GetNumber c.numberOf c.keys.ContainerImagePortKey).1

/-- The three resource blocks of one map, when they succeed. -/
def recordedResources (c : Collaborators) (attrs : Attributes)
    (cpuKey memoryKey storageKey : Str) (list : ResourceList) : ResourceList :=
  recordParsed c attrs storageKey ResourceName.storage
    (recordParsed c attrs memoryKey ResourceName.memory
      (recordParsed c attrs cpuKey ResourceName.cpu list))

/-- The stub after the blocks that read the attributes of the first Kubernetes component,
when all of them succeed. -/
def populatedStub (c : Collaborators) (attrs : Attributes) (componentStub : ComponentSpec) :
    ComponentSpec :=
  { componentStub with
    Env := (attrs.GetInto c.keys.ContainerENVKey componentStub.Env).1,
    TargetPort :=
      if componentStub.TargetPort = 0 then
        (attrs.GetNumber c.numberOf c.keys.ContainerImagePortKey).1
      else componentStub.TargetPort,
    Route := (attrs.GetString c.keys.RouteKey).1,
    Replicas := (attrs.GetNumber c.numberOf c.keys.ReplicaKey).1,
    Resources :=
      { Limits := recordedResources c attrs c.keys.CpuLimitKey c.keys.MemoryLimitKey
          c.keys.StorageLimitKey componentStub.Resources.Limits,
        Requests := recordedResources c attrs c.keys.CpuRequestKey c.keys.MemoryRequestKey
          c.keys.StorageRequestKey componentStub.Resources.Requests } }

/-! ## Example inputs for updateComponentStub -/

/-- Attribute keys as package `devfile` spells them. -/
def sampleKeys : AttributeKeys :=
  { ContainerENVKey := "deployment/containerENV".toList,
    ContainerImagePortKey := "deployment/container-port".toList,
    RouteKey := "deployment/route".toList,
    ReplicaKey := "deployment/replicas".toList,
    CpuLimitKey := "deployment/cpuLimit".toList,
    MemoryLimitKey := "deployment/memoryLimit".toList,
    StorageLimitKey := "deployment/storageLimit".toList,
    CpuRequestKey := "deployment/cpuRequest".toList,
    MemoryRequestKey := "deployment/memoryRequest".toList,
    StorageRequestKey := "deployment/storageRequest".toList }

/-- A quantity parser for the examples: a text that starts with a digit is a quantity,
any other text, the empty one included, is an error, as with `resource.ParseQuantity`. -/
def sampleParseQuantity (text : Str) : Except GoError Quantity :=
  match text with
  | [] => Except.error (GoError.collaborator "quantity format is wrong".toList)
  | first :: _ =>
    if isDigit first then Except.ok { canonical := text }
    else Except.error (GoError.collaborator "quantity format is wrong".toList)

/-- A number conversion for the examples: decimal digits only. -/
def sampleNumberOf (text : Str) : Option Int :=
  if text ≠ [] ∧ text.all isDigit then
    some (text.foldl (fun n digit => 10 * n + ((digit.toNat : Int) - 48)) 0)
  else none

/-- A Kubernetes component named `deploy` with the given attributes. -/
def kubernetesComponent (attrs : Attributes) : DevfileComponent :=
  { Name := "deploy".toList, ComponentType := ComponentType.Kubernetes, Attributes := attrs }

/-- A parsed devfile for a Go project with the given components. -/
def goDevfile (components : List DevfileComponent) : ParsedDevfile :=
  { Metadata := { Language := "go".toList, ProjectType := "go".toList },
    Components := components }

/-- The devfiles of the examples, by their content. -/
def sampleDevfiles : List (Str × ParsedDevfile) :=
  [("port-3000".toList, goDevfile [kubernetesComponent
      [(sampleKeys.ContainerImagePortKey, AttrValue.primitive "3000".toList)]]),
   ("port-broken".toList, goDevfile [kubernetesComponent
      [(sampleKeys.ContainerImagePortKey, AttrValue.structured)]]),
   ("env-and-route-broken".toList, goDevfile [kubernetesComponent
      [(sampleKeys.ContainerENVKey, AttrValue.string "x".toList),
       (sampleKeys.RouteKey, AttrValue.structured)]]),
   ("cpu-empty".toList, goDevfile [kubernetesComponent
      [(sampleKeys.CpuLimitKey, AttrValue.string [])]]),
   ("memory-abc".toList, goDevfile [kubernetesComponent
      [(sampleKeys.MemoryRequestKey, AttrValue.string "abc".toList)]]),
   ("no-keys".toList, goDevfile [kubernetesComponent []]),
   ("no-kubernetes".toList, goDevfile
      [{ Name := "runtime".toList, ComponentType := ComponentType.Container,
         Attributes := [(sampleKeys.ContainerImagePortKey, AttrValue.primitive "9".toList)] }]),
   ("limits".toList, goDevfile [kubernetesComponent
      [(sampleKeys.CpuLimitKey, AttrValue.string "2".toList),
       (sampleKeys.MemoryLimitKey, AttrValue.string "2Gi".toList)]])]

/-- A devfile parser for the examples: the devfiles of `sampleDevfiles`, an error for any
other content. -/
def sampleParseDevfile (devfileBytes : Str) : Except GoError ParsedDevfile :=
  match sampleDevfiles.lookup devfileBytes with
  | some parsed => Except.ok parsed
  | none => Except.error (GoError.collaborator "devfile does not parse".toList)

/-- The collaborators of the examples; every call draws the noun `thing` and the token
`x7k2`. -/
def sampleCollaborators : Collaborators :=
  { ParseDevfile := sampleParseDevfile,
    ParseQuantity := sampleParseQuantity,
    numberOf := sampleNumberOf,
    keys := sampleKeys,
    noun := fun _ => "thing".toList,
    token := fun _ => "x7k2".toList }

/-- A query on the repository `https://github.com/org/repo` with an empty detection
map. -/
def sampleQuery : ComponentDetectionQuery :=
  { Spec := { GitSource := { URL := "https://github.com/org/repo".toList, Revision := [],
                             Context := [], DevfileURL := [], DockerfileURL := [] } },
    Status := { ComponentDetected := [] } }

/-- The description that the examples expect for the context `app` of `sampleQuery`
when neither a devfile URL nor a dockerfile is known: the stub is `name`d
`app-repo-x7k2` and differs from the initial one in the given port and limits. -/
def sampleDescription (port : Int) (limits : ResourceList) : ComponentDetectionDescription :=
  { DevfileFound := false,
    Language := "go".toList,
    ProjectType := "go".toList,
    ComponentStub :=
      { ComponentName := "app-repo-x7k2".toList,
        Application := insertApplicationName,
        Source := { GitSource := some (contextGitSource sampleQuery [] [] "app".toList) },
        ContainerImage := [],
        TargetPort := port,
        Resources := { Limits := limits, Requests := [] } } }

/-- The call of the examples: one devfile context `app` with the given devfile content and
scanned ports, no devfile URL and no dockerfile. -/
def sampleRun (devfileBytes : Str) (ports : List Int) : DetectionState × Option GoError :=
  updateComponentStub sampleCollaborators (some sampleQuery) [("app".toList, devfileBytes)]
    [] [] [("app".toList, ports)]

/-- The stub recorded by a call under the name `app-repo-x7k2`. -/
def sampleStub (result : DetectionState × Option GoError) : Option ComponentSpec :=
  (result.1.ComponentDetected.lookup "app-repo-x7k2".toList).map (·.ComponentStub)

/-- A sequence of calls of `updateApplicationDevfileModel` on the same model, one per
component, whatever each call returns. -/
def attachAll (d : DevfileData) (components : List Component) : DevfileData :=
  components.foldl (fun model component => (updateApplicationDevfileModel model component).1) d

/-- The error of a component without source. -/
def sourceNilError : GoError := GoError.errorf "component source is nil".toList

/-- An image-sourced component with object name `name`, component name `componentName` and
image `image`. -/
def imageComponent (name componentName image : Str) : Component :=
  { Name := name,
    Spec := { ComponentName := componentName, Source := { GitSource := none },
              ContainerImage := image } }

/-- An image-sourced component with component name `svc1`. -/
def svc1Component : Component :=
  imageComponent "svc1-cr".toList "svc1".toList "quay.io/o/svc1:v1".toList

/-- A second image-sourced component with component name `svc1` and another image. -/
def svc1Again : Component :=
  imageComponent "svc1-again".toList "svc1".toList "quay.io/o/other:v2".toList

/-- A component with neither a git source nor an image. -/
def sourcelessComponent : Component := imageComponent "empty-cr".toList "empty".toList []

/-- A git-sourced component named `worker`, a name that `twoProjectModel` does not have. -/
def workerComponent : Component :=
  { Name := "worker-cr".toList,
    Spec := { ComponentName := "worker".toList,
              Source := { GitSource := some plainGitSource },
              ContainerImage := [] } }

/-- A model with one project and an attribute map that holds a route and the image of a
component `svc0`. -/
def attributedModel : DevfileData :=
  { Projects := [originProject "frontend".toList "https://host/a".toList],
    Attributes := some [("route".toList, AttrValue.string "r.example".toList),
                        ("containerImage/svc0".toList, AttrValue.string "quay.io/o/svc0".toList)] }

/-! ## Reference notions for the sanitizer -/

/-- The pattern `^[a-z][a-z0-9-]*[a-z0-9]$`: a lowercase letter, then characters of
`[a-z0-9-]`, the last of which is a letter or a digit. -/
def matchesNamePattern (s : Str) : Bool :=
  match s with
  | [] => false
  | c :: rest =>
    isLowerLetter c && rest.all isNameChar && (rest.getLast?.map isLowerAlnum == some true)

/-- The name after the character filter and the noun fallback
(update.go lines 375 to 379). -/
def filteredOrNoun (noun name : Str) : Str :=
  if name.filter isKept = [] then noun else name.filter isKept

/-- The digit guard: `comp-` is put in front of a name whose first character is a digit. -/
def withCompPrefix (f : Str) : Str :=
  if (f.head?.map isDigit) = some true then compPrefix ++ f else f

/-- The lowercase counterpart of a character: an uppercase letter `A` to `Z` becomes the
letter 32 code points above it, `a` to `z`, and any other character is itself. -/
def lowerAscii (c : Char) : Char :=
  if isUpperLetter c then Char.ofNat (c.toNat + 32) else c

/-- The base name: filtered (or the noun), prefixed, lowercased and cut to 58 characters. -/
def baseName (noun name : Str) : Str :=
  (toLower (withCompPrefix (filteredOrNoun noun name))).take 58

/-- A random token as `util.GetRandomString(4, true)` yields it: four characters, each a
lowercase letter or a digit. -/
def isToken (token : Str) : Prop := token.length = 4 ∧ ∀ c ∈ token, isLowerAlnum c = true

instance (token : Str) : Decidable (isToken token) := by
  unfold isToken; infer_instance

/-- The last `/`-delimited segment of a URL after one trailing `/` is removed. -/
def lastSegment (url : Str) : Str :=
  let url := if url.getLast? = some '/' then url.dropLast else url
  (url.reverse.takeWhile (· ≠ '/')).reverse

/-- Removal of a trailing `.git` and of nothing else, as Go's `strings.TrimSuffix`. -/
def trimGitSuffix (s : Str) : Str :=
  if dotGit.isSuffixOf s then s.take (s.length - dotGit.length) else s

/-- The git source of the end-to-end example: URL `https://host/git-repo.git`, context
`/context`. -/
def exampleGitSource : GitSource :=
  { URL := "https://host/git-repo.git".toList, Revision := [], Context := "/context".toList,
    DevfileURL := [], DockerfileURL := [] }

/-- A git source whose repository name starts with a hyphen. -/
def hyphenGitSource : GitSource :=
  { URL := "https://github.com/org/-abc".toList, Revision := [], Context := [],
    DevfileURL := [], DockerfileURL := [] }

/-- A git source for a GitHub Pages repository, whose name contains `.git` before its
end. -/
def pagesGitSource : GitSource :=
  { URL := "https://github.com/octocat/octocat.github.io".toList, Revision := [],
    Context := [], DevfileURL := [], DockerfileURL := [] }

/-- A git source with a sub-directory context and a URL that ends in `/`. -/
def subdirGitSource : GitSource :=
  { URL := "https://github.com/org/repo.git/".toList, Revision := [],
    Context := "src/app".toList, DevfileURL := [], DockerfileURL := [] }

/-- A git source with an empty URL and a context. -/
def emptyUrlGitSource : GitSource :=
  { URL := [], Revision := [], Context := "/context".toList, DevfileURL := [],
    DockerfileURL := [] }

/-- The sanitizer by its rules, in their order: `f` is the name without the characters
outside `[A-Za-z0-9-]`, or the fallback noun when nothing is left; `p` is `f` with `comp-`
in front when the first character of `f` is a digit; the result is the first 58
characters of the lowercased `p` (all of it when shorter), a `-` and the token.  With
nothing to read a first character from, there is no result. -/
def sanitizeReference (noun token name : Str) : Option Str :=
  let f := if name.filter isKept = [] then noun else name.filter isKept
  match f.head? with
  | none => none
  | some first =>
    let p := if isDigit first then "comp-".toList ++ f else f
    some ((toLower p).take 58 ++ "-".toList ++ token)

/-- The component with its container image emptied. -/
def withoutImage (component : Component) : Component :=
  { component with Spec := { component.Spec with ContainerImage := [] } }

/-- A git-sourced component named `svc0` that also carries a container image. -/
def gitAndImageComponent : Component :=
  { Name := "svc0-cr".toList,
    Spec := { ComponentName := "svc0".toList,
              Source := { GitSource := some plainGitSource },
              ContainerImage := "quay.io/o/other:v9".toList } }

/-- Two devfiles that differ in their second Kubernetes component only, whose environment
attribute is malformed in the second devfile: the contents `two-a` and `two-b` of the
parser `twinParseDevfile`. -/
def twinDevfiles : List (Str × ParsedDevfile) :=
  [("two-a".toList, goDevfile
      [kubernetesComponent [(sampleKeys.RouteKey, AttrValue.string "r.example".toList)],
       kubernetesComponent [(sampleKeys.ReplicaKey, AttrValue.primitive "3".toList)]]),
   ("two-b".toList, goDevfile
      [kubernetesComponent [(sampleKeys.RouteKey, AttrValue.string "r.example".toList)],
       kubernetesComponent [(sampleKeys.ContainerENVKey, AttrValue.string "x".toList)]])]

/-- A devfile parser for the devfiles of `twinDevfiles`. -/
def twinParseDevfile (devfileBytes : Str) : Except GoError ParsedDevfile :=
  match twinDevfiles.lookup devfileBytes with
  | some parsed => Except.ok parsed
  | none => Except.error (GoError.collaborator "devfile does not parse".toList)

/-- The collaborators of the examples with the parser `twinParseDevfile`. -/
def twinCollaborators : Collaborators :=
  { sampleCollaborators with ParseDevfile := twinParseDevfile }

/-- The git source of the context `app` of `sampleQuery` with a devfile URL and a
dockerfile link. -/
def bothGitSource : GitSource :=
  contextGitSource sampleQuery [("app".toList, "https://host/devfile.yaml".toList)]
    [("app".toList, "https://host/Dockerfile".toList)] "app".toList

/-- The description recorded for the context `app` of `sampleQuery` in the example of a
context with a devfile, a devfile URL and a dockerfile: port 3000 from the devfile, and
both URLs in the git source. -/
def bothDescription : ComponentDetectionDescription :=
  { DevfileFound := true,
    Language := "go".toList,
    ProjectType := "go".toList,
    ComponentStub :=
      { ComponentName := "app-repo-x7k2".toList,
        Application := insertApplicationName,
        Source := { GitSource := some bothGitSource },
        ContainerImage := [],
        TargetPort := 3000 } }

/-- The call of the example of a context with a devfile, a devfile URL and a dockerfile. -/
def bothRun : DetectionState × Option GoError :=
  updateComponentStub sampleCollaborators (some sampleQuery)
    [("app".toList, "port-3000".toList)]
    [("app".toList, "https://host/devfile.yaml".toList)]
    [("app".toList, "https://host/Dockerfile".toList)] []

/-! ## Reference notions for the two loops -/

/-- The git source of a dockerfile-only context: the URL and revision of the query, the
context, the link of the dockerfile map and no devfile URL. -/
def dockerfileGitSource (query : ComponentDetectionQuery) (context link : Str) : GitSource :=
  { Context := context,
    URL := query.Spec.GitSource.URL,
    Revision := query.Spec.GitSource.Revision,
    DevfileURL := [],
    DockerfileURL := link }

/-- The entry of a dockerfile-only context: no devfile found, language and project type
`Dockerfile`, and a stub with the name, the application placeholder and the git source,
every other field unset. -/
def dockerfileDescription (componentName : Str) (gitSource : GitSource) :
    ComponentDetectionDescription :=
  { DevfileFound := false,
    Language := "Dockerfile".toList,
    ProjectType := "Dockerfile".toList,
    ComponentStub :=
      { ComponentName := componentName,
        Application := "insert-application-name".toList,
        Source := { GitSource := some gitSource },
        ContainerImage := [],
        TargetPort := 0,
        Route := [],
        Replicas := 0,
        Resources := { Limits := [], Requests := [] },
        Env := [] } }

/-- The context an entry of the detection map is for: the context of the git source of
its stub. -/
def entryContext (description : ComponentDetectionDescription) : Option Str :=
  description.ComponentStub.Source.GitSource.map (·.Context)

/-- The component name generated for a context in a call: `getComponentName` reads the URL
of the query and the context only, with the noun and token drawn for that context; the
devfile URL and the dockerfile URL of the git source play no part in the name. -/
def generatedName (c : Collaborators) (query : ComponentDetectionQuery) (context : Str) :
    Option Str :=
  getComponentName (c.noun context) (c.token context) (dockerfileGitSource query context [])

/-- The names generated in a call do not collide with that of `context`: every other
context of the devfile map or of the dockerfile map gets a name that differs from the
name of `context`. -/
def noCollision (c : Collaborators) (query : ComponentDetectionQuery)
    (devfilesMap dockerfileContextMap : List (Str × Str)) (context : Str) : Prop :=
  ∀ other ∈ devfilesMap.map Prod.fst ++ dockerfileContextMap.map Prod.fst,
    other ≠ context → generatedName c query other ≠ generatedName c query context

instance (c : Collaborators) (query : ComponentDetectionQuery)
    (devfilesMap dockerfileContextMap : List (Str × Str)) (context : Str) :
    Decidable (noCollision c query devfilesMap dockerfileContextMap context) := by
  unfold noCollision; infer_instance

/-- The tokens of `distinctTokenCollaborators`: `x7k2` for the context `app`, `q1w2` for the
context `docs` and `zz00` for every other context. -/
def distinctToken (context : Str) : Str :=
  if context = "app".toList then "x7k2".toList
  else if context = "docs".toList then "q1w2".toList
  else "zz00".toList

/-- The collaborators of the examples with the tokens of `distinctToken`. -/
def distinctTokenCollaborators : Collaborators :=
  { sampleCollaborators with token := distinctToken }

/-- A dockerfile map with the contexts `app` and `docs`. -/
def sampleDockerfiles : List (Str × Str) :=
  [("app".toList, "https://host/app/Dockerfile".toList),
   ("docs".toList, "https://host/docs/Dockerfile".toList)]

/-- A query whose detection map already holds an entry for the context `app`, under the
name `app-old`. -/
def repeatedQuery : ComponentDetectionQuery :=
  { sampleQuery with
    Status := { ComponentDetected :=
      [("app-old".toList,
        dockerfileDescription "app-old".toList
          (dockerfileGitSource sampleQuery "app".toList "https://host/old".toList))] } }

/-- The entries of a detection map that are for a context. -/
def entriesFor (detected : ComponentDetectionMap) (context : Str) : ComponentDetectionMap :=
  detected.filter (fun entry => decide (entryContext entry.2 = some context))

/-- A dockerfile map with the contexts `a/b` and `ab`, whose names are both `ab-repo`
before the token, since the sanitizer drops the `/`. -/
def collidingDockerfiles : List (Str × Str) :=
  [("a/b".toList, "https://host/a/b/Dockerfile".toList),
   ("ab".toList, "https://host/ab/Dockerfile".toList)]

/-- A call with the dockerfile contexts `a/b` and `ab` and no devfile, in which both
contexts draw the token `x7k2`. -/
def collidingDockerfileRun : DetectionState × Option GoError :=
  updateComponentStub sampleCollaborators (some sampleQuery) [] [] collidingDockerfiles []

/-- A devfile map with the contexts `a/b` and `ab`, both with a devfile without
Kubernetes attributes. -/
def collidingDevfiles : List (Str × Str) :=
  [("a/b".toList, "no-keys".toList), ("ab".toList, "no-keys".toList)]

/-- A call with the devfile contexts `a/b` and `ab` and no dockerfile, in which both
contexts draw the token `x7k2`. -/
def collidingDevfileRun : DetectionState × Option GoError :=
  updateComponentStub sampleCollaborators (some sampleQuery) collidingDevfiles [] [] []

/-- The description built from a devfile without attributes for a context of
`sampleQuery`, under the name `ab-repo-x7k2`. -/
def plainDescription (context : Str) : ComponentDetectionDescription :=
  { DevfileFound := false,
    Language := "go".toList,
    ProjectType := "go".toList,
    ComponentStub :=
      { ComponentName := "ab-repo-x7k2".toList,
        Application := insertApplicationName,
        Source := { GitSource := some (contextGitSource sampleQuery [] [] context) },
        ContainerImage := [] } }

/-- The call of the examples for the two loops in which every context draws the same
token: a devfile for the context `app`, which also has a dockerfile, and a dockerfile
alone for the context `docs`. -/
def sameTokenRun : DetectionState × Option GoError :=
  updateComponentStub sampleCollaborators (some sampleQuery)
    [("app".toList, "no-keys".toList)] [] sampleDockerfiles []

/-! ## Reference notions for the error that updateComponentStub returns -/

/-- The first error of a sequence of steps, each given by the error it raises, if any:
none when every step passes. -/
def firstError : List (Option GoError) → Option GoError
  | [] => none
  | some e :: _ => some e
  | none :: rest => firstError rest

/-- The error of the parse of the string read at a resource key; an empty string is not
parsed. -/
def parseFailure (c : Collaborators) (text : Str) : Option GoError :=
  if text = [] then none
  else
    match c.ParseQuantity text with
    | Except.error e => some e
    | Except.ok _ => none

/-- The two steps of a resource key: the read of its string, which fails on an error other
than key-not-found, and the parse of that string. -/
def resourceSteps (c : Collaborators) (attrs : Attributes) (key : Str) :
    List (Option GoError) :=
  [fatal (attrs.GetString key).2, parseFailure c (attrs.GetString key).1]

/-- The steps that fill a stub from the attributes of the first Kubernetes component, in
the order of the source: the reads of the environment, of the port (made only when the
scanned port is 0), of the route and of the replicas, then the steps of the three limit
keys and of the three request keys. -/
def extractionSteps (c : Collaborators) (attrs : Attributes) (scanned : Int) :
    List (Option GoError) :=
  [fatal (attrs.GetInto c.keys.ContainerENVKey []).2,
   if scanned = 0 then fatal (attrs.GetNumber c.numberOf c.keys.ContainerImagePortKey).2
   else none,
   fatal (attrs.GetString c.keys.RouteKey).2,
   fatal (attrs.GetNumber c.numberOf c.keys.ReplicaKey).2] ++
    resourceSteps c attrs c.keys.CpuLimitKey ++
    resourceSteps c attrs c.keys.MemoryLimitKey ++
    resourceSteps c attrs c.keys.StorageLimitKey ++
    resourceSteps c attrs c.keys.CpuRequestKey ++
    resourceSteps c attrs c.keys.MemoryRequestKey ++
    resourceSteps c attrs c.keys.StorageRequestKey

/-- The error of a devfile context: that of its first failing step, the steps being the
parse of the devfile, the making of the component name (which panics when there is no
first character to read) and the steps of `extractionSteps` on the first Kubernetes
component, if there is one. -/
def contextError (c : Collaborators) (query : ComponentDetectionQuery)
    (componentPortsMap : List (Str × List Int)) (context devfileBytes : Str) :
    Option GoError :=
  match c.ParseDevfile devfileBytes with
  | Except.error e => some e
  | Except.ok parsed =>
    match generatedName c query context with
    | none => some GoError.runtimePanic
    | some _ =>
      match kubernetesComponents parsed with
      | [] => none
      | first :: _ =>
        firstError (extractionSteps c first.Attributes
          (scannedPort componentPortsMap context))

/-- A computation that follows a sequence of steps: it returns the error of the first
failing step, and a value that satisfies `post` when no step fails. -/
def follows {α : Type} (x : Except GoError α) (steps : List (Option GoError))
    (post : α → Prop) : Prop :=
  match firstError steps with
  | some e => x = Except.error e
  | none => ∃ a, x = Except.ok a ∧ post a

/-! ## Character lemmas -/

theorem toNat_ofNat_small (n : Nat) (h : n < 55296) : (Char.ofNat n).toNat = n := by
  have hv : n.isValidChar := Or.inl h
  simp [Char.ofNat, hv, Char.ofNatAux, Char.toNat, UInt32.toNat]

theorem toNat_toLower (c : Char) :
    c.toLower.toNat = if 65 ≤ c.toNat ∧ c.toNat ≤ 90 then c.toNat + 32 else c.toNat := by
  unfold Char.toLower
  by_cases h : 65 ≤ c.toNat ∧ c.toNat ≤ 90
  · simp only [ge_iff_le, h, and_self, if_true]
    exact toNat_ofNat_small _ (by omega)
  · simp only [ge_iff_le, h, if_false]

theorem toNat_hyphen : ('-' : Char).toNat = 45 := by decide

theorem eq_hyphen_iff (c : Char) : c = '-' ↔ c.toNat = 45 := by
  constructor
  · intro h; rw [h]; exact toNat_hyphen
  · intro h
    have := congrArg Char.ofNat (h.trans toNat_hyphen.symm)
    simpa using this

theorem isNameChar_iff (c : Char) :
    isNameChar c = true ↔
      (97 ≤ c.toNat ∧ c.toNat ≤ 122) ∨ (48 ≤ c.toNat ∧ c.toNat ≤ 57) ∨ c.toNat = 45 := by
  simp [isNameChar, isLowerAlnum, isLowerLetter, isDigit, eq_hyphen_iff, or_assoc]

theorem isKept_iff (c : Char) :
    isKept c = true ↔
      (97 ≤ c.toNat ∧ c.toNat ≤ 122) ∨ (65 ≤ c.toNat ∧ c.toNat ≤ 90) ∨
        (48 ≤ c.toNat ∧ c.toNat ≤ 57) ∨ c.toNat = 45 := by
  simp [isKept, isLowerLetter, isUpperLetter, isDigit, eq_hyphen_iff, or_assoc]

theorem isNameChar_toLower_of_isKept (c : Char) (h : isKept c = true) :
    isNameChar c.toLower = true := by
  rw [isKept_iff] at h
  rw [isNameChar_iff, toNat_toLower]
  split_ifs with hc <;> omega

theorem isDigit_toLower (c : Char) : isDigit c.toLower = isDigit c := by
  have h := toNat_toLower c
  unfold isDigit
  rw [h, decide_eq_decide]
  split_ifs with hc
  · omega
  · rfl

theorem isNameChar_of_isLowerAlnum (c : Char) (h : isLowerAlnum c = true) :
    isNameChar c = true := by
  simp [isNameChar, h]

/-! ## Structure of the sanitizer's result -/

theorem withCompPrefix_ne_nil (f : Str) (h : f ≠ []) : withCompPrefix f ≠ [] := by
  unfold withCompPrefix
  split_ifs
  · simp [compPrefix]
  · exact h

theorem sanitizeComponentName_eq_none (noun token name : Str)
    (h : filteredOrNoun noun name = []) : sanitizeComponentName noun token name = none := by
  unfold filteredOrNoun at h
  unfold sanitizeComponentName
  simp only [h]

theorem sanitizeComponentName_eq_some (noun token name : Str)
    (h : filteredOrNoun noun name ≠ []) :
    sanitizeComponentName noun token name = some (baseName noun name ++ '-' :: token) := by
  unfold baseName
  generalize hf : filteredOrNoun noun name = f at h
  unfold filteredOrNoun at hf
  unfold sanitizeComponentName
  simp only [hf]
  cases f with
  | nil => exact absurd rfl h
  | cons c rest =>
    simp only [withCompPrefix, List.head?_cons, Option.map_some', Option.some.injEq]
    congr 2
    split_ifs with h1 h2 h2
    · rfl
    · rw [List.take_of_length_le (by omega)]
    · rfl
    · rw [List.take_of_length_le (by omega)]

theorem baseName_length_le (noun name : Str) : (baseName noun name).length ≤ 58 := by
  unfold baseName
  rw [List.length_take]
  exact Nat.min_le_left _ _

theorem baseName_ne_nil (noun name : Str) (h : filteredOrNoun noun name ≠ []) :
    baseName noun name ≠ [] := by
  unfold baseName toLower
  have h1 := withCompPrefix_ne_nil _ h
  cases hp : withCompPrefix (filteredOrNoun noun name) with
  | nil => exact absurd hp h1
  | cons c rest => simp

theorem filteredOrNoun_ne_nil_of_noun (noun name : Str) (h : noun ≠ []) :
    filteredOrNoun noun name ≠ [] := by
  unfold filteredOrNoun
  split_ifs with hf
  · exact h
  · exact hf

theorem filteredOrNoun_of_filter_ne_nil (noun name : Str) (h : name.filter isKept ≠ []) :
    filteredOrNoun noun name = name.filter isKept := by
  unfold filteredOrNoun
  rw [if_neg h]

theorem isKept_of_mem_compPrefix (c : Char) (h : c ∈ compPrefix) : isKept c = true := by
  simp only [compPrefix, List.mem_cons, List.mem_singleton, List.not_mem_nil, or_false] at h
  rcases h with h | h | h | h | h <;> subst h <;> decide

theorem isNameChar_of_mem_baseName (noun name : Str) (h : name.filter isKept ≠ [])
    (c : Char) (hc : c ∈ baseName noun name) : isNameChar c = true := by
  unfold baseName at hc
  rw [filteredOrNoun_of_filter_ne_nil noun name h] at hc
  have hc1 := List.mem_of_mem_take hc
  unfold toLower at hc1
  rw [List.mem_map] at hc1
  obtain ⟨d, hd, rfl⟩ := hc1
  apply isNameChar_toLower_of_isKept
  unfold withCompPrefix at hd
  split_ifs at hd
  · rw [List.mem_append] at hd
    rcases hd with hd | hd
    · exact isKept_of_mem_compPrefix d hd
    · exact (List.mem_filter.mp hd).2
  · exact (List.mem_filter.mp hd).2

theorem getLast_append_token (base token : Str) (h : token.length = 4) :
    ∃ c, c ∈ token ∧ (base ++ '-' :: token).getLast? = some c := by
  match token, h with
  | [a, b, c, d], _ =>
    refine ⟨d, by simp, ?_⟩
    simp [List.getLast?_append]

/-! ## Claims on sanitizeComponentName -/

/-- C1: the doc comment of `sanitizeComponentName` requires the name to start with an
alphabet character, but the digit guard does not cover a leading hyphen: for the name
`-abc`, whatever the noun and the token, the function returns `-abc-` followed by the
token, which starts with `-` and does not match `^[a-z][a-z0-9-]*[a-z0-9]$`; a
repository of that name under `https://github.com/org` leads `getComponentName` to that
result. -/
theorem sanitizeComponentName_keeps_leading_hyphen (noun token : Str) :
    sanitizeComponentName noun token "-abc".toList = some ("-abc-".toList ++ token) ∧
      getComponentName noun token hyphenGitSource = some ("-abc-".toList ++ token) ∧
      ("-abc-".toList ++ token).head? = some '-' ∧
      matchesNamePattern ("-abc-".toList ++ token) = false := by
  refine ⟨rfl, rfl, rfl, ?_⟩
  have h : isLowerLetter '-' = false := by decide
  show matchesNamePattern ('-' :: ("abc-".toList ++ token)) = false
  simp [matchesNamePattern, h]

/-- C2: whenever the sanitizer has a first character to read (the filtered name or the
fallback noun is non-empty) and the token has four characters, it returns a base name of
at most 58 characters, one `-` and the token, so a name of at most 63 characters. -/
theorem sanitizeComponentName_length_le (noun token name : Str)
    (h : name.filter isKept ≠ [] ∨ noun ≠ []) (htoken : token.length = 4) :
    ∃ base, sanitizeComponentName noun token name = some (base ++ '-' :: token) ∧
      base.length ≤ 58 ∧ (base ++ '-' :: token).length ≤ 63 := by
  have hf : filteredOrNoun noun name ≠ [] := by
    rcases h with h | h
    · rw [filteredOrNoun_of_filter_ne_nil noun name h]; exact h
    · exact filteredOrNoun_ne_nil_of_noun noun name h
  refine ⟨baseName noun name, sanitizeComponentName_eq_some noun token name hf,
    baseName_length_le noun name, ?_⟩
  have := baseName_length_le noun name
  simp only [List.length_append, List.length_cons, htoken]
  omega

/-- Witness of C2: a 70-character name, cut to 58 characters before the suffix. -/
theorem sanitizeComponentName_length_le_witness :
    ∃ base, sanitizeComponentName "thing".toList "x7k2".toList (List.replicate 70 'A') =
        some (base ++ '-' :: "x7k2".toList) ∧
      base.length ≤ 58 ∧ (base ++ '-' :: "x7k2".toList).length ≤ 63 :=
  sanitizeComponentName_length_le "thing".toList "x7k2".toList (List.replicate 70 'A')
    (Or.inl (by decide)) (by decide)

/-- C3: when the filter keeps at least one character of the name and the token is four
lowercase letters or digits, every character of the sanitized name is a lowercase letter,
a digit or `-`, and its last character is a letter or a digit. -/
theorem sanitizeComponentName_charset (noun token name : Str)
    (h : name.filter isKept ≠ []) (htoken : isToken token) :
    ∃ r, sanitizeComponentName noun token name = some r ∧
      (∀ c ∈ r, isNameChar c = true) ∧
      ∃ last, r.getLast? = some last ∧ isLowerAlnum last = true := by
  have hf : filteredOrNoun noun name ≠ [] := by
    rw [filteredOrNoun_of_filter_ne_nil noun name h]; exact h
  refine ⟨_, sanitizeComponentName_eq_some noun token name hf, ?_, ?_⟩
  · intro c hc
    rw [List.mem_append, List.mem_cons] at hc
    rcases hc with hc | hc | hc
    · exact isNameChar_of_mem_baseName noun name h c hc
    · subst hc; decide
    · exact isNameChar_of_isLowerAlnum c (htoken.2 c hc)
  · obtain ⟨c, hc, hlast⟩ := getLast_append_token (baseName noun name) token htoken.1
    exact ⟨c, hlast, htoken.2 c hc⟩

/-- Witness of C3: a name whose 58th kept character is `-`, so that the cut falls right
after a hyphen; the result is 57 letters, `--` and the token. -/
theorem sanitizeComponentName_charset_witness :
    sanitizeComponentName "thing".toList "x7k2".toList
        (List.replicate 57 'a' ++ "-bcd".toList) =
      some (List.replicate 57 'a' ++ "--x7k2".toList) ∧
    ∃ r, sanitizeComponentName "thing".toList "x7k2".toList
        (List.replicate 57 'a' ++ "-bcd".toList) = some r ∧
      (∀ c ∈ r, isNameChar c = true) ∧
      ∃ last, r.getLast? = some last ∧ isLowerAlnum last = true :=
  ⟨by decide, sanitizeComponentName_charset "thing".toList "x7k2".toList
    (List.replicate 57 'a' ++ "-bcd".toList) (by decide) (by decide)⟩

/-- C4: with a non-empty fallback noun the sanitizer never fails and never returns the
empty string: for every name, the empty one and those the filter empties included, the
read of the first character is in range and the result is non-empty. -/
theorem sanitizeComponentName_nonempty (noun token name : Str) (hnoun : noun ≠ []) :
    filteredOrNoun noun name ≠ [] ∧
      ∃ r, sanitizeComponentName noun token name = some r ∧ r ≠ [] := by
  have hf := filteredOrNoun_ne_nil_of_noun noun name hnoun
  refine ⟨hf, _, sanitizeComponentName_eq_some noun token name hf, ?_⟩
  simp

/-- Witness of C4: the empty name falls back to the noun. -/
theorem sanitizeComponentName_nonempty_witness :
    filteredOrNoun "thing".toList [] ≠ [] ∧
      ∃ r, sanitizeComponentName "thing".toList "x7k2".toList [] = some r ∧ r ≠ [] :=
  sanitizeComponentName_nonempty "thing".toList "x7k2".toList [] (by decide)

/-- C5: two sanitized names built with different four-character tokens differ, whatever
the two raw names and nouns; and with the same token, two raw names with the same base
name (filtered, prefixed, lowercased, truncated) give the same sanitized name. -/
theorem sanitizeComponentName_suffix_separates (nounA nounB s t a b : Str)
    (hA : nounA ≠ []) (hB : nounB ≠ []) (hs : s.length = 4) (ht : t.length = 4) :
    (s ≠ t → sanitizeComponentName nounA s a ≠ sanitizeComponentName nounB t b) ∧
      (baseName nounA a = baseName nounB b →
        sanitizeComponentName nounA s a = sanitizeComponentName nounB s b) := by
  have hfa := filteredOrNoun_ne_nil_of_noun nounA a hA
  have hfb := filteredOrNoun_ne_nil_of_noun nounB b hB
  constructor
  · intro hne heq
    rw [sanitizeComponentName_eq_some nounA s a hfa,
      sanitizeComponentName_eq_some nounB t b hfb, Option.some.injEq] at heq
    have h2 := (List.append_inj' heq (by simp [hs, ht])).2
    exact hne (List.cons.inj h2).2
  · intro hbase
    rw [sanitizeComponentName_eq_some nounA s a hfa,
      sanitizeComponentName_eq_some nounB s b hfb, hbase]

/-- Witness of C5: two raw names that differ only in filtered characters and letter case,
with two tokens and with the same token. -/
theorem sanitizeComponentName_suffix_separates_witness :
    ("x7k2".toList ≠ "x7k3".toList →
        sanitizeComponentName "thing".toList "x7k2".toList "repo".toList ≠
          sanitizeComponentName "thing".toList "x7k3".toList "Re_po".toList) ∧
      (baseName "thing".toList "repo".toList = baseName "thing".toList "Re_po".toList →
        sanitizeComponentName "thing".toList "x7k2".toList "repo".toList =
          sanitizeComponentName "thing".toList "x7k2".toList "Re_po".toList) :=
  sanitizeComponentName_suffix_separates "thing".toList "thing".toList "x7k2".toList
    "x7k3".toList "repo".toList "Re_po".toList (by decide) (by decide) (by decide) (by decide)

/-! ## Claims on getComponentName -/

theorem head_baseName_not_digit (noun name : Str) (h : filteredOrNoun noun name ≠ []) :
    ∃ c, (baseName noun name).head? = some c ∧ isDigit c = false := by
  unfold baseName
  generalize filteredOrNoun noun name = f at h
  cases f with
  | nil => exact absurd rfl h
  | cons c rest =>
    by_cases hd : isDigit c = true
    · refine ⟨'c', ?_, by decide⟩
      simp [withCompPrefix, hd, compPrefix, toLower]
    · refine ⟨c.toLower, ?_, ?_⟩
      · simp [withCompPrefix, hd, toLower]
      · rw [isDigit_toLower]; simpa using hd

/-- C6: the repository name is cut at the first occurrence of `.git`, not only at a
trailing one: for `https://github.com/octocat/octocat.github.io` the code's `repoName` is
`octocat`, whereas the last segment with a trailing `.git` stripped is
`octocat.github.io`; the component name becomes `octocat-` followed by the token. -/
theorem repoName_cuts_at_first_dotGit (noun token : Str) :
    repoName pagesGitSource.URL = "octocat".toList ∧
      trimGitSuffix (lastSegment pagesGitSource.URL) = "octocat.github.io".toList ∧
      getComponentName noun token pagesGitSource = some ("octocat-".toList ++ token) :=
  ⟨by decide, by decide, rfl⟩

/-- C7, as stated, fails on the example: the raw name built from URL
`https://host/git-repo.git` and context `/context` is not `context-git-repo`. -/
theorem rawComponentName_example_ne :
    rawComponentName exampleGitSource ≠ "context-git-repo".toList := by decide

/-- C7, amended: for a non-empty URL the component name is the sanitized
`context ++ "-" ++ repoName` when the context is none of the empty string, `.` and `./`,
and the sanitized `repoName` otherwise; on the example the raw name is
`/context-git-repo`, the sanitizer drops the `/`, and the result is `context-git-repo-`
followed by the token, of length at most 63 for a four-character token. -/
theorem getComponentName_of_nonempty_url (noun token : Str) (gitSource : GitSource)
    (hurl : gitSource.URL ≠ []) :
    getComponentName noun token gitSource =
        (if gitSource.Context = [] ∨ gitSource.Context = ['.'] ∨ gitSource.Context = ['.', '/']
          then sanitizeComponentName noun token (repoName gitSource.URL)
          else sanitizeComponentName noun token
            (gitSource.Context ++ '-' :: repoName gitSource.URL)) ∧
      rawComponentName exampleGitSource = "/context-git-repo".toList ∧
      getComponentName noun token exampleGitSource =
        some ("context-git-repo-".toList ++ token) ∧
      (token.length = 4 → ("context-git-repo-".toList ++ token).length ≤ 63) := by
  refine ⟨?_, by decide, rfl, ?_⟩
  · unfold getComponentName rawComponentName
    have hlen : gitSource.URL.length ≠ 0 := by
      intro h0; exact hurl (List.length_eq_zero.mp h0)
    simp only [hlen, ne_eq, not_false_eq_true, if_true]
    by_cases h1 : gitSource.Context = []
    · simp [h1]
    · by_cases h2 : gitSource.Context = ['.']
      · simp [h2]
      · by_cases h3 : gitSource.Context = ['.', '/']
        · simp [h3]
        · simp [h1, h2, h3]
  · intro h4
    simp [h4]

/-- Witness of C7: a sub-directory context on a repository URL with a trailing slash. -/
theorem getComponentName_of_nonempty_url_witness :
    getComponentName "thing".toList "x7k2".toList subdirGitSource =
        sanitizeComponentName "thing".toList "x7k2".toList "src/app-repo".toList ∧
      getComponentName "thing".toList "x7k2".toList subdirGitSource =
        some "srcapp-repo-x7k2".toList :=
  ⟨(getComponentName_of_nonempty_url "thing".toList "x7k2".toList subdirGitSource
      (by decide)).1, by decide⟩

theorem toLower_eq_map_lowerAscii (s : Str) : toLower s = s.map lowerAscii := by
  unfold toLower
  apply List.map_congr_left
  intro c _
  unfold Char.toLower lowerAscii isUpperLetter
  by_cases h : 65 ≤ c.toNat ∧ c.toNat ≤ 90
  · simp [h]
  · simp [h]

theorem isUpperLetter_lowerAscii (c : Char) : isUpperLetter (lowerAscii c) = false := by
  unfold lowerAscii
  by_cases h : isUpperLetter c = true
  · rw [if_pos h]
    unfold isUpperLetter at h ⊢
    have h1 : 65 ≤ c.toNat ∧ c.toNat ≤ 90 := by simpa using h
    rw [toNat_ofNat_small _ (by omega)]
    simp only [decide_eq_false_iff_not, not_and, not_le]
    omega
  · rw [if_neg h]
    simpa using h

/-- C8: for an empty URL, whatever the context, the raw name is empty and the component
name is the fallback noun, with `comp-` in front if it starts with a digit, lowercased
and cut to 58 characters, followed by `-` and the token; it does not start with a
digit.  Lowercased means that every letter `A` to `Z` is replaced by its counterpart `a`
to `z` and nothing else changes, so the part before the token has no uppercase letter. -/
theorem getComponentName_of_empty_url (noun token : Str) (gitSource : GitSource)
    (hurl : gitSource.URL = []) (hnoun : noun ≠ []) :
    rawComponentName gitSource = [] ∧
      getComponentName noun token gitSource =
        some ((toLower (withCompPrefix noun)).take 58 ++ '-' :: token) ∧
      (∃ r c, getComponentName noun token gitSource = some r ∧ r.head? = some c ∧
        isDigit c = false) ∧
      ∃ base, getComponentName noun token gitSource = some (base ++ '-' :: token) ∧
        base = ((withCompPrefix noun).map lowerAscii).take 58 ∧
        base.length ≤ 58 ∧
        ∀ c ∈ base, isUpperLetter c = false := by
  have hraw : rawComponentName gitSource = [] := by
    simp [rawComponentName, hurl]
  have hf : filteredOrNoun noun [] = noun := by simp [filteredOrNoun]
  have hne : filteredOrNoun noun [] ≠ [] := by rw [hf]; exact hnoun
  have hres := sanitizeComponentName_eq_some noun token [] hne
  have hbase : baseName noun [] = (toLower (withCompPrefix noun)).take 58 := by
    unfold baseName; rw [hf]
  have hname : getComponentName noun token gitSource =
      some ((toLower (withCompPrefix noun)).take 58 ++ '-' :: token) := by
    unfold getComponentName
    rw [hraw, hres, hbase]
  refine ⟨hraw, hname, ?_, ?_⟩
  · obtain ⟨c, hc, hd⟩ := head_baseName_not_digit noun [] hne
    refine ⟨baseName noun [] ++ '-' :: token, c, ?_, ?_, hd⟩
    · unfold getComponentName
      rw [hraw]; exact hres
    · have hb := baseName_ne_nil noun [] hne
      cases hbn : baseName noun [] with
      | nil => exact absurd hbn hb
      | cons x xs =>
        rw [hbn] at hc
        simpa using hc
  · refine ⟨((withCompPrefix noun).map lowerAscii).take 58, ?_, rfl, ?_, ?_⟩
    · rw [hname, toLower_eq_map_lowerAscii]
    · rw [List.length_take]
      exact Nat.min_le_left _ _
    · intro c hc
      obtain ⟨d, _, hd⟩ := List.mem_map.mp (List.mem_of_mem_take hc)
      rw [← hd]
      exact isUpperLetter_lowerAscii d

/-- Witness of C8: an empty URL with a context and the noun `3D-Printer`, which starts with
a digit and has uppercase letters; the component name is `comp-3d-printer-x7k2`. -/
theorem getComponentName_of_empty_url_witness :
    "3D-Printer".toList ≠ [] ∧
      rawComponentName emptyUrlGitSource = [] ∧
      getComponentName "3D-Printer".toList "x7k2".toList emptyUrlGitSource =
        some "comp-3d-printer-x7k2".toList ∧
      getComponentName "Widget".toList "x7k2".toList emptyUrlGitSource =
        some "widget-x7k2".toList :=
  have h := getComponentName_of_empty_url "3D-Printer".toList "x7k2".toList emptyUrlGitSource
    rfl (by decide)
  have h2 := getComponentName_of_empty_url "Widget".toList "x7k2".toList emptyUrlGitSource
    rfl (by decide)
  ⟨by decide, h.1,
    h.2.2.2.elim fun base hbase => by
      rw [hbase.1, hbase.2.1]
      decide,
    h2.2.2.2.elim fun base hbase => by
      rw [hbase.1, hbase.2.1]
      decide⟩

/-! ## Claims on updateApplicationDevfileModel -/

theorem addProjects_single_fresh (d : DevfileData) (project : Project)
    (h : ∀ q ∈ d.Projects, q.Name ≠ project.Name) :
    d.AddProjects [project] = ({ d with Projects := d.Projects ++ [project] }, none) := by
  have hc : (d.Projects.map (·.Name)).contains project.Name = false := by
    rw [Bool.eq_false_iff]
    intro hmem
    simp only [List.contains_eq_any_beq, List.any_eq_true, List.mem_map, beq_iff_eq] at hmem
    obtain ⟨n, ⟨q, hq, hname⟩, hn⟩ := hmem
    exact h q hq (hname.trans hn.symm)
  simp only [DevfileData.AddProjects, List.filter_cons, hc, Bool.not_false, if_true,
    List.filter_nil, Bool.false_eq_true, if_false]

theorem filter_keyNotFound (key : Str) :
    (some (GoError.keyNotFound key)).filter (fun e => !e.isKeyNotFound) = none := rfl

theorem filter_attributeDecode (key : Str) :
    (some (GoError.attributeDecode key)).filter (fun e => !e.isKeyNotFound) =
      some (GoError.attributeDecode key) := rfl

theorem filter_no_error :
    (none : Option GoError).filter (fun e => !e.isKeyNotFound) = none := rfl

theorem with_attributes_self (d : DevfileData) (attrs : Attributes)
    (h : d.Attributes = some attrs) :
    ({ d with Attributes := some attrs } : DevfileData) = d := by
  cases d; simp_all

/-- The image branch of `updateApplicationDevfileModel`, by the content found at the
component's key in the attribute map (the empty map when there was none). -/
theorem updateApplicationDevfileModel_image (d : DevfileData) (component : Component)
    (hgit : component.Spec.Source.GitSource = none)
    (himg : component.Spec.ContainerImage ≠ []) :
    updateApplicationDevfileModel d component =
      (let written := withImageWritten d component
       let duplicate := GoError.errorf (alreadyHasComponent ++ component.Name)
       match (d.Attributes.getD []).lookup (imageKey component) with
       | none => (written, none)
       | some AttrValue.structured =>
         (d, some (GoError.attributeDecode (imageKey component)))
       | some (AttrValue.envVars _) =>
         (d, some (GoError.attributeDecode (imageKey component)))
       | some (AttrValue.string text) =>
         if text = [] then (written, none) else (d, some duplicate)
       | some (AttrValue.primitive text) =>
         if text = [] then (written, none) else (d, some duplicate)) := by
  unfold withImageWritten imageKey
  cases hattrs : d.Attributes with
  | none =>
    simp only [updateApplicationDevfileModel, updateApplicationDevfileModelVia,
      libraryMethods, hgit, himg, hattrs, ne_eq, not_false_eq_true,
      if_true, Attributes.GetString, List.lookup, filter_keyNotFound, not_true_eq_false,
      if_false, Option.getD_none]
  | some attrs =>
    have hd := with_attributes_self d attrs hattrs
    cases hlook : attrs.lookup (containerImagePrefix ++ component.Spec.ComponentName) with
    | none =>
      simp only [updateApplicationDevfileModel, updateApplicationDevfileModelVia,
        libraryMethods, hgit, himg, hattrs, ne_eq, not_false_eq_true,
        if_true, Attributes.GetString, hlook, filter_keyNotFound, not_true_eq_false,
        if_false, Option.getD_some]
    | some v =>
      cases v with
      | structured =>
        simp only [updateApplicationDevfileModel, updateApplicationDevfileModelVia,
          libraryMethods, hgit, himg, hattrs, ne_eq,
          not_false_eq_true, if_true, Attributes.GetString, hlook, filter_attributeDecode,
          Option.getD_some]
      | envVars env =>
        simp only [updateApplicationDevfileModel, updateApplicationDevfileModelVia,
          libraryMethods, hgit, himg, hattrs, ne_eq,
          not_false_eq_true, if_true, Attributes.GetString, hlook, filter_attributeDecode,
          Option.getD_some]
      | string text =>
        by_cases ht : text = []
        · simp only [updateApplicationDevfileModel, updateApplicationDevfileModelVia,
            libraryMethods, hgit, himg, hattrs, ne_eq,
            not_false_eq_true, if_true, Attributes.GetString, hlook, filter_no_error, ht,
            not_true_eq_false, if_false, Option.getD_some]
        · simp only [updateApplicationDevfileModel, updateApplicationDevfileModelVia,
            libraryMethods, hgit, himg, hattrs, ne_eq,
            not_false_eq_true, if_true, Attributes.GetString, hlook, filter_no_error, ht,
            if_false, Option.getD_some]
      | primitive text =>
        by_cases ht : text = []
        · simp only [updateApplicationDevfileModel, updateApplicationDevfileModelVia,
            libraryMethods, hgit, himg, hattrs, ne_eq,
            not_false_eq_true, if_true, Attributes.GetString, hlook, filter_no_error, ht,
            not_true_eq_false, if_false, Option.getD_some]
        · simp only [updateApplicationDevfileModel, updateApplicationDevfileModelVia,
            libraryMethods, hgit, himg, hattrs, ne_eq,
            not_false_eq_true, if_true, Attributes.GetString, hlook, filter_no_error, ht,
            if_false, Option.getD_some]

theorem any_name_eq_true_iff (projects : List Project) (name : Str) :
    projects.any (fun project => decide (project.Name = name)) = true ↔
      ∃ project ∈ projects, project.Name = name := by
  simp [List.any_eq_true]

theorem updateApplicationDevfileModel_git_taken (d : DevfileData) (component : Component)
    (gitSource : GitSource) (hgit : component.Spec.Source.GitSource = some gitSource)
    (hany : d.Projects.any
      (fun project => decide (project.Name = component.Spec.ComponentName)) = true) :
    updateApplicationDevfileModel d component =
      (d, some (GoError.errorf (alreadyHasComponent ++ component.Spec.ComponentName))) := by
  simp only [updateApplicationDevfileModel, updateApplicationDevfileModelVia,
    libraryMethods, hgit, DevfileData.GetProjects, hany, if_true]

theorem updateApplicationDevfileModel_git_fresh (d : DevfileData) (component : Component)
    (gitSource : GitSource) (hgit : component.Spec.Source.GitSource = some gitSource)
    (hany : ¬ d.Projects.any
      (fun project => decide (project.Name = component.Spec.ComponentName)) = true) :
    updateApplicationDevfileModel d component =
      ({ d with Projects :=
          d.Projects ++ [originProject component.Spec.ComponentName gitSource.URL] },
        none) := by
  have hfresh : ∀ q ∈ d.Projects, q.Name ≠ component.Spec.ComponentName := by
    intro q hq hname
    exact hany ((any_name_eq_true_iff _ _).mpr ⟨q, hq, hname⟩)
  have hadd := addProjects_single_fresh d
    (originProject component.Spec.ComponentName gitSource.URL) hfresh
  unfold originProject at hadd
  simp only [updateApplicationDevfileModel, updateApplicationDevfileModelVia,
    libraryMethods, hgit, DevfileData.GetProjects, hany]
  simp only [hadd]
  rfl

/-- C9: when the component has a git source and a project of the model already bears the
component's name, the call returns the error "application already has a component with
name ..." and the model, projects and attributes, is what it was before. -/
theorem updateApplicationDevfileModel_duplicate_project (d : DevfileData)
    (component : Component) (gitSource : GitSource)
    (hgit : component.Spec.Source.GitSource = some gitSource)
    (hdup : ∃ project ∈ d.Projects, project.Name = component.Spec.ComponentName) :
    updateApplicationDevfileModel d component =
      (d, some (GoError.errorf (alreadyHasComponent ++ component.Spec.ComponentName))) := by
  exact updateApplicationDevfileModel_git_taken d component gitSource hgit
    ((any_name_eq_true_iff d.Projects component.Spec.ComponentName).mpr hdup)

/-- Witness of C9: a second component named `backend` on a model that has that project. -/
theorem updateApplicationDevfileModel_duplicate_project_witness :
    updateApplicationDevfileModel twoProjectModel backendComponent =
      (twoProjectModel, some (GoError.errorf
        "application already has a component with name backend".toList)) :=
  updateApplicationDevfileModel_duplicate_project twoProjectModel backendComponent
    plainGitSource rfl ⟨originProject "backend".toList "https://host/b".toList, by decide, rfl⟩

theorem updateApplicationDevfileModel_image_cases (d : DevfileData) (component : Component)
    (hgit : component.Spec.Source.GitSource = none) :
    (∃ err, updateApplicationDevfileModel d component = (d, some err)) ∨
      updateApplicationDevfileModel d component = (withImageWritten d component, none) := by
  by_cases himg : component.Spec.ContainerImage = []
  · left
    refine ⟨GoError.errorf "component source is nil".toList, ?_⟩
    simp only [updateApplicationDevfileModel, updateApplicationDevfileModelVia,
      libraryMethods, hgit, himg, ne_eq, not_true_eq_false, if_false]
  · rw [updateApplicationDevfileModel_image d component hgit himg]
    cases hlook : (d.Attributes.getD []).lookup (imageKey component) with
    | none => right; rfl
    | some v =>
      cases v with
      | structured => left; exact ⟨GoError.attributeDecode (imageKey component), rfl⟩
      | envVars env => left; exact ⟨GoError.attributeDecode (imageKey component), rfl⟩
      | string text =>
        by_cases ht : text = []
        · right; simp only [ht, if_true]
        · left
          exact ⟨GoError.errorf (alreadyHasComponent ++ component.Name), by
            simp only [ht, if_false]⟩
      | primitive text =>
        by_cases ht : text = []
        · right; simp only [ht, if_true]
        · left
          exact ⟨GoError.errorf (alreadyHasComponent ++ component.Name), by
            simp only [ht, if_false]⟩

theorem updateApplicationDevfileModelVia_sourceless (methods : ProjectMethods)
    (d : DevfileData) (component : Component)
    (hgit : component.Spec.Source.GitSource = none) :
    updateApplicationDevfileModelVia methods d component =
      updateApplicationDevfileModel d component := by
  unfold updateApplicationDevfileModel updateApplicationDevfileModelVia
  rw [hgit]

theorem updateApplicationDevfileModelVia_listing (methods : ProjectMethods)
    (d : DevfileData) (component : Component) (gitSource : GitSource) (err : GoError)
    (hgit : component.Spec.Source.GitSource = some gitSource)
    (hlist : methods.GetProjects d = Except.error err) :
    updateApplicationDevfileModelVia methods d component = (d, some err) := by
  simp only [updateApplicationDevfileModelVia, hgit, hlist]

theorem updateApplicationDevfileModelVia_taken (methods : ProjectMethods)
    (d : DevfileData) (component : Component) (gitSource : GitSource)
    (projects : List Project)
    (hgit : component.Spec.Source.GitSource = some gitSource)
    (hlist : methods.GetProjects d = Except.ok projects)
    (hany : projects.any
      (fun project => decide (project.Name = component.Spec.ComponentName)) = true) :
    updateApplicationDevfileModelVia methods d component =
      (d, some (GoError.errorf (alreadyHasComponent ++ component.Spec.ComponentName))) := by
  simp only [updateApplicationDevfileModelVia, hgit, hlist, hany, if_true]

theorem updateApplicationDevfileModelVia_fresh (methods : ProjectMethods)
    (d : DevfileData) (component : Component) (gitSource : GitSource)
    (projects : List Project)
    (hgit : component.Spec.Source.GitSource = some gitSource)
    (hlist : methods.GetProjects d = Except.ok projects)
    (hany : ¬ projects.any
      (fun project => decide (project.Name = component.Spec.ComponentName)) = true) :
    updateApplicationDevfileModelVia methods d component =
      methods.AddProjects d [originProject component.Spec.ComponentName gitSource.URL] := by
  simp only [updateApplicationDevfileModelVia, hgit, hlist, hany, originProject]
  rcases methods.AddProjects d
    [{ Name := component.Spec.ComponentName, Remotes := [("origin".toList, gitSource.URL)] }]
    with ⟨model, _ | err⟩ <;> rfl

theorem addsOneOrNothing_library : addsOneOrNothing libraryMethods := by
  intro d project
  show d.AddProjects [project] = _ ∨ ∃ err, d.AddProjects [project] = (d, some err)
  by_cases hc : (d.Projects.map (·.Name)).contains project.Name = true
  · right
    refine ⟨GoError.fieldAlreadyExist [project.Name], ?_⟩
    cases d with
    | mk projects attrs =>
      simp only at hc
      simp only [DevfileData.AddProjects, List.filter_cons, hc, Bool.not_true,
        Bool.false_eq_true, if_false, if_true, List.filter_nil, List.append_nil,
        List.map_cons, List.map_nil]
      simp
  · left
    refine addProjects_single_fresh d project ?_
    intro q hq hname
    apply hc
    simp only [List.contains_eq_any_beq, List.any_eq_true, List.mem_map, beq_iff_eq]
    exact ⟨project.Name, ⟨q, hq, hname⟩, rfl⟩

/-- C10: the call is all-or-nothing, on every path and for every implementation of the
model's `GetProjects` and `AddProjects` whose `AddProjects` of one project either appends
it or fails and adds nothing, as that of the devfile library does.  Either the call
returns an error and the model is unchanged, or it returns no error and the model is the
old one with exactly one project appended, or it returns no error and the model is the old
one with the component's image written at `containerImage/<ComponentName>` in its
attribute map (the empty map when there was none).  On the error paths of the git branch:
when the project listing fails, that error is returned and the model is unchanged; when
adding the project fails, that error is returned and the model is as `AddProjects` left
it, which is unchanged for such an `AddProjects`.  For any implementation at all, the
call either returns an error on an unchanged model, or writes the image, or returns what
`AddProjects` of the one new project returns. -/
theorem updateApplicationDevfileModel_all_or_nothing (methods : ProjectMethods)
    (d : DevfileData) (component : Component) :
    (addsOneOrNothing methods →
      (∃ err, updateApplicationDevfileModelVia methods d component = (d, some err)) ∨
        (∃ project, updateApplicationDevfileModelVia methods d component =
          ({ d with Projects := d.Projects ++ [project] }, none)) ∨
        updateApplicationDevfileModelVia methods d component =
          (withImageWritten d component, none)) ∧
      (∀ gitSource err, component.Spec.Source.GitSource = some gitSource →
        methods.GetProjects d = Except.error err →
        updateApplicationDevfileModelVia methods d component = (d, some err)) ∧
      (∀ gitSource projects model err,
        component.Spec.Source.GitSource = some gitSource →
        methods.GetProjects d = Except.ok projects →
        (∀ project ∈ projects, project.Name ≠ component.Spec.ComponentName) →
        methods.AddProjects d [originProject component.Spec.ComponentName gitSource.URL] =
          (model, some err) →
        updateApplicationDevfileModelVia methods d component = (model, some err) ∧
          (addsOneOrNothing methods → model = d)) ∧
      ((∃ err, updateApplicationDevfileModelVia methods d component = (d, some err)) ∨
        updateApplicationDevfileModelVia methods d component =
          (withImageWritten d component, none) ∨
        ∃ gitSource, component.Spec.Source.GitSource = some gitSource ∧
          updateApplicationDevfileModelVia methods d component =
            methods.AddProjects d
              [originProject component.Spec.ComponentName gitSource.URL]) ∧
      addsOneOrNothing libraryMethods ∧
      updateApplicationDevfileModelVia libraryMethods d component =
        updateApplicationDevfileModel d component := by
  refine ⟨?_, ?_, ?_, ?_, addsOneOrNothing_library, rfl⟩
  rotate_left 3
  · cases hgit : component.Spec.Source.GitSource with
    | some gitSource =>
      cases hlist : methods.GetProjects d with
      | error err =>
        left
        exact ⟨err, updateApplicationDevfileModelVia_listing methods d component gitSource
          err hgit hlist⟩
      | ok projects =>
        by_cases hany : projects.any
            (fun project => decide (project.Name = component.Spec.ComponentName)) = true
        · left
          exact ⟨_, updateApplicationDevfileModelVia_taken methods d component gitSource
            projects hgit hlist hany⟩
        · right; right
          exact ⟨gitSource, rfl, updateApplicationDevfileModelVia_fresh methods d component
            gitSource projects hgit hlist hany⟩
    | none =>
      rw [updateApplicationDevfileModelVia_sourceless methods d component hgit]
      rcases updateApplicationDevfileModel_image_cases d component hgit with h | h
      · exact Or.inl h
      · exact Or.inr (Or.inl h)
  · intro hadd
    cases hgit : component.Spec.Source.GitSource with
    | some gitSource =>
      cases hlist : methods.GetProjects d with
      | error err =>
        left
        exact ⟨err, updateApplicationDevfileModelVia_listing methods d component gitSource
          err hgit hlist⟩
      | ok projects =>
        by_cases hany : projects.any
            (fun project => decide (project.Name = component.Spec.ComponentName)) = true
        · left
          exact ⟨_, updateApplicationDevfileModelVia_taken methods d component gitSource
            projects hgit hlist hany⟩
        · rw [updateApplicationDevfileModelVia_fresh methods d component gitSource projects
            hgit hlist hany]
          rcases hadd d (originProject component.Spec.ComponentName gitSource.URL) with
            hok | ⟨err, herr⟩
          · right; left
            exact ⟨_, hok⟩
          · left
            exact ⟨err, herr⟩
    | none =>
      rw [updateApplicationDevfileModelVia_sourceless methods d component hgit]
      rcases updateApplicationDevfileModel_image_cases d component hgit with h | h
      · exact Or.inl h
      · exact Or.inr (Or.inr h)
  · intro gitSource err hgit hlist
    exact updateApplicationDevfileModelVia_listing methods d component gitSource err hgit
      hlist
  · intro gitSource projects model err hgit hlist hfresh hfail
    have hany : ¬ projects.any
        (fun project => decide (project.Name = component.Spec.ComponentName)) = true := by
      intro h
      obtain ⟨project, hin, hname⟩ := (any_name_eq_true_iff _ _).mp h
      exact hfresh project hin hname
    refine ⟨?_, ?_⟩
    · rw [updateApplicationDevfileModelVia_fresh methods d component gitSource projects
        hgit hlist hany, hfail]
    · intro hadd
      rcases hadd d (originProject component.Spec.ComponentName gitSource.URL) with
        hok | ⟨err2, herr⟩
      · rw [hok] at hfail
        exact Option.noConfusion (congrArg Prod.snd hfail)
      · rw [herr] at hfail
        exact (congrArg Prod.fst hfail).symm

/-- Witness of C10: a component with a fresh name on a model whose project listing fails,
and on a model that cannot add a project; both calls return the error of the failing
method and leave the two projects of the model as they were. -/
theorem updateApplicationDevfileModel_all_or_nothing_witness :
    updateApplicationDevfileModelVia listingFails twoProjectModel workerComponent =
        (twoProjectModel, some listingError) ∧
      (updateApplicationDevfileModelVia addingFails twoProjectModel workerComponent =
        (twoProjectModel, some addingError)) ∧
      ((∃ err, updateApplicationDevfileModelVia libraryMethods twoProjectModel
          workerComponent = (twoProjectModel, some err)) ∨
        (∃ project, updateApplicationDevfileModelVia libraryMethods twoProjectModel
          workerComponent =
            ({ twoProjectModel with Projects := twoProjectModel.Projects ++ [project] },
              none)) ∨
        updateApplicationDevfileModelVia libraryMethods twoProjectModel workerComponent =
          (withImageWritten twoProjectModel workerComponent, none)) :=
  ⟨(updateApplicationDevfileModel_all_or_nothing listingFails twoProjectModel
      workerComponent).2.1 plainGitSource listingError rfl rfl,
    ((updateApplicationDevfileModel_all_or_nothing addingFails twoProjectModel
      workerComponent).2.2.1 plainGitSource twoProjectModel.Projects twoProjectModel
      addingError rfl rfl (by decide) rfl).1,
    (updateApplicationDevfileModel_all_or_nothing libraryMethods twoProjectModel
      workerComponent).1 addsOneOrNothing_library⟩

/-! ## Reads and writes of the attribute map -/

theorem lookup_putString_self (attrs : Attributes) (key value : Str) :
    (attrs.PutString key value).lookup key = some (AttrValue.string value) := by
  induction attrs with
  | nil => simp [Attributes.PutString, List.lookup]
  | cons entry rest ih =>
    obtain ⟨k, v⟩ := entry
    by_cases hk : k = key
    · simp [Attributes.PutString, hk, List.lookup]
    · have hne : (key == k) = false := by
        rw [beq_eq_false_iff_ne]; exact fun h => hk h.symm
      simp only [Attributes.PutString, hk, if_false, List.lookup, hne]
      exact ih

theorem lookup_putString_other (attrs : Attributes) (key value k : Str) (h : k ≠ key) :
    (attrs.PutString key value).lookup k = attrs.lookup k := by
  induction attrs with
  | nil =>
    have hne : (k == key) = false := by rw [beq_eq_false_iff_ne]; exact h
    simp [Attributes.PutString, List.lookup, hne]
  | cons entry rest ih =>
    obtain ⟨k0, v⟩ := entry
    by_cases hk : k0 = key
    · subst hk
      have hne : (k == k0) = false := by rw [beq_eq_false_iff_ne]; exact h
      simp [Attributes.PutString, List.lookup, hne]
    · simp only [Attributes.PutString, hk, if_false, List.lookup]
      cases hb : (k == k0) with
      | true => rfl
      | false => exact ih

theorem updateApplicationDevfileModel_image_absent (d : DevfileData) (component : Component)
    (hgit : component.Spec.Source.GitSource = none)
    (himg : component.Spec.ContainerImage ≠ [])
    (hkey : (d.Attributes.getD []).lookup (imageKey component) = none) :
    updateApplicationDevfileModel d component = (withImageWritten d component, none) := by
  rw [updateApplicationDevfileModel_image d component hgit himg]
  simp only [hkey]

theorem updateApplicationDevfileModel_image_held (d : DevfileData) (component : Component)
    (text : Str) (hgit : component.Spec.Source.GitSource = none)
    (himg : component.Spec.ContainerImage ≠ [])
    (hheld : (d.Attributes.getD []).lookup (imageKey component) = some (AttrValue.string text))
    (htext : text ≠ []) :
    updateApplicationDevfileModel d component =
      (d, some (GoError.errorf (alreadyHasComponent ++ component.Name))) := by
  rw [updateApplicationDevfileModel_image d component hgit himg]
  simp only [hheld, htext, if_false]

theorem lookup_withImageWritten (d : DevfileData) (component : Component) :
    ((withImageWritten d component).Attributes.getD []).lookup (imageKey component) =
      some (AttrValue.string component.Spec.ContainerImage) := by
  simp only [withImageWritten, Option.getD_some]
  exact lookup_putString_self _ _ _

/-- C11: for a git-sourced component whose name no project of the model bears, the call
returns no error, the project list afterwards is the old list followed by one project
with the component's name and the single remote `origin`, the component's git URL, and
the attributes are unchanged. -/
theorem updateApplicationDevfileModel_appends_project (d : DevfileData)
    (component : Component) (gitSource : GitSource)
    (hgit : component.Spec.Source.GitSource = some gitSource)
    (hfresh : ∀ project ∈ d.Projects, project.Name ≠ component.Spec.ComponentName) :
    (updateApplicationDevfileModel d component).2 = none ∧
      (updateApplicationDevfileModel d component).1.Projects =
        d.Projects ++ [{ Name := component.Spec.ComponentName,
                         Remotes := [("origin".toList, gitSource.URL)] }] ∧
      (updateApplicationDevfileModel d component).1.Attributes = d.Attributes := by
  have hany : ¬ d.Projects.any
      (fun project => decide (project.Name = component.Spec.ComponentName)) = true := by
    intro h
    obtain ⟨project, hmem, hname⟩ := (any_name_eq_true_iff _ _).mp h
    exact hfresh project hmem hname
  rw [updateApplicationDevfileModel_git_fresh d component gitSource hgit hany]
  exact ⟨rfl, rfl, rfl⟩

/-- Witness of C11: a component `worker` on a model with projects `frontend` and
`backend`. -/
theorem updateApplicationDevfileModel_appends_project_witness :
    (updateApplicationDevfileModel twoProjectModel workerComponent).2 = none ∧
      (updateApplicationDevfileModel twoProjectModel workerComponent).1.Projects =
        twoProjectModel.Projects ++ [{ Name := workerComponent.Spec.ComponentName,
                                       Remotes := [("origin".toList, plainGitSource.URL)] }] ∧
      (updateApplicationDevfileModel twoProjectModel workerComponent).1.Attributes =
        twoProjectModel.Attributes :=
  updateApplicationDevfileModel_appends_project twoProjectModel workerComponent
    plainGitSource rfl (by decide)

/-- C12: for a component with no git source and a non-empty image, on a model (with or
without an attribute map) that has no key `containerImage/<ComponentName>`, the call
returns no error; afterwards the string read at that key is the component's image, every
other key reads as before and the projects are unchanged. -/
theorem updateApplicationDevfileModel_writes_image (d : DevfileData) (component : Component)
    (hgit : component.Spec.Source.GitSource = none)
    (himg : component.Spec.ContainerImage ≠ [])
    (hkey : (d.Attributes.getD []).lookup (imageKey component) = none) :
    (updateApplicationDevfileModel d component).2 = none ∧
      Attributes.GetString ((updateApplicationDevfileModel d component).1.Attributes.getD [])
          (imageKey component) = (component.Spec.ContainerImage, none) ∧
      (∀ key, key ≠ imageKey component →
        ((updateApplicationDevfileModel d component).1.Attributes.getD []).lookup key =
          (d.Attributes.getD []).lookup key) ∧
      (updateApplicationDevfileModel d component).1.Projects = d.Projects := by
  rw [updateApplicationDevfileModel_image_absent d component hgit himg hkey]
  refine ⟨rfl, ?_, ?_, rfl⟩
  · simp only [Attributes.GetString, lookup_withImageWritten]
  · intro key hne
    simp only [withImageWritten, Option.getD_some]
    exact lookup_putString_other _ _ _ key hne

/-- Witness of C12: a component `svc1` on a model whose attribute map holds a route and
the image of `svc0`. -/
theorem updateApplicationDevfileModel_writes_image_witness :
    (updateApplicationDevfileModel attributedModel svc1Component).2 = none ∧
      Attributes.GetString
          ((updateApplicationDevfileModel attributedModel svc1Component).1.Attributes.getD [])
          "containerImage/svc1".toList = ("quay.io/o/svc1:v1".toList, none) ∧
      ((updateApplicationDevfileModel attributedModel svc1Component).1.Attributes.getD
          []).lookup "containerImage/svc0".toList =
        some (AttrValue.string "quay.io/o/svc0".toList) ∧
      (updateApplicationDevfileModel attributedModel svc1Component).1.Projects =
        attributedModel.Projects :=
  have h := updateApplicationDevfileModel_writes_image attributedModel svc1Component rfl
    (by decide) (by decide)
  ⟨h.1, h.2.1, h.2.2.1 "containerImage/svc0".toList (by decide), h.2.2.2⟩

/-- C13: a component with no git source and a non-empty image, on a model that holds a
non-empty string at `containerImage/<ComponentName>`, gets the duplicate-name error and
the model is unchanged.  So when a first image-sourced component is attached to a model
without that key and a second one resolving to the same name is attached next, whatever
its image, the second call fails and the key still reads the first image. -/
theorem updateApplicationDevfileModel_duplicate_image (d : DevfileData)
    (component : Component) (text : Str)
    (hgit : component.Spec.Source.GitSource = none)
    (himg : component.Spec.ContainerImage ≠ [])
    (hheld : (d.Attributes.getD []).lookup (imageKey component) = some (AttrValue.string text))
    (htext : text ≠ []) :
    updateApplicationDevfileModel d component =
        (d, some (GoError.errorf (alreadyHasComponent ++ component.Name))) ∧
      ∀ (d0 : DevfileData) (first : Component),
        first.Spec.Source.GitSource = none → first.Spec.ContainerImage ≠ [] →
        first.Spec.ComponentName = component.Spec.ComponentName →
        (d0.Attributes.getD []).lookup (imageKey first) = none →
        (updateApplicationDevfileModel d0 first).2 = none ∧
          updateApplicationDevfileModel (updateApplicationDevfileModel d0 first).1 component =
            ((updateApplicationDevfileModel d0 first).1,
              some (GoError.errorf (alreadyHasComponent ++ component.Name))) ∧
          Attributes.GetString
              ((updateApplicationDevfileModel d0 first).1.Attributes.getD [])
              (imageKey first) = (first.Spec.ContainerImage, none) := by
  refine ⟨updateApplicationDevfileModel_image_held d component text hgit himg hheld htext, ?_⟩
  intro d0 first hgit1 himg1 hname hkey
  have hkeys : imageKey component = imageKey first := by
    unfold imageKey; rw [hname]
  rw [updateApplicationDevfileModel_image_absent d0 first hgit1 himg1 hkey]
  refine ⟨rfl, ?_, ?_⟩
  · exact updateApplicationDevfileModel_image_held (withImageWritten d0 first) component
      first.Spec.ContainerImage hgit himg (by rw [hkeys]; exact lookup_withImageWritten d0 first)
      himg1
  · simp only [Attributes.GetString, lookup_withImageWritten]

/-- Witness of C13: `svc1` attached to a model without the key, then a second `svc1` with
another image. -/
theorem updateApplicationDevfileModel_duplicate_image_witness :
    updateApplicationDevfileModel (withImageWritten attributedModel svc1Component) svc1Again =
        (withImageWritten attributedModel svc1Component,
          some (GoError.errorf
            "application already has a component with name svc1-again".toList)) ∧
      (updateApplicationDevfileModel attributedModel svc1Component).2 = none ∧
      updateApplicationDevfileModel
          (updateApplicationDevfileModel attributedModel svc1Component).1 svc1Again =
        ((updateApplicationDevfileModel attributedModel svc1Component).1,
          some (GoError.errorf
            "application already has a component with name svc1-again".toList)) ∧
      Attributes.GetString
          ((updateApplicationDevfileModel attributedModel svc1Component).1.Attributes.getD [])
          "containerImage/svc1".toList = ("quay.io/o/svc1:v1".toList, none) :=
  have h := updateApplicationDevfileModel_duplicate_image
    (withImageWritten attributedModel svc1Component) svc1Again "quay.io/o/svc1:v1".toList rfl
    (by decide) (by decide) (by decide)
  ⟨h.1, h.2 attributedModel svc1Component rfl (by decide) rfl (by decide)⟩

theorem alreadyHasComponent_ne_sourceNil (name : Str) :
    GoError.errorf (alreadyHasComponent ++ name) ≠ sourceNilError := by
  intro h
  have h1 : alreadyHasComponent ++ name = "component source is nil".toList :=
    GoError.errorf.inj h
  have h2 := congrArg List.head? h1
  simp [alreadyHasComponent] at h2

theorem updateApplicationDevfileModel_git_error (d : DevfileData) (component : Component)
    (gitSource : GitSource) (hgit : component.Spec.Source.GitSource = some gitSource) :
    (updateApplicationDevfileModel d component).2 ≠ some sourceNilError := by
  by_cases hany : d.Projects.any
      (fun project => decide (project.Name = component.Spec.ComponentName)) = true
  · rw [updateApplicationDevfileModel_git_taken d component gitSource hgit hany]
    intro h
    exact alreadyHasComponent_ne_sourceNil _ (Option.some.inj h)
  · rw [updateApplicationDevfileModel_git_fresh d component gitSource hgit hany]
    intro h
    exact Option.noConfusion h

theorem updateApplicationDevfileModel_image_error (d : DevfileData) (component : Component)
    (hgit : component.Spec.Source.GitSource = none)
    (himg : component.Spec.ContainerImage ≠ []) :
    (updateApplicationDevfileModel d component).2 ≠ some sourceNilError := by
  rw [updateApplicationDevfileModel_image d component hgit himg]
  cases hlook : (d.Attributes.getD []).lookup (imageKey component) with
  | none => intro h; exact Option.noConfusion h
  | some v =>
    cases v with
    | structured =>
      intro h
      exact GoError.noConfusion (Option.some.inj h)
    | envVars env =>
      intro h
      exact GoError.noConfusion (Option.some.inj h)
    | string text =>
      by_cases ht : text = []
      · simp only [ht, if_true]; intro h; exact Option.noConfusion h
      · simp only [ht, if_false]
        intro h
        exact alreadyHasComponent_ne_sourceNil _ (Option.some.inj h)
    | primitive text =>
      by_cases ht : text = []
      · simp only [ht, if_true]; intro h; exact Option.noConfusion h
      · simp only [ht, if_false]
        intro h
        exact alreadyHasComponent_ne_sourceNil _ (Option.some.inj h)

theorem updateApplicationDevfileModel_sourceless (d : DevfileData) (component : Component)
    (hgit : component.Spec.Source.GitSource = none)
    (himg : component.Spec.ContainerImage = []) :
    updateApplicationDevfileModel d component = (d, some sourceNilError) := by
  simp only [updateApplicationDevfileModel, updateApplicationDevfileModelVia,
    libraryMethods, hgit, himg, ne_eq, not_true_eq_false, if_false,
    sourceNilError]

/-- C14: the call fails with the error "component source is nil" exactly when the
component has no git source and an empty image, and then the model is unchanged. -/
theorem updateApplicationDevfileModel_source_nil_iff (d : DevfileData)
    (component : Component) :
    ((updateApplicationDevfileModel d component).2 = some sourceNilError ↔
        component.Spec.Source.GitSource = none ∧ component.Spec.ContainerImage = []) ∧
      ((updateApplicationDevfileModel d component).2 = some sourceNilError →
        (updateApplicationDevfileModel d component).1 = d) := by
  have hforward : (updateApplicationDevfileModel d component).2 = some sourceNilError →
      component.Spec.Source.GitSource = none ∧ component.Spec.ContainerImage = [] := by
    intro h
    cases hgit : component.Spec.Source.GitSource with
    | some gitSource =>
      exact absurd h (updateApplicationDevfileModel_git_error d component gitSource hgit)
    | none =>
      by_cases himg : component.Spec.ContainerImage = []
      · exact ⟨rfl, himg⟩
      · exact absurd h (updateApplicationDevfileModel_image_error d component hgit himg)
  refine ⟨⟨hforward, ?_⟩, ?_⟩
  · intro h
    rw [updateApplicationDevfileModel_sourceless d component h.1 h.2]
  · intro h
    obtain ⟨hgit, himg⟩ := hforward h
    rw [updateApplicationDevfileModel_sourceless d component hgit himg]

/-- Witness of C14: a component without source fails with that error on an unchanged
model, and a git-sourced one with a taken name fails with another error. -/
theorem updateApplicationDevfileModel_source_nil_iff_witness :
    updateApplicationDevfileModel attributedModel sourcelessComponent =
        (attributedModel, some sourceNilError) ∧
      (updateApplicationDevfileModel twoProjectModel backendComponent).2 ≠
        some sourceNilError :=
  have h := updateApplicationDevfileModel_source_nil_iff attributedModel sourcelessComponent
  have h2 := updateApplicationDevfileModel_source_nil_iff twoProjectModel backendComponent
  ⟨Prod.ext (h.2 (h.1.mpr ⟨rfl, rfl⟩)) (h.1.mpr ⟨rfl, rfl⟩),
    fun hbad => Option.noConfusion (h2.1.mp hbad).1⟩

theorem updateApplicationDevfileModel_image_projects (d : DevfileData)
    (component : Component) (hgit : component.Spec.Source.GitSource = none)
    (himg : component.Spec.ContainerImage ≠ []) :
    (updateApplicationDevfileModel d component).1.Projects = d.Projects := by
  rw [updateApplicationDevfileModel_image d component hgit himg]
  cases hlook : (d.Attributes.getD []).lookup (imageKey component) with
  | none => rfl
  | some v =>
    cases v with
    | structured => rfl
    | envVars env => rfl
    | string text =>
      by_cases ht : text = []
      · simp only [ht, if_true]; rfl
      · simp only [ht, if_false]
    | primitive text =>
      by_cases ht : text = []
      · simp only [ht, if_true]; rfl
      · simp only [ht, if_false]

theorem updateApplicationDevfileModel_nodup (d : DevfileData) (component : Component)
    (h : (d.Projects.map (·.Name)).Nodup) :
    ((updateApplicationDevfileModel d component).1.Projects.map (·.Name)).Nodup := by
  cases hgit : component.Spec.Source.GitSource with
  | some gitSource =>
    by_cases hany : d.Projects.any
        (fun project => decide (project.Name = component.Spec.ComponentName)) = true
    · rw [updateApplicationDevfileModel_git_taken d component gitSource hgit hany]
      exact h
    · rw [updateApplicationDevfileModel_git_fresh d component gitSource hgit hany]
      have hfresh : component.Spec.ComponentName ∉ d.Projects.map (·.Name) := by
        intro hmem
        obtain ⟨q, hq, hname⟩ := List.mem_map.mp hmem
        exact hany ((any_name_eq_true_iff _ _).mpr ⟨q, hq, hname⟩)
      simp only [List.map_append, List.map_cons, List.map_nil, originProject]
      rw [List.nodup_append]
      refine ⟨h, List.nodup_singleton _, ?_⟩
      intro name hname hsingle
      rw [List.mem_singleton] at hsingle
      exact hfresh (hsingle ▸ hname)
  | none =>
    by_cases himg : component.Spec.ContainerImage = []
    · rw [updateApplicationDevfileModel_sourceless d component hgit himg]
      exact h
    · rw [updateApplicationDevfileModel_image_projects d component hgit himg]
      exact h

theorem attachAll_nodup (components : List Component) (d : DevfileData)
    (h : (d.Projects.map (·.Name)).Nodup) :
    ((attachAll d components).Projects.map (·.Name)).Nodup := by
  induction components generalizing d with
  | nil => exact h
  | cons component rest ih =>
    exact ih _ (updateApplicationDevfileModel_nodup d component h)

/-- C15: distinct project names are an invariant of the call.  If the project names of the
model are pairwise distinct before a call they are so after it, whether it succeeds or
fails, for every component; hence after any sequence of calls on a model that starts
with distinct project names. -/
theorem updateApplicationDevfileModel_preserves_distinct_names (d : DevfileData)
    (component : Component) (h : (d.Projects.map (·.Name)).Nodup) :
    ((updateApplicationDevfileModel d component).1.Projects.map (·.Name)).Nodup ∧
      ∀ components : List Component,
        ((attachAll d components).Projects.map (·.Name)).Nodup :=
  ⟨updateApplicationDevfileModel_nodup d component h,
    fun components => attachAll_nodup components d h⟩

/-- Witness of C15: `worker`, then `backend` again, then `worker` again on a model with
projects `frontend` and `backend`; only the first call adds a project. -/
theorem updateApplicationDevfileModel_preserves_distinct_names_witness :
    ((updateApplicationDevfileModel twoProjectModel workerComponent).1.Projects.map
        (·.Name)).Nodup ∧
      (attachAll twoProjectModel [workerComponent, backendComponent, workerComponent]).Projects.map
          (·.Name) = ["frontend".toList, "backend".toList, "worker".toList] ∧
      ((attachAll twoProjectModel
        [workerComponent, backendComponent, workerComponent]).Projects.map (·.Name)).Nodup :=
  have h := updateApplicationDevfileModel_preserves_distinct_names twoProjectModel
    workerComponent (by decide)
  ⟨h.1, by decide, h.2 [workerComponent, backendComponent, workerComponent]⟩

/-! ## Errors in the blocks of updateComponentStub -/

theorem failed_bind_left {α β : Type} (x : Except GoError α) (f : α → Except GoError β)
    (h : failed x) : failed (x.bind f) := by
  obtain ⟨e, he⟩ := h
  exact ⟨e, by rw [he]; rfl⟩

theorem failed_bind_of_ok {α β : Type} (x : Except GoError α) (f : α → Except GoError β)
    (h : ∀ a, x = Except.ok a → failed (f a)) : failed (x.bind f) := by
  cases hx : x with
  | error e => exact ⟨e, rfl⟩
  | ok a => exact h a hx

theorem bind_eq_ok {α β : Type} (x : Except GoError α) (f : α → Except GoError β) (b : β)
    (h : x.bind f = Except.ok b) : ∃ a, x = Except.ok a ∧ f a = Except.ok b := by
  cases hx : x with
  | error e => rw [hx] at h; exact Except.noConfusion h
  | ok a => rw [hx] at h; exact ⟨a, rfl, h⟩

theorem fatal_storeError_of_benign (raised holder : Option GoError)
    (h : fatal holder = none) : fatal (storeError raised holder) = fatal raised := by
  cases raised with
  | none => exact h
  | some e => rfl

theorem getInto_error (attrs : Attributes) (key : Str) (into : List EnvVar) :
    (attrs.GetInto key into).2 = (attrs.GetInto key []).2 := by
  unfold Attributes.GetInto
  cases attrs.lookup key with
  | none => rfl
  | some v => cases v <;> rfl

theorem readResource_failed_of_parse (c : Collaborators) (attrs : Attributes) (key : Str)
    (name : ResourceName) (state : ResourceList × Option GoError) (text : Str) (e : GoError)
    (hread : attrs.GetString key = (text, none)) (htext : text ≠ [])
    (hparse : c.ParseQuantity text = Except.error e) :
    failed (readResource c attrs key name state) := by
  unfold readResource
  cases hf : fatal (storeError (attrs.GetString key).2 state.2) with
  | some e1 => exact ⟨e1, by simp only [hf]⟩
  | none =>
    refine ⟨e, ?_⟩
    rw [hread] at hf
    simp only [hread, hf, ne_eq, htext, not_false_eq_true, if_true, hparse]

theorem readLimits_failed (c : Collaborators) (attrs : Attributes) (state : StubState)
    (key : Str)
    (hkey : key = c.keys.CpuLimitKey ∨ key = c.keys.MemoryLimitKey ∨
      key = c.keys.StorageLimitKey)
    (h : ∀ name st, failed (readResource c attrs key name st)) :
    failed (readLimits c attrs state) := by
  unfold readLimits
  rcases hkey with hk | hk | hk
  · subst hk
    exact failed_bind_left _ _ (h _ _)
  · subst hk
    exact failed_bind_of_ok _ _ fun _ _ => failed_bind_left _ _ (h _ _)
  · subst hk
    exact failed_bind_of_ok _ _ fun _ _ =>
      failed_bind_of_ok _ _ fun _ _ => failed_bind_left _ _ (h _ _)

theorem readRequests_failed (c : Collaborators) (attrs : Attributes) (state : StubState)
    (key : Str)
    (hkey : key = c.keys.CpuRequestKey ∨ key = c.keys.MemoryRequestKey ∨
      key = c.keys.StorageRequestKey)
    (h : ∀ name st, failed (readResource c attrs key name st)) :
    failed (readRequests c attrs state) := by
  unfold readRequests
  rcases hkey with hk | hk | hk
  · subst hk
    exact failed_bind_left _ _ (h _ _)
  · subst hk
    exact failed_bind_of_ok _ _ fun _ _ => failed_bind_left _ _ (h _ _)
  · subst hk
    exact failed_bind_of_ok _ _ fun _ _ =>
      failed_bind_of_ok _ _ fun _ _ => failed_bind_left _ _ (h _ _)

theorem populateFromAttributes_failed_of_resource (c : Collaborators) (attrs : Attributes)
    (componentStub : ComponentSpec) (key : Str) (hkey : key ∈ resourceKeys c.keys)
    (h : ∀ name st, failed (readResource c attrs key name st)) :
    failed (populateFromAttributes c attrs componentStub) := by
  unfold populateFromAttributes
  simp only [resourceKeys, List.mem_cons, List.mem_singleton, List.not_mem_nil,
    or_false] at hkey
  refine failed_bind_of_ok _ _ fun _ _ => failed_bind_of_ok _ _ fun _ _ =>
    failed_bind_of_ok _ _ fun _ _ => failed_bind_of_ok _ _ fun _ _ => ?_
  rcases hkey with hk | hk | hk | hk | hk | hk
  · exact failed_bind_left _ _ (readLimits_failed c attrs _ key (Or.inl hk) h)
  · exact failed_bind_left _ _ (readLimits_failed c attrs _ key (Or.inr (Or.inl hk)) h)
  · exact failed_bind_left _ _ (readLimits_failed c attrs _ key (Or.inr (Or.inr hk)) h)
  · exact failed_bind_of_ok _ _ fun _ _ =>
      failed_bind_left _ _ (readRequests_failed c attrs _ key (Or.inl hk) h)
  · exact failed_bind_of_ok _ _ fun _ _ =>
      failed_bind_left _ _ (readRequests_failed c attrs _ key (Or.inr (Or.inl hk)) h)
  · exact failed_bind_of_ok _ _ fun _ _ =>
      failed_bind_left _ _ (readRequests_failed c attrs _ key (Or.inr (Or.inr hk)) h)

theorem populateFromAttributes_failed_of_unparsable (c : Collaborators) (attrs : Attributes)
    (componentStub : ComponentSpec) (h : unparsableResource c attrs) :
    failed (populateFromAttributes c attrs componentStub) := by
  obtain ⟨key, hkey, text, e, hread, htext, hparse⟩ := h
  exact populateFromAttributes_failed_of_resource c attrs componentStub key hkey
    fun name st => readResource_failed_of_parse c attrs key name st text e hread htext hparse

/-! ## Errors of the loop over the devfiles -/

theorem initialStub_targetPort (componentName : Str) (gitSource : GitSource)
    (ports : List Int) :
    (initialStub componentName gitSource ports).TargetPort = ports.headD 0 := by
  cases ports <;> rfl

theorem devfileComponentStub_failed (c : Collaborators) (query : ComponentDetectionQuery)
    (devfilesURLMap dockerfileContextMap : List (Str × Str))
    (componentPortsMap : List (Str × List Int)) (context devfileBytes : Str)
    (parsed : ParsedDevfile) (first : DevfileComponent) (rest : List DevfileComponent)
    (hparse : c.ParseDevfile devfileBytes = Except.ok parsed)
    (hfirst : parsed.GetComponents ComponentType.Kubernetes = Except.ok (first :: rest))
    (hfail : ∀ componentStub : ComponentSpec,
      componentStub.TargetPort = scannedPort componentPortsMap context →
      failed (populateFromAttributes c first.Attributes componentStub)) :
    failed (devfileComponentStub c query devfilesURLMap dockerfileContextMap
      componentPortsMap context devfileBytes) := by
  unfold devfileComponentStub
  simp only [hparse, hfirst]
  split
  · exact ⟨GoError.runtimePanic, rfl⟩
  · rename_i componentName hname
    obtain ⟨e, he⟩ := hfail
      (initialStub componentName
        { Context := context, URL := query.Spec.GitSource.URL,
          Revision := query.Spec.GitSource.Revision,
          DevfileURL := mapGet devfilesURLMap context,
          DockerfileURL := mapGet dockerfileContextMap context }
        ((componentPortsMap.lookup context).getD []))
      (initialStub_targetPort _ _ _)
    exact ⟨e, by simp only [he]⟩

theorem devfileLoop_failed (c : Collaborators) (query : ComponentDetectionQuery)
    (devfilesURLMap : List (Str × Str)) (componentPortsMap : List (Str × List Int))
    (context devfileBytes : Str) (devfilesMap : List (Str × Str))
    (hmem : (context, devfileBytes) ∈ devfilesMap)
    (hfail : ∀ dockerfileContextMap, failed (devfileComponentStub c query devfilesURLMap
      dockerfileContextMap componentPortsMap context devfileBytes))
    (state : DetectionState) :
    ∃ e, (devfileLoop c query devfilesURLMap componentPortsMap devfilesMap state).2 =
      some e := by
  induction devfilesMap generalizing state with
  | nil => exact absurd hmem (List.not_mem_nil _)
  | cons entry rest ih =>
    obtain ⟨ctx, bytes⟩ := entry
    unfold devfileLoop
    cases hbody : devfileComponentStub c query devfilesURLMap state.dockerfileContextMap
        componentPortsMap ctx bytes with
    | error e => exact ⟨e, rfl⟩
    | ok built =>
      obtain ⟨componentName, description⟩ := built
      rcases List.mem_cons.mp hmem with hhead | htail
      · have hctx : context = ctx := congrArg Prod.fst hhead
        have hbytes : devfileBytes = bytes := congrArg Prod.snd hhead
        subst hctx hbytes
        obtain ⟨e, he⟩ := hfail state.dockerfileContextMap
        rw [he] at hbody
        exact Except.noConfusion hbody
      · exact ih htail _

theorem updateComponentStub_failed (c : Collaborators) (query : ComponentDetectionQuery)
    (devfilesMap devfilesURLMap dockerfileContextMap : List (Str × Str))
    (componentPortsMap : List (Str × List Int)) (context devfileBytes : Str)
    (hmem : (context, devfileBytes) ∈ devfilesMap)
    (hfail : ∀ dockerfiles, failed (devfileComponentStub c query devfilesURLMap
      dockerfiles componentPortsMap context devfileBytes)) :
    ∃ e, (updateComponentStub c (some query) devfilesMap devfilesURLMap dockerfileContextMap
      componentPortsMap).2 = some e := by
  unfold updateComponentStub
  obtain ⟨e, he⟩ := devfileLoop_failed c query devfilesURLMap componentPortsMap context
    devfileBytes devfilesMap hmem hfail
    { ComponentDetected :=
        if query.Status.ComponentDetected.length = 0 then []
        else query.Status.ComponentDetected,
      dockerfileContextMap := dockerfileContextMap }
  refine ⟨e, ?_⟩
  simp only
  split
  · rename_i state err hloop
    rw [hloop] at he
    exact he
  · rename_i state hloop
    rw [hloop] at he
    exact Option.noConfusion he

/-! ## The stub when the blocks succeed -/

theorem readEnv_ok (c : Collaborators) (attrs : Attributes) (componentStub : ComponentSpec)
    (state : StubState) (h : readEnv c attrs componentStub = Except.ok state) :
    state.1 = { componentStub with
      Env := (attrs.GetInto c.keys.ContainerENVKey componentStub.Env).1 } := by
  unfold readEnv at h
  cases hf : fatal (attrs.GetInto c.keys.ContainerENVKey componentStub.Env).2 with
  | some e => simp only [hf] at h; exact Except.noConfusion h
  | none =>
    simp only [hf] at h
    rw [← Except.ok.inj h]

theorem readPort_ok (c : Collaborators) (attrs : Attributes) (state result : StubState)
    (h : readPort c attrs state = Except.ok result) :
    result.1 = { state.1 with
      TargetPort :=
        if state.1.TargetPort = 0 then
          (attrs.GetNumber c.numberOf c.keys.ContainerImagePortKey).1
        else state.1.TargetPort } := by
  unfold readPort at h
  by_cases hport : state.1.TargetPort = 0
  · simp only [hport, if_true] at h ⊢
    cases hf : fatal (storeError
        (attrs.GetNumber c.numberOf c.keys.ContainerImagePortKey).2 state.2) with
    | some e => simp only [hf] at h; exact Except.noConfusion h
    | none =>
      simp only [hf] at h
      rw [← Except.ok.inj h]
  · simp only [hport, if_false] at h ⊢
    rw [← Except.ok.inj h]

theorem readRoute_ok (c : Collaborators) (attrs : Attributes) (state result : StubState)
    (h : readRoute c attrs state = Except.ok result) :
    result.1 = { state.1 with Route := (attrs.GetString c.keys.RouteKey).1 } := by
  unfold readRoute at h
  cases hf : fatal (storeError (attrs.GetString c.keys.RouteKey).2 state.2) with
  | some e => simp only [hf] at h; exact Except.noConfusion h
  | none =>
    simp only [hf] at h
    rw [← Except.ok.inj h]

theorem readReplicas_ok (c : Collaborators) (attrs : Attributes) (state result : StubState)
    (h : readReplicas c attrs state = Except.ok result) :
    result.1 = { state.1 with
      Replicas := (attrs.GetNumber c.numberOf c.keys.ReplicaKey).1 } := by
  unfold readReplicas at h
  cases hf : fatal (storeError (attrs.GetNumber c.numberOf c.keys.ReplicaKey).2 state.2) with
  | some e => simp only [hf] at h; exact Except.noConfusion h
  | none =>
    simp only [hf] at h
    rw [← Except.ok.inj h]

theorem readResource_ok (c : Collaborators) (attrs : Attributes) (key : Str)
    (name : ResourceName) (state result : ResourceList × Option GoError)
    (h : readResource c attrs key name state = Except.ok result) :
    result.1 = recordParsed c attrs key name state.1 := by
  unfold readResource at h
  unfold recordParsed
  cases hf : fatal (storeError (attrs.GetString key).2 state.2) with
  | some e => simp only [hf] at h; exact Except.noConfusion h
  | none =>
    simp only [hf] at h
    by_cases ht : (attrs.GetString key).1 = []
    · simp only [ht, ne_eq, not_true_eq_false, if_false] at h
      simp only [ht, if_true]
      rw [← Except.ok.inj h]
    · simp only [ne_eq, ht, not_false_eq_true, if_true] at h
      simp only [ht, if_false]
      cases hq : c.ParseQuantity (attrs.GetString key).1 with
      | error e => rw [hq] at h; exact Except.noConfusion h
      | ok quantity =>
        rw [hq] at h
        rw [← Except.ok.inj h]

theorem length_guard (list : ResourceList) :
    (if list.length = 0 then [] else list) = list := by
  cases list <;> simp

theorem readLimits_ok (c : Collaborators) (attrs : Attributes) (state result : StubState)
    (h : readLimits c attrs state = Except.ok result) :
    result.1 = { state.1 with
      Resources := { state.1.Resources with
        Limits := recordedResources c attrs c.keys.CpuLimitKey c.keys.MemoryLimitKey
          c.keys.StorageLimitKey state.1.Resources.Limits } } := by
  unfold readLimits at h
  rw [length_guard] at h
  obtain ⟨r1, h1, h⟩ := bind_eq_ok _ _ _ h
  obtain ⟨r2, h2, h⟩ := bind_eq_ok _ _ _ h
  obtain ⟨r3, h3, h⟩ := bind_eq_ok _ _ _ h
  have e1 := readResource_ok c attrs _ _ _ _ h1
  have e2 := readResource_ok c attrs _ _ _ _ h2
  have e3 := readResource_ok c attrs _ _ _ _ h3
  rw [← Except.ok.inj h]
  simp only [recordedResources, e3, e2, e1]

theorem readRequests_ok (c : Collaborators) (attrs : Attributes) (state result : StubState)
    (h : readRequests c attrs state = Except.ok result) :
    result.1 = { state.1 with
      Resources := { state.1.Resources with
        Requests := recordedResources c attrs c.keys.CpuRequestKey c.keys.MemoryRequestKey
          c.keys.StorageRequestKey state.1.Resources.Requests } } := by
  unfold readRequests at h
  rw [length_guard] at h
  obtain ⟨r1, h1, h⟩ := bind_eq_ok _ _ _ h
  obtain ⟨r2, h2, h⟩ := bind_eq_ok _ _ _ h
  obtain ⟨r3, h3, h⟩ := bind_eq_ok _ _ _ h
  have e1 := readResource_ok c attrs _ _ _ _ h1
  have e2 := readResource_ok c attrs _ _ _ _ h2
  have e3 := readResource_ok c attrs _ _ _ _ h3
  rw [← Except.ok.inj h]
  simp only [recordedResources, e3, e2, e1]

theorem populateFromAttributes_ok (c : Collaborators) (attrs : Attributes)
    (componentStub result : ComponentSpec)
    (h : populateFromAttributes c attrs componentStub = Except.ok result) :
    result = populatedStub c attrs componentStub := by
  unfold populateFromAttributes at h
  obtain ⟨s1, h1, h⟩ := bind_eq_ok _ _ _ h
  obtain ⟨s2, h2, h⟩ := bind_eq_ok _ _ _ h
  obtain ⟨s3, h3, h⟩ := bind_eq_ok _ _ _ h
  obtain ⟨s4, h4, h⟩ := bind_eq_ok _ _ _ h
  obtain ⟨s5, h5, h⟩ := bind_eq_ok _ _ _ h
  obtain ⟨s6, h6, h⟩ := bind_eq_ok _ _ _ h
  have e1 := readEnv_ok c attrs _ _ h1
  have e2 := readPort_ok c attrs _ _ h2
  have e3 := readRoute_ok c attrs _ _ h3
  have e4 := readReplicas_ok c attrs _ _ h4
  have e5 := readLimits_ok c attrs _ _ h5
  have e6 := readRequests_ok c attrs _ _ h6
  rw [← Except.ok.inj h, e6, e5, e4, e3, e2, e1]
  rfl

/-! ## The description built for a devfile context -/

theorem getComponents_kubernetes (parsed : ParsedDevfile) :
    parsed.GetComponents ComponentType.Kubernetes = Except.ok (kubernetesComponents parsed) :=
  rfl

theorem devfileComponentStub_ok (c : Collaborators) (query : ComponentDetectionQuery)
    (devfilesURLMap dockerfileContextMap : List (Str × Str))
    (componentPortsMap : List (Str × List Int)) (context devfileBytes : Str)
    (parsed : ParsedDevfile) (componentName : Str)
    (description : ComponentDetectionDescription)
    (hparse : c.ParseDevfile devfileBytes = Except.ok parsed)
    (h : devfileComponentStub c query devfilesURLMap dockerfileContextMap componentPortsMap
      context devfileBytes = Except.ok (componentName, description)) :
    getComponentName (c.noun context) (c.token context)
        (contextGitSource query devfilesURLMap dockerfileContextMap context) =
      some componentName ∧
    description.DevfileFound = decide ((mapGet devfilesURLMap context).length ≠ 0) ∧
    description.Language = parsed.Metadata.Language ∧
    description.ProjectType = parsed.Metadata.ProjectType ∧
    description.ComponentStub =
      (match kubernetesComponents parsed with
       | [] => initialStub componentName
           (contextGitSource query devfilesURLMap dockerfileContextMap context)
           ((componentPortsMap.lookup context).getD [])
       | first :: _ => populatedStub c first.Attributes
           (initialStub componentName
             (contextGitSource query devfilesURLMap dockerfileContextMap context)
             ((componentPortsMap.lookup context).getD []))) := by
  unfold devfileComponentStub at h
  simp only [hparse, getComponents_kubernetes] at h
  unfold contextGitSource
  cases hname : getComponentName (c.noun context) (c.token context)
      { Context := context, URL := query.Spec.GitSource.URL,
        Revision := query.Spec.GitSource.Revision,
        DevfileURL := mapGet devfilesURLMap context,
        DockerfileURL := mapGet dockerfileContextMap context } with
  | none => simp only [hname] at h; exact Except.noConfusion h
  | some name =>
    simp only [hname] at h
    cases hkube : kubernetesComponents parsed with
    | nil =>
      simp only [hkube] at h
      have h2 := Except.ok.inj h
      have hn : name = componentName := congrArg Prod.fst h2
      have hd := congrArg Prod.snd h2
      simp only at hd
      subst hn
      rw [← hd]
      exact ⟨rfl, rfl, rfl, rfl, rfl⟩
    | cons first rest =>
      simp only [hkube] at h
      cases hpop : populateFromAttributes c first.Attributes
          (initialStub name
            { Context := context, URL := query.Spec.GitSource.URL,
              Revision := query.Spec.GitSource.Revision,
              DevfileURL := mapGet devfilesURLMap context,
              DockerfileURL := mapGet dockerfileContextMap context }
            ((componentPortsMap.lookup context).getD [])) with
      | error e => simp only [hpop] at h; exact Except.noConfusion h
      | ok stub =>
        simp only [hpop] at h
        have h2 := Except.ok.inj h
        have hn : name = componentName := congrArg Prod.fst h2
        have hd := congrArg Prod.snd h2
        simp only at hd
        subst hn
        rw [← hd]
        exact ⟨rfl, rfl, rfl, rfl, populateFromAttributes_ok c _ _ _ hpop⟩

/-! ## Claims on updateComponentStub -/

/-- C16: in the description built for a devfile context, the target port of the stub is
the first scanned port of the context when that port is not 0, whatever the devfile
declares; when the context has no scanned port or its first one is 0, it is the port
attribute of the first Kubernetes component; and it is 0 when, in addition, the devfile
has no Kubernetes component or the first one has no port attribute. -/
theorem devfileComponentStub_targetPort (c : Collaborators) (query : ComponentDetectionQuery)
    (devfilesURLMap dockerfileContextMap : List (Str × Str))
    (componentPortsMap : List (Str × List Int)) (context devfileBytes : Str)
    (parsed : ParsedDevfile) (componentName : Str)
    (description : ComponentDetectionDescription)
    (hparse : c.ParseDevfile devfileBytes = Except.ok parsed)
    (h : devfileComponentStub c query devfilesURLMap dockerfileContextMap componentPortsMap
      context devfileBytes = Except.ok (componentName, description)) :
    (scannedPort componentPortsMap context ≠ 0 →
        description.ComponentStub.TargetPort = scannedPort componentPortsMap context) ∧
      (scannedPort componentPortsMap context = 0 →
        ∀ first rest, kubernetesComponents parsed = first :: rest →
          description.ComponentStub.TargetPort =
            (first.Attributes.GetNumber c.numberOf c.keys.ContainerImagePortKey).1) ∧
      (scannedPort componentPortsMap context = 0 →
        (kubernetesComponents parsed = [] ∨
          ∃ first rest, kubernetesComponents parsed = first :: rest ∧
            first.Attributes.lookup c.keys.ContainerImagePortKey = none) →
        description.ComponentStub.TargetPort = 0) := by
  obtain ⟨_, _, _, _, hstub⟩ := devfileComponentStub_ok c query devfilesURLMap
    dockerfileContextMap componentPortsMap context devfileBytes parsed componentName
    description hparse h
  have hinit := initialStub_targetPort componentName
    (contextGitSource query devfilesURLMap dockerfileContextMap context)
    ((componentPortsMap.lookup context).getD [])
  rw [hstub]
  unfold scannedPort
  refine ⟨?_, ?_, ?_⟩
  · intro hscanned
    cases hkube : kubernetesComponents parsed with
    | nil => exact hinit
    | cons first rest =>
      simp only [populatedStub, hinit, hscanned, if_false]
  · intro hscanned first rest hkube
    simp only [hkube, populatedStub, hinit, hscanned, if_true]
  · intro hscanned hnone
    rcases hnone with hkube | ⟨first, rest, hkube, habsent⟩
    · simp only [hkube]
      exact hinit.trans hscanned
    · simp only [hkube, populatedStub, hinit, hscanned, if_true, Attributes.GetNumber,
        habsent]

/-- Witness of C16: a devfile whose Kubernetes component declares port 3000, with the
scanned ports 8080; the stub gets 8080, and it gets 3000 when nothing was scanned. -/
theorem devfileComponentStub_targetPort_witness :
    (sampleStub (sampleRun "port-3000".toList [8080])).map (·.TargetPort) = some 8080 ∧
      (sampleStub (sampleRun "port-3000".toList [])).map (·.TargetPort) = some 3000 ∧
      (sampleStub (sampleRun "port-3000".toList [0, 8080])).map (·.TargetPort) = some 3000 ∧
      (sampleDescription 8080 []).ComponentStub.TargetPort =
        scannedPort [("app".toList, [8080])] "app".toList :=
  ⟨by decide, by decide, by decide,
    (devfileComponentStub_targetPort sampleCollaborators sampleQuery [] []
      [("app".toList, [8080])] "app".toList "port-3000".toList
      (goDevfile [kubernetesComponent
        [(sampleKeys.ContainerImagePortKey, AttrValue.primitive "3000".toList)]])
      "app-repo-x7k2".toList (sampleDescription 8080 []) rfl rfl).1
      (by decide)⟩

/-- C18, as stated, fails on the empty string: with a CPU limit key that holds `""`, which
the quantity parser rejects, the call returns no error and the stub has no limit, so the
value is skipped without an error. -/
theorem updateComponentStub_empty_quantity_skipped :
    (∃ e, sampleCollaborators.ParseQuantity [] = Except.error e) ∧
      (sampleRun "cpu-empty".toList []).2 = none ∧
      (sampleStub (sampleRun "cpu-empty".toList [])).map (·.Resources) =
        some { Limits := [], Requests := [] } := by
  refine ⟨⟨_, rfl⟩, by decide, by decide⟩

/-- C18, amended: when a devfile context is among those visited, its devfile parses and
one of the six resource keys of its first Kubernetes component holds a non-empty string
that does not parse as a quantity, no description is built for the context, whatever the
dockerfile map holds when it is visited, and the call returns an error; an empty string
is treated as an absent key. -/
theorem updateComponentStub_unparsable_quantity (c : Collaborators)
    (query : ComponentDetectionQuery)
    (devfilesMap devfilesURLMap dockerfileContextMap : List (Str × Str))
    (componentPortsMap : List (Str × List Int)) (context devfileBytes : Str)
    (parsed : ParsedDevfile) (first : DevfileComponent) (rest : List DevfileComponent)
    (hmem : (context, devfileBytes) ∈ devfilesMap)
    (hparse : c.ParseDevfile devfileBytes = Except.ok parsed)
    (hfirst : kubernetesComponents parsed = first :: rest)
    (hbad : unparsableResource c first.Attributes) :
    (∀ dockerfiles, failed (devfileComponentStub c query devfilesURLMap dockerfiles
        componentPortsMap context devfileBytes)) ∧
      ∃ e, (updateComponentStub c (some query) devfilesMap devfilesURLMap
        dockerfileContextMap componentPortsMap).2 = some e := by
  have hbody : ∀ dockerfiles, failed (devfileComponentStub c query devfilesURLMap dockerfiles
      componentPortsMap context devfileBytes) := by
    intro dockerfiles
    refine devfileComponentStub_failed c query devfilesURLMap dockerfiles componentPortsMap
      context devfileBytes parsed first rest hparse
      ((getComponents_kubernetes parsed).trans (congrArg Except.ok hfirst)) ?_
    intro componentStub _
    exact populateFromAttributes_failed_of_unparsable c first.Attributes componentStub hbad
  exact ⟨hbody, updateComponentStub_failed c query devfilesMap devfilesURLMap
    dockerfileContextMap componentPortsMap context devfileBytes hmem hbody⟩

/-- Witness of C18: a memory request `abc`. -/
theorem updateComponentStub_unparsable_quantity_witness :
    (sampleRun "memory-abc".toList []).1.ComponentDetected = [] ∧
      ∃ e, (sampleRun "memory-abc".toList []).2 = some e :=
  ⟨by decide,
    (updateComponentStub_unparsable_quantity sampleCollaborators sampleQuery
      [("app".toList, "memory-abc".toList)] [] [] [("app".toList, [])] "app".toList
      "memory-abc".toList
      (goDevfile [kubernetesComponent
        [(sampleKeys.MemoryRequestKey, AttrValue.string "abc".toList)]])
      (kubernetesComponent [(sampleKeys.MemoryRequestKey, AttrValue.string "abc".toList)]) []
      (by decide) rfl rfl
      ⟨sampleKeys.MemoryRequestKey, by decide, "abc".toList,
        GoError.collaborator "quantity format is wrong".toList, rfl, by decide, rfl⟩).2⟩

theorem fatal_keyNotFound (key : Str) : fatal (some (GoError.keyNotFound key)) = none := rfl

theorem readResource_absent (c : Collaborators) (attrs : Attributes) (key : Str)
    (name : ResourceName) (list : ResourceList) (err : Option GoError)
    (habsent : attrs.lookup key = none) :
    readResource c attrs key name (list, err) =
      Except.ok (list, some (GoError.keyNotFound key)) := by
  simp only [readResource, Attributes.GetString, habsent, storeError, fatal_keyNotFound,
    ne_eq, not_true_eq_false, if_false]

theorem populateFromAttributes_absent (c : Collaborators) (attrs : Attributes)
    (componentName : Str) (gitSource : GitSource) (ports : List Int)
    (habsent : ∀ key ∈ recognizedKeys c.keys, attrs.lookup key = none) :
    populateFromAttributes c attrs (initialStub componentName gitSource ports) =
      Except.ok (initialStub componentName gitSource ports) := by
  have h1 := habsent c.keys.ContainerENVKey (by simp [recognizedKeys])
  have h2 := habsent c.keys.ContainerImagePortKey (by simp [recognizedKeys])
  have h3 := habsent c.keys.RouteKey (by simp [recognizedKeys])
  have h4 := habsent c.keys.ReplicaKey (by simp [recognizedKeys])
  have h5 := habsent c.keys.CpuLimitKey (by simp [recognizedKeys, resourceKeys])
  have h6 := habsent c.keys.MemoryLimitKey (by simp [recognizedKeys, resourceKeys])
  have h7 := habsent c.keys.StorageLimitKey (by simp [recognizedKeys, resourceKeys])
  have h8 := habsent c.keys.CpuRequestKey (by simp [recognizedKeys, resourceKeys])
  have h9 := habsent c.keys.MemoryRequestKey (by simp [recognizedKeys, resourceKeys])
  have h10 := habsent c.keys.StorageRequestKey (by simp [recognizedKeys, resourceKeys])
  have hk : ∀ key, fatal (some (GoError.keyNotFound key)) = none := fun _ => rfl
  cases ports with
  | nil =>
    simp only [populateFromAttributes, readEnv, readPort, readRoute, readReplicas, readLimits,
      readRequests, Attributes.GetInto, Attributes.GetNumber, Attributes.GetString, h1, h2,
      h3, h4, storeError, hk, Except.bind, initialStub, if_true, List.length_nil,
      readResource_absent c attrs _ _ _ _ h5, readResource_absent c attrs _ _ _ _ h6,
      readResource_absent c attrs _ _ _ _ h7, readResource_absent c attrs _ _ _ _ h8,
      readResource_absent c attrs _ _ _ _ h9,
      readResource_absent c attrs _ _ _ _ h10]
  | cons port rest =>
    by_cases hport : port = 0
    · subst hport
      simp only [populateFromAttributes, readEnv, readPort, readRoute, readReplicas,
        readLimits, readRequests, Attributes.GetInto, Attributes.GetNumber,
        Attributes.GetString, h1, h2, h3, h4, storeError, hk, Except.bind, initialStub,
        if_true, List.length_nil,
        readResource_absent c attrs _ _ _ _ h5,
        readResource_absent c attrs _ _ _ _ h6,
        readResource_absent c attrs _ _ _ _ h7,
        readResource_absent c attrs _ _ _ _ h8,
        readResource_absent c attrs _ _ _ _ h9,
        readResource_absent c attrs _ _ _ _ h10]
    · simp only [populateFromAttributes, readEnv, readPort, readRoute, readReplicas,
        readLimits, readRequests, Attributes.GetInto, Attributes.GetNumber,
        Attributes.GetString, h1, h2, h3, h4, storeError, hk, Except.bind, initialStub,
        hport, if_true, if_false, List.length_nil,
        readResource_absent c attrs _ _ _ _ h5,
        readResource_absent c attrs _ _ _ _ h6,
        readResource_absent c attrs _ _ _ _ h7,
        readResource_absent c attrs _ _ _ _ h8,
        readResource_absent c attrs _ _ _ _ h9,
        readResource_absent c attrs _ _ _ _ h10]

theorem getComponentName_isSome (noun token : Str) (gitSource : GitSource)
    (hnoun : noun ≠ []) : ∃ name, getComponentName noun token gitSource = some name :=
  ⟨_, sanitizeComponentName_eq_some noun token _ (filteredOrNoun_ne_nil_of_noun noun _ hnoun)⟩

/-- C19: absent keys are no errors.  For a devfile context whose devfile parses and has no
Kubernetes component, or whose first Kubernetes component has none of the ten recognized
keys, a description is built without error, and its stub has no environment variable, an
empty route, replica count 0, no resource limit, no resource request, and the scanned
port of the context (0 if none) as target port. -/
theorem devfileComponentStub_absent_keys (c : Collaborators)
    (query : ComponentDetectionQuery)
    (devfilesURLMap dockerfileContextMap : List (Str × Str))
    (componentPortsMap : List (Str × List Int)) (context devfileBytes : Str)
    (parsed : ParsedDevfile)
    (hparse : c.ParseDevfile devfileBytes = Except.ok parsed)
    (hnoun : c.noun context ≠ [])
    (habsent : kubernetesComponents parsed = [] ∨
      ∃ first rest, kubernetesComponents parsed = first :: rest ∧
        ∀ key ∈ recognizedKeys c.keys, first.Attributes.lookup key = none) :
    ∃ componentName description,
      devfileComponentStub c query devfilesURLMap dockerfileContextMap componentPortsMap
        context devfileBytes = Except.ok (componentName, description) ∧
      description.ComponentStub.Env = [] ∧
      description.ComponentStub.Route = [] ∧
      description.ComponentStub.Replicas = 0 ∧
      description.ComponentStub.Resources.Limits = [] ∧
      description.ComponentStub.Resources.Requests = [] ∧
      description.ComponentStub.TargetPort = scannedPort componentPortsMap context := by
  obtain ⟨name, hname⟩ := getComponentName_isSome (c.noun context) (c.token context)
    (contextGitSource query devfilesURLMap dockerfileContextMap context) hnoun
  unfold contextGitSource at hname
  refine ⟨name,
    { DevfileFound := decide ((mapGet devfilesURLMap context).length ≠ 0),
      Language := parsed.Metadata.Language,
      ProjectType := parsed.Metadata.ProjectType,
      ComponentStub := initialStub name
        (contextGitSource query devfilesURLMap dockerfileContextMap context)
        ((componentPortsMap.lookup context).getD []) }, ?_, ?_⟩
  · unfold devfileComponentStub
    simp only [hparse, getComponents_kubernetes, hname]
    rcases habsent with hkube | ⟨first, rest, hkube, hkeys⟩
    · simp only [hkube]
      rfl
    · simp only [hkube, populateFromAttributes_absent c first.Attributes _ _ _ hkeys]
      rfl
  · unfold scannedPort
    cases (componentPortsMap.lookup context).getD [] <;>
      exact ⟨rfl, rfl, rfl, rfl, rfl, rfl⟩

/-- Witness of C19: a devfile whose Kubernetes component has no attribute, in a context
with the scanned port 7. -/
theorem devfileComponentStub_absent_keys_witness :
    (sampleRun "no-keys".toList [7]).2 = none ∧
      sampleStub (sampleRun "no-keys".toList [7]) =
        some (sampleDescription 7 []).ComponentStub ∧
      sampleStub (sampleRun "no-kubernetes".toList []) =
        some (sampleDescription 0 []).ComponentStub ∧
      ∃ componentName description,
        devfileComponentStub sampleCollaborators sampleQuery [] [] [("app".toList, [7])]
          "app".toList "no-keys".toList = Except.ok (componentName, description) ∧
        description.ComponentStub.Env = [] ∧
        description.ComponentStub.Route = [] ∧
        description.ComponentStub.Replicas = 0 ∧
        description.ComponentStub.Resources.Limits = [] ∧
        description.ComponentStub.Resources.Requests = [] ∧
        description.ComponentStub.TargetPort = scannedPort [("app".toList, [7])] "app".toList :=
  ⟨by decide, by decide, by decide,
    devfileComponentStub_absent_keys sampleCollaborators sampleQuery [] []
      [("app".toList, [7])] "app".toList "no-keys".toList
      (goDevfile [kubernetesComponent []]) rfl (by decide)
      (Or.inr ⟨kubernetesComponent [], [], rfl, fun _ _ => rfl⟩)⟩

theorem recordParsed_eq_present (c : Collaborators) (attrs : Attributes) (key : Str)
    (name : ResourceName) (list : ResourceList)
    (hempty : ∃ e, c.ParseQuantity [] = Except.error e) :
    recordParsed c attrs key name list =
      match presentQuantity c attrs key with
      | some quantity => mapSet list name quantity
      | none => list := by
  obtain ⟨e0, he0⟩ := hempty
  unfold recordParsed presentQuantity
  cases hlook : attrs.lookup key with
  | none => simp only [Attributes.GetString, hlook, if_true]
  | some v =>
    by_cases ht : (attrs.GetString key).1 = []
    · simp only [ht, if_true, he0]
    · simp only [ht, if_false]
      cases c.ParseQuantity (attrs.GetString key).1 <;> rfl

theorem recordedResources_nil (c : Collaborators) (attrs : Attributes)
    (cpuKey memoryKey storageKey : Str)
    (hempty : ∃ e, c.ParseQuantity [] = Except.error e) :
    recordedResources c attrs cpuKey memoryKey storageKey [] =
      resourceEntries c attrs cpuKey memoryKey storageKey := by
  unfold recordedResources resourceEntries
  simp only [recordParsed_eq_present c attrs _ _ _ hempty]
  cases presentQuantity c attrs cpuKey <;> cases presentQuantity c attrs memoryKey <;>
    cases presentQuantity c attrs storageKey <;> simp [mapSet]

theorem presentQuantity_of_string (c : Collaborators) (attrs : Attributes) (key text : Str)
    (quantity : Quantity) (hlook : attrs.lookup key = some (AttrValue.string text))
    (hparse : c.ParseQuantity text = Except.ok quantity) :
    presentQuantity c attrs key = some quantity := by
  simp only [presentQuantity, hlook, Attributes.GetString, hparse]

theorem presentQuantity_of_absent (c : Collaborators) (attrs : Attributes) (key : Str)
    (hlook : attrs.lookup key = none) : presentQuantity c attrs key = none := by
  simp only [presentQuantity, hlook]

/-- C20: in the description built for a devfile context with a Kubernetes component, the
limits of the stub are exactly the entries of the resource kinds (CPU, memory, storage)
whose limit key is present on the first Kubernetes component, each with the parsed
quantity of its string, and likewise the requests for the request keys (the quantity
parser rejects the empty string).  With CPU limit `2` and memory limit `2Gi` as the only
resource keys, the limits are the CPU and memory entries, without a storage entry, and
there is no request. -/
theorem devfileComponentStub_resources (c : Collaborators) (query : ComponentDetectionQuery)
    (devfilesURLMap dockerfileContextMap : List (Str × Str))
    (componentPortsMap : List (Str × List Int)) (context devfileBytes : Str)
    (parsed : ParsedDevfile) (first : DevfileComponent) (rest : List DevfileComponent)
    (componentName : Str) (description : ComponentDetectionDescription)
    (hempty : ∃ e, c.ParseQuantity [] = Except.error e)
    (hparse : c.ParseDevfile devfileBytes = Except.ok parsed)
    (hfirst : kubernetesComponents parsed = first :: rest)
    (h : devfileComponentStub c query devfilesURLMap dockerfileContextMap componentPortsMap
      context devfileBytes = Except.ok (componentName, description)) :
    description.ComponentStub.Resources.Limits =
        resourceEntries c first.Attributes c.keys.CpuLimitKey c.keys.MemoryLimitKey
          c.keys.StorageLimitKey ∧
      description.ComponentStub.Resources.Requests =
        resourceEntries c first.Attributes c.keys.CpuRequestKey c.keys.MemoryRequestKey
          c.keys.StorageRequestKey ∧
      ∀ cpu memory : Quantity,
        first.Attributes.lookup c.keys.CpuLimitKey = some (AttrValue.string "2".toList) →
        first.Attributes.lookup c.keys.MemoryLimitKey = some (AttrValue.string "2Gi".toList) →
        first.Attributes.lookup c.keys.StorageLimitKey = none →
        first.Attributes.lookup c.keys.CpuRequestKey = none →
        first.Attributes.lookup c.keys.MemoryRequestKey = none →
        first.Attributes.lookup c.keys.StorageRequestKey = none →
        c.ParseQuantity "2".toList = Except.ok cpu →
        c.ParseQuantity "2Gi".toList = Except.ok memory →
        description.ComponentStub.Resources.Limits =
            [(ResourceName.cpu, cpu), (ResourceName.memory, memory)] ∧
          description.ComponentStub.Resources.Requests = [] := by
  obtain ⟨_, _, _, _, hstub⟩ := devfileComponentStub_ok c query devfilesURLMap
    dockerfileContextMap componentPortsMap context devfileBytes parsed componentName
    description hparse h
  simp only [hfirst] at hstub
  have hinitL : (initialStub componentName
      (contextGitSource query devfilesURLMap dockerfileContextMap context)
      ((componentPortsMap.lookup context).getD [])).Resources.Limits = [] := by
    cases (componentPortsMap.lookup context).getD [] <;> rfl
  have hinitR : (initialStub componentName
      (contextGitSource query devfilesURLMap dockerfileContextMap context)
      ((componentPortsMap.lookup context).getD [])).Resources.Requests = [] := by
    cases (componentPortsMap.lookup context).getD [] <;> rfl
  have hL : description.ComponentStub.Resources.Limits =
      resourceEntries c first.Attributes c.keys.CpuLimitKey c.keys.MemoryLimitKey
        c.keys.StorageLimitKey := by
    rw [hstub]
    simp only [populatedStub, hinitL]
    exact recordedResources_nil c first.Attributes _ _ _ hempty
  have hR : description.ComponentStub.Resources.Requests =
      resourceEntries c first.Attributes c.keys.CpuRequestKey c.keys.MemoryRequestKey
        c.keys.StorageRequestKey := by
    rw [hstub]
    simp only [populatedStub, hinitR]
    exact recordedResources_nil c first.Attributes _ _ _ hempty
  refine ⟨hL, hR, ?_⟩
  intro cpu memory h1 h2 h3 h4 h5 h6 hp1 hp2
  rw [hL, hR]
  simp only [resourceEntries, presentQuantity_of_string c _ _ _ _ h1 hp1,
    presentQuantity_of_string c _ _ _ _ h2 hp2, presentQuantity_of_absent c _ _ h3,
    presentQuantity_of_absent c _ _ h4, presentQuantity_of_absent c _ _ h5,
    presentQuantity_of_absent c _ _ h6]
  exact ⟨rfl, rfl⟩

/-- Witness of C20: the devfile with CPU limit `2` and memory limit `2Gi`. -/
theorem devfileComponentStub_resources_witness :
    (sampleStub (sampleRun "limits".toList [])).map (·.Resources) =
        some { Limits := [(ResourceName.cpu, { canonical := "2".toList }),
                          (ResourceName.memory, { canonical := "2Gi".toList })],
               Requests := [] } ∧
      (sampleDescription 0 [(ResourceName.cpu, { canonical := "2".toList }),
          (ResourceName.memory, { canonical := "2Gi".toList })]).ComponentStub.Resources.Limits =
        resourceEntries sampleCollaborators
          [(sampleKeys.CpuLimitKey, AttrValue.string "2".toList),
           (sampleKeys.MemoryLimitKey, AttrValue.string "2Gi".toList)]
          sampleKeys.CpuLimitKey sampleKeys.MemoryLimitKey sampleKeys.StorageLimitKey :=
  ⟨by decide,
    (devfileComponentStub_resources sampleCollaborators sampleQuery [] []
      [("app".toList, [])] "app".toList "limits".toList
      (goDevfile [kubernetesComponent
        [(sampleKeys.CpuLimitKey, AttrValue.string "2".toList),
         (sampleKeys.MemoryLimitKey, AttrValue.string "2Gi".toList)]])
      (kubernetesComponent
        [(sampleKeys.CpuLimitKey, AttrValue.string "2".toList),
         (sampleKeys.MemoryLimitKey, AttrValue.string "2Gi".toList)]) []
      "app-repo-x7k2".toList
      (sampleDescription 0 [(ResourceName.cpu, { canonical := "2".toList }),
        (ResourceName.memory, { canonical := "2Gi".toList })])
      ⟨_, rfl⟩ rfl rfl rfl).1⟩

/-! ## The sanitizer against its rules -/

/-- C23: `sanitizeComponentName` is the reference definition that applies the rules in
their order (filter, noun fallback, `comp-` before a leading digit, lowercase, cut to 58
characters, `-` and token).  So the result is a base of at most 58 characters, in which
the `comp-` prefix is counted, followed by `-` and the whole token; a name of 60 digits
gives `comp-`, 53 digits, `-` and the token. -/
theorem sanitizeComponentName_eq_reference (noun token name : Str) :
    sanitizeComponentName noun token name = sanitizeReference noun token name ∧
      (∀ r, sanitizeComponentName noun token name = some r →
        ∃ base, r = base ++ '-' :: token ∧ base.length ≤ 58) ∧
      sanitizeComponentName noun token (List.replicate 60 '1') =
        some ("comp-".toList ++ List.replicate 53 '1' ++ '-' :: token) := by
  refine ⟨?_, ?_, rfl⟩
  · unfold sanitizeReference
    by_cases hf : filteredOrNoun noun name = []
    · rw [sanitizeComponentName_eq_none noun token name hf]
      unfold filteredOrNoun at hf
      simp only [hf, List.head?_nil]
    · rw [sanitizeComponentName_eq_some noun token name hf]
      unfold baseName withCompPrefix
      generalize hg : filteredOrNoun noun name = f at hf
      unfold filteredOrNoun at hg
      simp only [hg]
      cases f with
      | nil => exact absurd rfl hf
      | cons c rest =>
        simp only [List.head?_cons, Option.map_some', Option.some.injEq]
        by_cases hc : isDigit c = true
        · simp [hc, compPrefix]
        · simp [hc]
  · intro r hr
    by_cases hf : filteredOrNoun noun name = []
    · rw [sanitizeComponentName_eq_none noun token name hf] at hr
      exact Option.noConfusion hr
    · rw [sanitizeComponentName_eq_some noun token name hf] at hr
      exact ⟨baseName noun name, (Option.some.inj hr).symm, baseName_length_le noun name⟩

/-- Witness of C23: a name that starts with a digit. -/
theorem sanitizeComponentName_eq_reference_witness :
    sanitizeComponentName "thing".toList "x7k2".toList "123".toList =
        sanitizeReference "thing".toList "x7k2".toList "123".toList ∧
      ∃ base, "comp-123-x7k2".toList = base ++ '-' :: "x7k2".toList ∧ base.length ≤ 58 :=
  ⟨(sanitizeComponentName_eq_reference "thing".toList "x7k2".toList "123".toList).1,
    (sanitizeComponentName_eq_reference "thing".toList "x7k2".toList "123".toList).2.1
      "comp-123-x7k2".toList rfl⟩

/-! ## The git branch and the container image -/

theorem updateApplicationDevfileModel_git_eq (d : DevfileData) (component : Component)
    (gitSource : GitSource) (hgit : component.Spec.Source.GitSource = some gitSource) :
    updateApplicationDevfileModel d component =
      if d.Projects.any
          (fun project => decide (project.Name = component.Spec.ComponentName)) = true then
        (d, some (GoError.errorf (alreadyHasComponent ++ component.Spec.ComponentName)))
      else
        ({ d with Projects :=
            d.Projects ++ [originProject component.Spec.ComponentName gitSource.URL] },
          none) := by
  split_ifs with hany
  · exact updateApplicationDevfileModel_git_taken d component gitSource hgit hany
  · exact updateApplicationDevfileModel_git_fresh d component gitSource hgit hany

/-- C26: for a component with a git source, the call takes the git branch whatever the
container image.  Its outcome is that of the same component with the image emptied; the
attributes of the model are left as they are; the returned error and the project list do
not depend on the attributes, so the image is not recorded and an image entry of the same
name in the attributes does not make the call fail. -/
theorem updateApplicationDevfileModel_git_ignores_image (d : DevfileData)
    (component : Component) (gitSource : GitSource)
    (hgit : component.Spec.Source.GitSource = some gitSource) :
    updateApplicationDevfileModel d component =
        updateApplicationDevfileModel d (withoutImage component) ∧
      (updateApplicationDevfileModel d component).1.Attributes = d.Attributes ∧
      (∀ attrs : Option Attributes,
        (updateApplicationDevfileModel { d with Attributes := attrs } component).2 =
            (updateApplicationDevfileModel d component).2 ∧
          (updateApplicationDevfileModel { d with Attributes := attrs } component).1.Projects =
            (updateApplicationDevfileModel d component).1.Projects) ∧
      ((∀ project ∈ d.Projects, project.Name ≠ component.Spec.ComponentName) →
        (updateApplicationDevfileModel d component).2 = none) := by
  have hgit2 : (withoutImage component).Spec.Source.GitSource = some gitSource := hgit
  refine ⟨?_, ?_, ?_, ?_⟩
  · rw [updateApplicationDevfileModel_git_eq d component gitSource hgit,
      updateApplicationDevfileModel_git_eq d (withoutImage component) gitSource hgit2]
    rfl
  · rw [updateApplicationDevfileModel_git_eq d component gitSource hgit]
    split_ifs <;> rfl
  · intro attrs
    rw [updateApplicationDevfileModel_git_eq d component gitSource hgit,
      updateApplicationDevfileModel_git_eq { d with Attributes := attrs } component gitSource
        hgit]
    simp only
    split_ifs <;> exact ⟨rfl, rfl⟩
  · intro hfresh
    have hany : ¬ d.Projects.any
        (fun project => decide (project.Name = component.Spec.ComponentName)) = true := by
      intro h
      obtain ⟨project, hmem, hname⟩ := (any_name_eq_true_iff _ _).mp h
      exact hfresh project hmem hname
    rw [updateApplicationDevfileModel_git_fresh d component gitSource hgit hany]

/-- Witness of C26: a git-sourced component `svc0` with an image, on a model whose
attributes already hold `containerImage/svc0`: a project is appended, the call does not
fail and the attribute keeps its value. -/
theorem updateApplicationDevfileModel_git_ignores_image_witness :
    updateApplicationDevfileModel attributedModel gitAndImageComponent =
        updateApplicationDevfileModel attributedModel (withoutImage gitAndImageComponent) ∧
      (updateApplicationDevfileModel attributedModel gitAndImageComponent).1.Attributes =
        attributedModel.Attributes ∧
      (updateApplicationDevfileModel attributedModel gitAndImageComponent).2 = none ∧
      (updateApplicationDevfileModel attributedModel gitAndImageComponent).1.Projects.map
          (·.Name) = ["frontend".toList, "svc0".toList] :=
  have h := updateApplicationDevfileModel_git_ignores_image attributedModel
    gitAndImageComponent plainGitSource rfl
  ⟨h.1, h.2.1, h.2.2.2 (by decide), by decide⟩

/-! ## Only the first Kubernetes component is read -/

theorem devfileComponentStub_congr (c : Collaborators) (query : ComponentDetectionQuery)
    (devfilesURLMap dockerfileContextMap : List (Str × Str))
    (componentPortsMap : List (Str × List Int)) (context bytes1 bytes2 : Str)
    (parsed1 parsed2 : ParsedDevfile)
    (hparse1 : c.ParseDevfile bytes1 = Except.ok parsed1)
    (hparse2 : c.ParseDevfile bytes2 = Except.ok parsed2)
    (hmeta : parsed1.Metadata = parsed2.Metadata)
    (hfirst : (kubernetesComponents parsed1).head? = (kubernetesComponents parsed2).head?) :
    devfileComponentStub c query devfilesURLMap dockerfileContextMap componentPortsMap
        context bytes1 =
      devfileComponentStub c query devfilesURLMap dockerfileContextMap componentPortsMap
        context bytes2 := by
  unfold devfileComponentStub
  simp only [hparse1, hparse2, getComponents_kubernetes, ParsedDevfile.GetMetadata, hmeta]
  cases h1 : kubernetesComponents parsed1 with
  | nil =>
    cases h2 : kubernetesComponents parsed2 with
    | nil => rfl
    | cons first2 rest2 => rw [h1, h2] at hfirst; exact Option.noConfusion hfirst
  | cons first1 rest1 =>
    cases h2 : kubernetesComponents parsed2 with
    | nil => rw [h1, h2] at hfirst; exact Option.noConfusion hfirst
    | cons first2 rest2 =>
      rw [h1, h2] at hfirst
      have hsame : first1 = first2 := Option.some.inj hfirst
      subst hsame
      rfl

theorem devfileLoop_congr (c : Collaborators) (query : ComponentDetectionQuery)
    (devfilesURLMap : List (Str × Str)) (componentPortsMap : List (Str × List Int))
    (context bytes1 bytes2 : Str) (before after : List (Str × Str))
    (hbody : ∀ dockerfiles, devfileComponentStub c query devfilesURLMap dockerfiles
        componentPortsMap context bytes1 =
      devfileComponentStub c query devfilesURLMap dockerfiles componentPortsMap context bytes2)
    (state : DetectionState) :
    devfileLoop c query devfilesURLMap componentPortsMap
        (before ++ (context, bytes1) :: after) state =
      devfileLoop c query devfilesURLMap componentPortsMap
        (before ++ (context, bytes2) :: after) state := by
  induction before generalizing state with
  | nil =>
    simp only [List.nil_append, devfileLoop, hbody]
  | cons entry rest ih =>
    obtain ⟨ctx, bytes⟩ := entry
    simp only [List.cons_append, devfileLoop]
    cases devfileComponentStub c query devfilesURLMap state.dockerfileContextMap
        componentPortsMap ctx bytes with
    | error e => rfl
    | ok built => exact ih _

/-- C24: only the first Kubernetes component of a devfile is read.  For two devfiles of a
context that parse, with the same metadata and the same first Kubernetes component (or
none in both), whatever their other components hold, the loop body gives the same
outcome, error or description, and the whole call gives the same outcome when the one
devfile takes the place of the other, with the same random draws. -/
theorem updateComponentStub_first_kubernetes_only (c : Collaborators)
    (context bytes1 bytes2 : Str) (parsed1 parsed2 : ParsedDevfile)
    (hparse1 : c.ParseDevfile bytes1 = Except.ok parsed1)
    (hparse2 : c.ParseDevfile bytes2 = Except.ok parsed2)
    (hmeta : parsed1.Metadata = parsed2.Metadata)
    (hfirst : (kubernetesComponents parsed1).head? = (kubernetesComponents parsed2).head?) :
    (∀ (query : ComponentDetectionQuery) (devfilesURLMap dockerfiles : List (Str × Str))
        (componentPortsMap : List (Str × List Int)),
        devfileComponentStub c query devfilesURLMap dockerfiles componentPortsMap context
            bytes1 =
          devfileComponentStub c query devfilesURLMap dockerfiles componentPortsMap context
            bytes2) ∧
      ∀ (query : Option ComponentDetectionQuery) (before after : List (Str × Str))
        (devfilesURLMap dockerfiles : List (Str × Str))
        (componentPortsMap : List (Str × List Int)),
        updateComponentStub c query (before ++ (context, bytes1) :: after) devfilesURLMap
            dockerfiles componentPortsMap =
          updateComponentStub c query (before ++ (context, bytes2) :: after) devfilesURLMap
            dockerfiles componentPortsMap := by
  have hbody : ∀ (query : ComponentDetectionQuery) (devfilesURLMap dockerfiles : List (Str × Str))
      (componentPortsMap : List (Str × List Int)),
      devfileComponentStub c query devfilesURLMap dockerfiles componentPortsMap context
          bytes1 =
        devfileComponentStub c query devfilesURLMap dockerfiles componentPortsMap context
          bytes2 :=
    fun query devfilesURLMap dockerfiles componentPortsMap =>
      devfileComponentStub_congr c query devfilesURLMap dockerfiles componentPortsMap context
        bytes1 bytes2 parsed1 parsed2 hparse1 hparse2 hmeta hfirst
  refine ⟨hbody, ?_⟩
  intro query before after devfilesURLMap dockerfiles componentPortsMap
  cases query with
  | none => rfl
  | some q =>
    unfold updateComponentStub
    simp only
    rw [devfileLoop_congr c q devfilesURLMap componentPortsMap context bytes1 bytes2 before
      after (fun d => hbody q devfilesURLMap d componentPortsMap)]

/-- Witness of C24: two devfiles with the same first Kubernetes component; the second
component of the second devfile has a malformed environment attribute, and both calls
succeed with the same result. -/
theorem updateComponentStub_first_kubernetes_only_witness :
    updateComponentStub twinCollaborators (some sampleQuery)
        ([] ++ ("app".toList, "two-a".toList) :: []) [] [] [] =
      updateComponentStub twinCollaborators (some sampleQuery)
        ([] ++ ("app".toList, "two-b".toList) :: []) [] [] [] ∧
    (updateComponentStub twinCollaborators (some sampleQuery)
        [("app".toList, "two-b".toList)] [] [] []).2 = none :=
  ⟨(updateComponentStub_first_kubernetes_only twinCollaborators "app".toList "two-a".toList
      "two-b".toList
      (goDevfile
        [kubernetesComponent [(sampleKeys.RouteKey, AttrValue.string "r.example".toList)],
         kubernetesComponent [(sampleKeys.ReplicaKey, AttrValue.primitive "3".toList)]])
      (goDevfile
        [kubernetesComponent [(sampleKeys.RouteKey, AttrValue.string "r.example".toList)],
         kubernetesComponent [(sampleKeys.ContainerENVKey, AttrValue.string "x".toList)]])
      rfl rfl rfl rfl).2 (some sampleQuery) [] [] [] [] [],
    by decide⟩

/-! ## Reads and writes of the maps of updateComponentStub -/

theorem lookup_mapSet_self {β : Type} (m : List (Str × β)) (key : Str) (value : β) :
    (mapSet m key value).lookup key = some value := by
  induction m with
  | nil => simp [mapSet, List.lookup]
  | cons entry rest ih =>
    obtain ⟨k, v⟩ := entry
    by_cases hk : k = key
    · simp [mapSet, hk, List.lookup]
    · have hne : (key == k) = false := by
        rw [beq_eq_false_iff_ne]; exact fun h => hk h.symm
      simp only [mapSet, hk, if_false, List.lookup, hne]
      exact ih

theorem lookup_mapSet_ne {β : Type} (m : List (Str × β)) (key other : Str) (value : β)
    (h : other ≠ key) : (mapSet m key value).lookup other = m.lookup other := by
  induction m with
  | nil =>
    have hne : (other == key) = false := by rw [beq_eq_false_iff_ne]; exact h
    simp [mapSet, List.lookup, hne]
  | cons entry rest ih =>
    obtain ⟨k, v⟩ := entry
    by_cases hk : k = key
    · subst hk
      have hne : (other == k) = false := by rw [beq_eq_false_iff_ne]; exact h
      simp [mapSet, List.lookup, hne]
    · simp only [mapSet, hk, if_false, List.lookup]
      cases hb : (other == k) with
      | true => rfl
      | false => exact ih

theorem mem_mapSet {β : Type} (m : List (Str × β)) (key : Str) (value : β)
    (entry : Str × β) (h : entry ∈ mapSet m key value) :
    entry ∈ m ∨ entry = (key, value) := by
  induction m with
  | nil =>
    simp only [mapSet, List.mem_singleton] at h
    exact Or.inr h
  | cons head rest ih =>
    obtain ⟨k, v⟩ := head
    by_cases hk : k = key
    · simp only [mapSet, hk, if_true, List.mem_cons] at h
      rcases h with h | h
      · exact Or.inr h
      · exact Or.inl (List.mem_cons_of_mem _ h)
    · simp only [mapSet, hk, if_false, List.mem_cons] at h
      rcases h with h | h
      · exact Or.inl (h ▸ List.mem_cons_self _ _)
      · rcases ih h with h2 | h2
        · exact Or.inl (List.mem_cons_of_mem _ h2)
        · exact Or.inr h2

theorem mem_mapDelete {β : Type} (m : List (Str × β)) (key : Str) (entry : Str × β) :
    entry ∈ mapDelete m key ↔ entry ∈ m ∧ entry.1 ≠ key := by
  simp [mapDelete, List.mem_filter]

theorem lookup_mapDelete_ne {β : Type} (m : List (Str × β)) (key other : Str)
    (h : other ≠ key) : (mapDelete m key).lookup other = m.lookup other := by
  induction m with
  | nil => rfl
  | cons entry rest ih =>
    obtain ⟨k, v⟩ := entry
    by_cases hk : k = key
    · subst hk
      have hne : (other == k) = false := by rw [beq_eq_false_iff_ne]; exact h
      simp only [mapDelete, List.filter, ne_eq, not_true_eq_false, decide_False,
        List.lookup, hne]
      exact ih
    · simp only [mapDelete, List.filter, hk, ne_eq, not_false_eq_true, decide_True,
        List.lookup]
      cases hb : (other == k) with
      | true => rfl
      | false => exact ih

theorem mapGet_mapDelete_ne (m : List (Str × Str)) (key other : Str) (h : other ≠ key) :
    mapGet (mapDelete m key) other = mapGet m other := by
  simp only [mapGet, lookup_mapDelete_ne m key other h]

/-! ## What the loop over the devfiles records -/

theorem initialStub_frame (componentName : Str) (gitSource : GitSource) (ports : List Int) :
    (initialStub componentName gitSource ports).ComponentName = componentName ∧
      (initialStub componentName gitSource ports).Application = insertApplicationName ∧
      (initialStub componentName gitSource ports).Source.GitSource = some gitSource ∧
      (initialStub componentName gitSource ports).ContainerImage = [] := by
  cases ports <;> exact ⟨rfl, rfl, rfl, rfl⟩

theorem devfileComponentStub_frame (c : Collaborators) (query : ComponentDetectionQuery)
    (devfilesURLMap dockerfileContextMap : List (Str × Str))
    (componentPortsMap : List (Str × List Int)) (context devfileBytes : Str)
    (parsed : ParsedDevfile) (componentName : Str)
    (description : ComponentDetectionDescription)
    (hparse : c.ParseDevfile devfileBytes = Except.ok parsed)
    (h : devfileComponentStub c query devfilesURLMap dockerfileContextMap componentPortsMap
      context devfileBytes = Except.ok (componentName, description)) :
    description.ComponentStub.ComponentName = componentName ∧
      description.ComponentStub.Application = insertApplicationName ∧
      description.ComponentStub.Source.GitSource =
        some (contextGitSource query devfilesURLMap dockerfileContextMap context) ∧
      description.ComponentStub.ContainerImage = [] := by
  obtain ⟨_, _, _, _, hstub⟩ := devfileComponentStub_ok c query devfilesURLMap
    dockerfileContextMap componentPortsMap context devfileBytes parsed componentName
    description hparse h
  have hinit := initialStub_frame componentName
    (contextGitSource query devfilesURLMap dockerfileContextMap context)
    ((componentPortsMap.lookup context).getD [])
  rw [hstub]
  cases kubernetesComponents parsed with
  | nil => exact hinit
  | cons first rest => exact hinit

theorem devfileLoop_cons_ok (c : Collaborators) (query : ComponentDetectionQuery)
    (devfilesURLMap : List (Str × Str)) (componentPortsMap : List (Str × List Int))
    (context devfileBytes : Str) (rest : List (Str × Str)) (state : DetectionState)
    (componentName : Str) (description : ComponentDetectionDescription)
    (h : devfileComponentStub c query devfilesURLMap state.dockerfileContextMap
      componentPortsMap context devfileBytes = Except.ok (componentName, description)) :
    devfileLoop c query devfilesURLMap componentPortsMap ((context, devfileBytes) :: rest)
        state =
      devfileLoop c query devfilesURLMap componentPortsMap rest
        { ComponentDetected := mapSet state.ComponentDetected componentName description,
          dockerfileContextMap := mapDelete state.dockerfileContextMap context } := by
  simp only [devfileLoop, h]

/-! ## The loop over the dockerfile map -/

theorem dockerfileLoop_cons (c : Collaborators) (query : ComponentDetectionQuery)
    (context link : Str) (rest : List (Str × Str)) (detected : ComponentDetectionMap) :
    dockerfileLoop c query ((context, link) :: rest) detected =
      match getComponentName (c.noun context) (c.token context)
          (dockerfileGitSource query context link) with
      | none => (detected, some GoError.runtimePanic)
      | some componentName =>
        dockerfileLoop c query rest
          (mapSet detected componentName
            (dockerfileDescription componentName (dockerfileGitSource query context link))) :=
  rfl

theorem dockerfileLoop_mem (c : Collaborators) (query : ComponentDetectionQuery)
    (dockerfiles : List (Str × Str)) (detected final : ComponentDetectionMap)
    (h : dockerfileLoop c query dockerfiles detected = (final, none))
    (entry : Str × ComponentDetectionDescription) (hentry : entry ∈ final) :
    entry ∈ detected ∨
      ∃ context link, (context, link) ∈ dockerfiles ∧
        entry.2 = dockerfileDescription entry.1 (dockerfileGitSource query context link) := by
  induction dockerfiles generalizing detected with
  | nil =>
    simp only [dockerfileLoop, Prod.mk.injEq, and_true] at h
    exact Or.inl (h ▸ hentry)
  | cons head rest ih =>
    obtain ⟨context, link⟩ := head
    rw [dockerfileLoop_cons] at h
    cases hname : getComponentName (c.noun context) (c.token context)
        (dockerfileGitSource query context link) with
    | none =>
      rw [hname] at h
      exact Option.noConfusion (congrArg Prod.snd h)
    | some componentName =>
      rw [hname] at h
      rcases ih _ h with hmem | ⟨ctx, lnk, hin, hdesc⟩
      · rcases mem_mapSet _ _ _ _ hmem with hold | hnew
        · exact Or.inl hold
        · refine Or.inr ⟨context, link, List.mem_cons_self _ _, ?_⟩
          rw [hnew]
      · exact Or.inr ⟨ctx, lnk, List.mem_cons_of_mem _ hin, hdesc⟩

theorem dockerfileLoop_lookup (c : Collaborators) (query : ComponentDetectionQuery)
    (dockerfiles : List (Str × Str)) (detected final : ComponentDetectionMap) (key : Str)
    (h : dockerfileLoop c query dockerfiles detected = (final, none))
    (hkey : ∀ context link name, (context, link) ∈ dockerfiles →
      getComponentName (c.noun context) (c.token context)
        (dockerfileGitSource query context link) = some name → name ≠ key) :
    final.lookup key = detected.lookup key := by
  induction dockerfiles generalizing detected with
  | nil =>
    simp only [dockerfileLoop, Prod.mk.injEq, and_true] at h
    rw [h]
  | cons head rest ih =>
    obtain ⟨context, link⟩ := head
    rw [dockerfileLoop_cons] at h
    cases hname : getComponentName (c.noun context) (c.token context)
        (dockerfileGitSource query context link) with
    | none =>
      rw [hname] at h
      exact Option.noConfusion (congrArg Prod.snd h)
    | some componentName =>
      rw [hname] at h
      have hne : key ≠ componentName :=
        fun heq => hkey context link componentName (List.mem_cons_self _ _) hname heq.symm
      rw [ih _ h (fun ctx lnk name hin => hkey ctx lnk name (List.mem_cons_of_mem _ hin)),
        lookup_mapSet_ne _ _ _ _ hne]

theorem generatedName_of_dockerfile (c : Collaborators) (query : ComponentDetectionQuery)
    (context link : Str) :
    getComponentName (c.noun context) (c.token context)
        (dockerfileGitSource query context link) = generatedName c query context := rfl

theorem generatedName_of_devfile (c : Collaborators) (query : ComponentDetectionQuery)
    (devfilesURLMap dockerfiles : List (Str × Str)) (context : Str) :
    getComponentName (c.noun context) (c.token context)
        (contextGitSource query devfilesURLMap dockerfiles context) =
      generatedName c query context := rfl

theorem dockerfileLoop_recorded (c : Collaborators) (query : ComponentDetectionQuery)
    (dockerfiles : List (Str × Str)) (detected final : ComponentDetectionMap)
    (context link : Str)
    (h : dockerfileLoop c query dockerfiles detected = (final, none))
    (hkeys : (dockerfiles.map Prod.fst).Nodup)
    (hmem : (context, link) ∈ dockerfiles)
    (hno : ∀ other ∈ dockerfiles.map Prod.fst, other ≠ context →
      generatedName c query other ≠ generatedName c query context) :
    ∃ name, getComponentName (c.noun context) (c.token context)
        (dockerfileGitSource query context link) = some name ∧
      final.lookup name =
        some (dockerfileDescription name (dockerfileGitSource query context link)) := by
  induction dockerfiles generalizing detected with
  | nil => exact absurd hmem (List.not_mem_nil _)
  | cons head rest ih =>
    obtain ⟨ctx, lnk⟩ := head
    rw [dockerfileLoop_cons] at h
    simp only [List.map_cons, List.nodup_cons] at hkeys
    cases hname : getComponentName (c.noun ctx) (c.token ctx)
        (dockerfileGitSource query ctx lnk) with
    | none =>
      rw [hname] at h
      exact Option.noConfusion (congrArg Prod.snd h)
    | some componentName =>
      rw [hname] at h
      rcases List.mem_cons.mp hmem with hhead | htail
      · have hctx : context = ctx := congrArg Prod.fst hhead
        have hlnk : link = lnk := congrArg Prod.snd hhead
        subst hctx hlnk
        refine ⟨componentName, hname, ?_⟩
        rw [dockerfileLoop_lookup c query rest _ final componentName h ?_,
          lookup_mapSet_self]
        intro other otherLink otherName hin hother heq
        have hne : other ≠ context := by
          intro hsame
          exact hkeys.1 (List.mem_map.mpr ⟨(other, otherLink), hin, hsame⟩)
        refine hno other ?_ hne ?_
        · exact List.mem_map.mpr ⟨(other, otherLink), List.mem_cons_of_mem _ hin, rfl⟩
        · rw [← generatedName_of_dockerfile c query other otherLink,
            ← generatedName_of_dockerfile c query context link, hother, hname, heq]
      · refine ih _ h hkeys.2 htail ?_
        intro other hin
        exact hno other (List.mem_cons_of_mem _ hin)

/-! ## The loop over the devfiles -/

theorem devfileComponentStub_dockerfiles (c : Collaborators) (query : ComponentDetectionQuery)
    (devfilesURLMap dockerfiles1 dockerfiles2 : List (Str × Str))
    (componentPortsMap : List (Str × List Int)) (context devfileBytes : Str)
    (h : mapGet dockerfiles1 context = mapGet dockerfiles2 context) :
    devfileComponentStub c query devfilesURLMap dockerfiles1 componentPortsMap context
        devfileBytes =
      devfileComponentStub c query devfilesURLMap dockerfiles2 componentPortsMap context
        devfileBytes := by
  unfold devfileComponentStub
  rw [h]

theorem devfileComponentStub_parsed (c : Collaborators) (query : ComponentDetectionQuery)
    (devfilesURLMap dockerfiles : List (Str × Str))
    (componentPortsMap : List (Str × List Int)) (context devfileBytes : Str)
    (built : Str × ComponentDetectionDescription)
    (h : devfileComponentStub c query devfilesURLMap dockerfiles componentPortsMap context
      devfileBytes = Except.ok built) :
    ∃ parsed, c.ParseDevfile devfileBytes = Except.ok parsed := by
  cases hparse : c.ParseDevfile devfileBytes with
  | ok parsed => exact ⟨parsed, rfl⟩
  | error e =>
    unfold devfileComponentStub at h
    simp only [hparse] at h
    exact Except.noConfusion h

theorem devfileComponentStub_name (c : Collaborators) (query : ComponentDetectionQuery)
    (devfilesURLMap dockerfiles : List (Str × Str))
    (componentPortsMap : List (Str × List Int)) (context devfileBytes : Str)
    (componentName : Str) (description : ComponentDetectionDescription)
    (h : devfileComponentStub c query devfilesURLMap dockerfiles componentPortsMap context
      devfileBytes = Except.ok (componentName, description)) :
    getComponentName (c.noun context) (c.token context)
        (contextGitSource query devfilesURLMap dockerfiles context) = some componentName ∧
      entryContext description = some context := by
  obtain ⟨parsed, hparse⟩ := devfileComponentStub_parsed c query devfilesURLMap dockerfiles
    componentPortsMap context devfileBytes _ h
  obtain ⟨hname, _⟩ := devfileComponentStub_ok c query devfilesURLMap dockerfiles
    componentPortsMap context devfileBytes parsed componentName description hparse h
  obtain ⟨_, _, hsource, _⟩ := devfileComponentStub_frame c query devfilesURLMap dockerfiles
    componentPortsMap context devfileBytes parsed componentName description hparse h
  refine ⟨hname, ?_⟩
  unfold entryContext
  rw [hsource]
  rfl

theorem devfileLoop_cons_none (c : Collaborators) (query : ComponentDetectionQuery)
    (devfilesURLMap : List (Str × Str)) (componentPortsMap : List (Str × List Int))
    (context devfileBytes : Str) (rest : List (Str × Str)) (state final : DetectionState)
    (h : devfileLoop c query devfilesURLMap componentPortsMap
      ((context, devfileBytes) :: rest) state = (final, none)) :
    ∃ componentName description,
      devfileComponentStub c query devfilesURLMap state.dockerfileContextMap
        componentPortsMap context devfileBytes = Except.ok (componentName, description) ∧
      devfileLoop c query devfilesURLMap componentPortsMap rest
        { ComponentDetected := mapSet state.ComponentDetected componentName description,
          dockerfileContextMap := mapDelete state.dockerfileContextMap context } =
        (final, none) := by
  cases hbody : devfileComponentStub c query devfilesURLMap state.dockerfileContextMap
      componentPortsMap context devfileBytes with
  | error e =>
    simp only [devfileLoop, hbody] at h
    exact Option.noConfusion (congrArg Prod.snd h)
  | ok built =>
    obtain ⟨componentName, description⟩ := built
    refine ⟨componentName, description, rfl, ?_⟩
    rw [← devfileLoop_cons_ok c query devfilesURLMap componentPortsMap context devfileBytes
      rest state componentName description hbody]
    exact h

theorem devfileLoop_dockerfiles (c : Collaborators) (query : ComponentDetectionQuery)
    (devfilesURLMap : List (Str × Str)) (componentPortsMap : List (Str × List Int))
    (devfilesMap : List (Str × Str)) (state final : DetectionState)
    (h : devfileLoop c query devfilesURLMap componentPortsMap devfilesMap state =
      (final, none))
    (entry : Str × Str) :
    entry ∈ final.dockerfileContextMap ↔
      entry ∈ state.dockerfileContextMap ∧ entry.1 ∉ devfilesMap.map Prod.fst := by
  induction devfilesMap generalizing state with
  | nil =>
    simp only [devfileLoop, Prod.mk.injEq, and_true] at h
    simp [h]
  | cons head rest ih =>
    obtain ⟨context, devfileBytes⟩ := head
    obtain ⟨componentName, description, _, hrest⟩ := devfileLoop_cons_none c query
      devfilesURLMap componentPortsMap context devfileBytes rest state final h
    rw [ih _ hrest]
    simp only [mem_mapDelete, List.map_cons, List.mem_cons, not_or, ne_eq]
    tauto

theorem devfileLoop_dockerfiles_nodup (c : Collaborators) (query : ComponentDetectionQuery)
    (devfilesURLMap : List (Str × Str)) (componentPortsMap : List (Str × List Int))
    (devfilesMap : List (Str × Str)) (state final : DetectionState)
    (h : devfileLoop c query devfilesURLMap componentPortsMap devfilesMap state =
      (final, none))
    (hkeys : (state.dockerfileContextMap.map Prod.fst).Nodup) :
    (final.dockerfileContextMap.map Prod.fst).Nodup := by
  induction devfilesMap generalizing state with
  | nil =>
    simp only [devfileLoop, Prod.mk.injEq, and_true] at h
    rw [← h]; exact hkeys
  | cons head rest ih =>
    obtain ⟨context, devfileBytes⟩ := head
    obtain ⟨componentName, description, _, hrest⟩ := devfileLoop_cons_none c query
      devfilesURLMap componentPortsMap context devfileBytes rest state final h
    refine ih _ hrest ?_
    exact List.Nodup.sublist (List.Sublist.map _ (List.filter_sublist _)) hkeys

theorem devfileLoop_mem (c : Collaborators) (query : ComponentDetectionQuery)
    (devfilesURLMap : List (Str × Str)) (componentPortsMap : List (Str × List Int))
    (devfilesMap : List (Str × Str)) (state final : DetectionState)
    (h : devfileLoop c query devfilesURLMap componentPortsMap devfilesMap state =
      (final, none))
    (hkeys : (devfilesMap.map Prod.fst).Nodup)
    (entry : Str × ComponentDetectionDescription) (hentry : entry ∈ final.ComponentDetected) :
    entry ∈ state.ComponentDetected ∨
      ∃ context devfileBytes, (context, devfileBytes) ∈ devfilesMap ∧
        devfileComponentStub c query devfilesURLMap state.dockerfileContextMap
          componentPortsMap context devfileBytes = Except.ok entry := by
  induction devfilesMap generalizing state with
  | nil =>
    simp only [devfileLoop, Prod.mk.injEq, and_true] at h
    exact Or.inl (h ▸ hentry)
  | cons head rest ih =>
    obtain ⟨context, devfileBytes⟩ := head
    simp only [List.map_cons, List.nodup_cons] at hkeys
    obtain ⟨componentName, description, hbody, hrest⟩ := devfileLoop_cons_none c query
      devfilesURLMap componentPortsMap context devfileBytes rest state final h
    rcases ih _ hrest hkeys.2 with hmem | ⟨ctx, bytes, hin, hbuilt⟩
    · rcases mem_mapSet _ _ _ _ hmem with hold | hnew
      · exact Or.inl hold
      · exact Or.inr ⟨context, devfileBytes, List.mem_cons_self _ _, hnew ▸ hbody⟩
    · refine Or.inr ⟨ctx, bytes, List.mem_cons_of_mem _ hin, ?_⟩
      have hne : ctx ≠ context := by
        intro heq
        exact hkeys.1 (List.mem_map.mpr ⟨(ctx, bytes), hin, heq⟩)
      rw [← hbuilt]
      exact devfileComponentStub_dockerfiles c query devfilesURLMap _ _ componentPortsMap ctx
        bytes (mapGet_mapDelete_ne _ _ _ hne).symm

theorem devfileLoop_lookup (c : Collaborators) (query : ComponentDetectionQuery)
    (devfilesURLMap : List (Str × Str)) (componentPortsMap : List (Str × List Int))
    (devfilesMap : List (Str × Str)) (state final : DetectionState) (key : Str)
    (h : devfileLoop c query devfilesURLMap componentPortsMap devfilesMap state =
      (final, none))
    (hkey : ∀ context devfileBytes dockerfiles name description,
      (context, devfileBytes) ∈ devfilesMap →
      devfileComponentStub c query devfilesURLMap dockerfiles componentPortsMap context
        devfileBytes = Except.ok (name, description) → name ≠ key) :
    final.ComponentDetected.lookup key = state.ComponentDetected.lookup key := by
  induction devfilesMap generalizing state with
  | nil =>
    simp only [devfileLoop, Prod.mk.injEq, and_true] at h
    rw [h]
  | cons head rest ih =>
    obtain ⟨context, devfileBytes⟩ := head
    obtain ⟨componentName, description, hbody, hrest⟩ := devfileLoop_cons_none c query
      devfilesURLMap componentPortsMap context devfileBytes rest state final h
    have hne : key ≠ componentName :=
      fun heq => hkey context devfileBytes _ componentName description
        (List.mem_cons_self _ _) hbody heq.symm
    rw [ih _ hrest (fun ctx bytes d n desc hin => hkey ctx bytes d n desc
      (List.mem_cons_of_mem _ hin))]
    exact lookup_mapSet_ne _ _ _ _ hne

theorem devfileLoop_built (c : Collaborators) (query : ComponentDetectionQuery)
    (devfilesURLMap : List (Str × Str)) (componentPortsMap : List (Str × List Int))
    (devfilesMap : List (Str × Str)) (state final : DetectionState)
    (context devfileBytes : Str)
    (h : devfileLoop c query devfilesURLMap componentPortsMap devfilesMap state =
      (final, none))
    (hkeys : (devfilesMap.map Prod.fst).Nodup)
    (hmem : (context, devfileBytes) ∈ devfilesMap) :
    ∃ name description,
      devfileComponentStub c query devfilesURLMap state.dockerfileContextMap
        componentPortsMap context devfileBytes = Except.ok (name, description) := by
  induction devfilesMap generalizing state with
  | nil => exact absurd hmem (List.not_mem_nil _)
  | cons head rest ih =>
    obtain ⟨ctx, bytes⟩ := head
    simp only [List.map_cons, List.nodup_cons] at hkeys
    obtain ⟨componentName, description, hbody, hrest⟩ := devfileLoop_cons_none c query
      devfilesURLMap componentPortsMap ctx bytes rest state final h
    rcases List.mem_cons.mp hmem with hhead | htail
    · have hctx : context = ctx := congrArg Prod.fst hhead
      have hbytes : devfileBytes = bytes := congrArg Prod.snd hhead
      subst hctx hbytes
      exact ⟨componentName, description, hbody⟩
    · have hne : context ≠ ctx := by
        intro heq
        exact hkeys.1 (List.mem_map.mpr ⟨(context, devfileBytes), htail, heq⟩)
      obtain ⟨name, desc, hbuilt⟩ := ih _ hrest hkeys.2 htail
      refine ⟨name, desc, ?_⟩
      rw [← hbuilt]
      exact devfileComponentStub_dockerfiles c query devfilesURLMap _ _ componentPortsMap
        context devfileBytes (mapGet_mapDelete_ne _ _ _ hne).symm

theorem devfileLoop_recorded (c : Collaborators) (query : ComponentDetectionQuery)
    (devfilesURLMap : List (Str × Str)) (componentPortsMap : List (Str × List Int))
    (devfilesMap : List (Str × Str)) (state final : DetectionState)
    (context devfileBytes : Str)
    (h : devfileLoop c query devfilesURLMap componentPortsMap devfilesMap state =
      (final, none))
    (hkeys : (devfilesMap.map Prod.fst).Nodup)
    (hmem : (context, devfileBytes) ∈ devfilesMap)
    (hno : ∀ other ∈ devfilesMap.map Prod.fst, other ≠ context →
      generatedName c query other ≠ generatedName c query context) :
    ∃ name description,
      devfileComponentStub c query devfilesURLMap state.dockerfileContextMap
        componentPortsMap context devfileBytes = Except.ok (name, description) ∧
      final.ComponentDetected.lookup name = some description := by
  induction devfilesMap generalizing state with
  | nil => exact absurd hmem (List.not_mem_nil _)
  | cons head rest ih =>
    obtain ⟨ctx, bytes⟩ := head
    simp only [List.map_cons, List.nodup_cons] at hkeys
    obtain ⟨componentName, description, hbody, hrest⟩ := devfileLoop_cons_none c query
      devfilesURLMap componentPortsMap ctx bytes rest state final h
    rcases List.mem_cons.mp hmem with hhead | htail
    · have hctx : context = ctx := congrArg Prod.fst hhead
      have hbytes : devfileBytes = bytes := congrArg Prod.snd hhead
      subst hctx hbytes
      refine ⟨componentName, description, hbody, ?_⟩
      rw [devfileLoop_lookup c query devfilesURLMap componentPortsMap rest _ final
        componentName hrest ?_]
      · exact lookup_mapSet_self _ _ _
      · intro other otherBytes dockerfiles otherName otherDescription hin hother heq
        have hne : other ≠ context := by
          intro hsame
          exact hkeys.1 (List.mem_map.mpr ⟨(other, otherBytes), hin, hsame⟩)
        have hname := (devfileComponentStub_name c query devfilesURLMap _ componentPortsMap
          context devfileBytes componentName description hbody).1
        have hotherName := (devfileComponentStub_name c query devfilesURLMap dockerfiles
          componentPortsMap other otherBytes otherName otherDescription hother).1
        rw [generatedName_of_devfile] at hname hotherName
        refine hno other ?_ hne ?_
        · exact List.mem_map.mpr ⟨(other, otherBytes), List.mem_cons_of_mem _ hin, rfl⟩
        · rw [hname, hotherName, heq]
    · have hne : context ≠ ctx := by
        intro heq
        exact hkeys.1 (List.mem_map.mpr ⟨(context, devfileBytes), htail, heq⟩)
      obtain ⟨name, desc, hbuilt, hlook⟩ := ih _ hrest hkeys.2 htail
        (fun other hin => hno other (List.mem_cons_of_mem _ hin))
      refine ⟨name, desc, ?_, hlook⟩
      rw [← hbuilt]
      exact devfileComponentStub_dockerfiles c query devfilesURLMap _ _ componentPortsMap
        context devfileBytes (mapGet_mapDelete_ne _ _ _ hne).symm

theorem updateComponentStub_ok (c : Collaborators) (query : ComponentDetectionQuery)
    (devfilesMap devfilesURLMap dockerfileContextMap : List (Str × Str))
    (componentPortsMap : List (Str × List Int)) (final : DetectionState)
    (h : updateComponentStub c (some query) devfilesMap devfilesURLMap dockerfileContextMap
      componentPortsMap = (final, none)) :
    ∃ middle : DetectionState,
      devfileLoop c query devfilesURLMap componentPortsMap devfilesMap
          { ComponentDetected := query.Status.ComponentDetected,
            dockerfileContextMap := dockerfileContextMap } = (middle, none) ∧
        dockerfileLoop c query middle.dockerfileContextMap middle.ComponentDetected =
          (final.ComponentDetected, none) ∧
        final.dockerfileContextMap = middle.dockerfileContextMap := by
  have hguard : (if query.Status.ComponentDetected.length = 0 then []
      else query.Status.ComponentDetected) = query.Status.ComponentDetected := by
    cases query.Status.ComponentDetected <;> simp
  unfold updateComponentStub at h
  simp only [hguard] at h
  cases hloop : devfileLoop c query devfilesURLMap componentPortsMap devfilesMap
      { ComponentDetected := query.Status.ComponentDetected,
        dockerfileContextMap := dockerfileContextMap } with
  | mk middle err =>
    rw [hloop] at h
    cases err with
    | some e => exact Option.noConfusion (congrArg Prod.snd h)
    | none =>
      refine ⟨middle, rfl, ?_, ?_⟩
      · simp only at h
        have h1 := congrArg Prod.fst h
        have h2 := congrArg Prod.snd h
        simp only at h1 h2
        rw [← h1]
        exact Prod.ext rfl h2
      · simp only at h
        have h1 := congrArg Prod.fst h
        simp only at h1
        rw [← h1]

/-! ## Claims on the two loops -/

/-- C21, as stated, fails when the detection map of the query already holds an entry for
the context: the call succeeds and the map then holds two entries for the context `app`,
the older one and the devfile-backed one. -/
theorem updateComponentStub_second_entry :
    (updateComponentStub distinctTokenCollaborators (some repeatedQuery)
        [("app".toList, "no-keys".toList)] [] sampleDockerfiles []).2 = none ∧
      (entriesFor
        (updateComponentStub distinctTokenCollaborators (some repeatedQuery)
          [("app".toList, "no-keys".toList)] [] sampleDockerfiles []).1.ComponentDetected
        "app".toList).map Prod.fst = ["app-old".toList, "app-repo-x7k2".toList] := by
  refine ⟨by decide, by decide⟩

/-- C21, amended: after a successful call, for every context of the devfile map (in
particular one that is also in the dockerfile map): the dockerfile map no longer has the
context; a description is built from its devfile, and every entry of the detection map
for that context is that description under its name or an entry that the map held before
the call, so no dockerfile entry is created for it; when, in addition, the map held no
entry for that context before the call and no name generated for another context of the
call equals its name, that description is in the map under its name and is the only entry
for the context; and every entry of the dockerfile map whose context is not in the
devfile map is still in it. -/
theorem updateComponentStub_fallthrough (c : Collaborators) (query : ComponentDetectionQuery)
    (devfilesMap devfilesURLMap dockerfileContextMap : List (Str × Str))
    (componentPortsMap : List (Str × List Int)) (final : DetectionState)
    (context devfileBytes : Str)
    (hrun : updateComponentStub c (some query) devfilesMap devfilesURLMap
      dockerfileContextMap componentPortsMap = (final, none))
    (hkeys : (devfilesMap.map Prod.fst).Nodup)
    (hmem : (context, devfileBytes) ∈ devfilesMap) :
    (∀ link, (context, link) ∉ final.dockerfileContextMap) ∧
      (∃ name description,
        devfileComponentStub c query devfilesURLMap dockerfileContextMap componentPortsMap
          context devfileBytes = Except.ok (name, description) ∧
        (∀ entry ∈ final.ComponentDetected, entryContext entry.2 = some context →
          entry ∈ query.Status.ComponentDetected ∨ entry = (name, description)) ∧
        ((∀ entry ∈ query.Status.ComponentDetected, entryContext entry.2 ≠ some context) →
          noCollision c query devfilesMap dockerfileContextMap context →
          final.ComponentDetected.lookup name = some description ∧
            ∀ entry ∈ final.ComponentDetected, entryContext entry.2 = some context →
              entry = (name, description))) ∧
      (∀ other link, (other, link) ∈ dockerfileContextMap →
        other ∉ devfilesMap.map Prod.fst → (other, link) ∈ final.dockerfileContextMap) := by
  obtain ⟨middle, hdev, hdock, hmap⟩ := updateComponentStub_ok c query devfilesMap
    devfilesURLMap dockerfileContextMap componentPortsMap final hrun
  have hgone : ∀ link, (context, link) ∉ middle.dockerfileContextMap := by
    intro link hin
    have := (devfileLoop_dockerfiles c query devfilesURLMap componentPortsMap devfilesMap _
      middle hdev (context, link)).mp hin
    exact this.2 (List.mem_map.mpr ⟨(context, devfileBytes), hmem, rfl⟩)
  obtain ⟨name, description, hbody⟩ := devfileLoop_built c query devfilesURLMap
    componentPortsMap devfilesMap _ middle context devfileBytes hdev hkeys hmem
  have hname := (devfileComponentStub_name c query devfilesURLMap _ componentPortsMap context
    devfileBytes name description hbody).1
  have hentries : ∀ entry ∈ final.ComponentDetected, entryContext entry.2 = some context →
      entry ∈ query.Status.ComponentDetected ∨ entry = (name, description) := by
    intro entry hentry hctx
    rcases dockerfileLoop_mem c query _ _ _ hdock entry hentry with
      hmid | ⟨other, link, hin, hdesc⟩
    · rcases devfileLoop_mem c query devfilesURLMap componentPortsMap devfilesMap _ middle
        hdev hkeys entry hmid with hold | ⟨other, bytes, hin, hbuilt⟩
      · exact Or.inl hold
      · have hother := (devfileComponentStub_name c query devfilesURLMap _ componentPortsMap
          other bytes entry.1 entry.2 hbuilt).2
        rw [hother] at hctx
        have hsame : other = context := Option.some.inj hctx
        subst hsame
        have hbytes : bytes = devfileBytes := by
          by_contra hdiff
          have hpair : ((other, bytes) : Str × Str) ≠ (other, devfileBytes) :=
            fun heq => hdiff (congrArg Prod.snd heq)
          have hinj := List.inj_on_of_nodup_map hkeys hin hmem rfl
          exact hpair hinj
        subst hbytes
        rw [hbody] at hbuilt
        exact Or.inr (Except.ok.inj hbuilt).symm
    · rw [hdesc] at hctx
      have hsame : other = context := Option.some.inj hctx
      subst hsame
      exact absurd hin (hgone link)
  refine ⟨?_, ⟨name, description, hbody, hentries, ?_⟩, ?_⟩
  · intro link
    rw [hmap]
    exact hgone link
  · intro hinit hno
    refine ⟨?_, ?_⟩
    · obtain ⟨name2, description2, hbody2, hlook⟩ := devfileLoop_recorded c query
        devfilesURLMap componentPortsMap devfilesMap _ middle context devfileBytes hdev hkeys
        hmem (fun other hin => hno other (List.mem_append_left _ hin))
      rw [hbody] at hbody2
      have hpair := Except.ok.inj hbody2
      have hn : name = name2 := congrArg Prod.fst hpair
      have hd : description = description2 := congrArg Prod.snd hpair
      subst hn hd
      rw [dockerfileLoop_lookup c query _ _ _ name hdock ?_]
      · exact hlook
      · intro other link otherName hin hother heq
        have hne : other ≠ context := by
          intro hsame
          exact hgone link (hsame ▸ hin)
        have hinit2 := ((devfileLoop_dockerfiles c query devfilesURLMap componentPortsMap
          devfilesMap _ middle hdev (other, link)).mp hin).1
        refine hno other (List.mem_append_right _
          (List.mem_map.mpr ⟨(other, link), hinit2, rfl⟩)) hne ?_
        rw [generatedName_of_devfile] at hname
        rw [← generatedName_of_dockerfile c query other link, hother, hname, heq]
    · intro entry hentry hctx
      rcases hentries entry hentry hctx with hold | hnew
      · exact absurd hctx (hinit entry hold)
      · exact hnew
  · intro other link hin hnot
    rw [hmap]
    exact (devfileLoop_dockerfiles c query devfilesURLMap componentPortsMap devfilesMap _
      middle hdev (other, link)).mpr ⟨hin, hnot⟩

/-- Witness of C21: the context `app` with a devfile and a dockerfile, and the context
`docs` with a dockerfile only, both with the token `x7k2`: the names `app-repo-x7k2` and
`docs-repo-x7k2` do not collide. -/
theorem updateComponentStub_fallthrough_witness :
    sameTokenRun.1.dockerfileContextMap =
        [("docs".toList, "https://host/docs/Dockerfile".toList)] ∧
      sameTokenRun.1.ComponentDetected.map Prod.fst =
        ["app-repo-x7k2".toList, "docs-repo-x7k2".toList] ∧
      (∀ link, ("app".toList, link) ∉ sameTokenRun.1.dockerfileContextMap) ∧
      (∃ name description,
        devfileComponentStub sampleCollaborators sampleQuery [] sampleDockerfiles []
          "app".toList "no-keys".toList = Except.ok (name, description) ∧
        sameTokenRun.1.ComponentDetected.lookup name = some description ∧
        ∀ entry ∈ sameTokenRun.1.ComponentDetected,
          entryContext entry.2 = some "app".toList → entry = (name, description)) :=
  have h := updateComponentStub_fallthrough sampleCollaborators sampleQuery
    [("app".toList, "no-keys".toList)] [] sampleDockerfiles [] sameTokenRun.1
    "app".toList "no-keys".toList (Prod.ext rfl (by decide)) (by decide) (by decide)
  ⟨by decide, by decide, h.1,
    h.2.1.elim fun name hname => hname.elim fun description hdesc =>
      ⟨name, description, hdesc.1,
        hdesc.2.2 (fun _ hentry => absurd hentry (List.not_mem_nil _)) (by decide)⟩⟩

theorem dockerfileLoop_reaches (c : Collaborators) (query : ComponentDetectionQuery)
    (dockerfiles : List (Str × Str)) (detected final : ComponentDetectionMap)
    (context link : Str)
    (h : dockerfileLoop c query dockerfiles detected = (final, none))
    (hkeys : (dockerfiles.map Prod.fst).Nodup)
    (hmem : (context, link) ∈ dockerfiles) :
    ∃ name before after,
      getComponentName (c.noun context) (c.token context)
        (dockerfileGitSource query context link) = some name ∧
      dockerfileLoop c query after
        (mapSet before name
          (dockerfileDescription name (dockerfileGitSource query context link))) =
        (final, none) ∧
      ∀ entry ∈ after, entry ∈ dockerfiles ∧ entry.1 ≠ context := by
  induction dockerfiles generalizing detected with
  | nil => exact absurd hmem (List.not_mem_nil _)
  | cons head rest ih =>
    obtain ⟨ctx, lnk⟩ := head
    rw [dockerfileLoop_cons] at h
    simp only [List.map_cons, List.nodup_cons] at hkeys
    cases hname : getComponentName (c.noun ctx) (c.token ctx)
        (dockerfileGitSource query ctx lnk) with
    | none =>
      rw [hname] at h
      exact Option.noConfusion (congrArg Prod.snd h)
    | some componentName =>
      rw [hname] at h
      rcases List.mem_cons.mp hmem with hhead | htail
      · have hctx : context = ctx := congrArg Prod.fst hhead
        have hlnk : link = lnk := congrArg Prod.snd hhead
        subst hctx hlnk
        refine ⟨componentName, detected, rest, hname, h, ?_⟩
        intro entry hentry
        refine ⟨List.mem_cons_of_mem _ hentry, ?_⟩
        intro heq
        exact hkeys.1 (List.mem_map.mpr ⟨entry, hentry, heq⟩)
      · obtain ⟨name, before, after, hgen, hloop, hafter⟩ := ih _ h hkeys.2 htail
        exact ⟨name, before, after, hgen, hloop,
          fun entry hentry => ⟨List.mem_cons_of_mem _ (hafter entry hentry).1,
            (hafter entry hentry).2⟩⟩

/-- C22, as stated, fails when two generated names collide.  With the dockerfile contexts
`a/b` and `ab`, no devfile, and the same token `x7k2` drawn for both, the call succeeds;
the name of the context `a/b` is `ab-repo-x7k2`, as is that of the context `ab`, and the
detection map ends with one entry, under that name, for the context `ab`: it holds no
entry for the context `a/b`. -/
theorem updateComponentStub_dockerfile_entry_lost :
    collidingDockerfileRun.2 = none ∧
      ("a/b".toList, "https://host/a/b/Dockerfile".toList) ∈ collidingDockerfiles ∧
      getComponentName (sampleCollaborators.noun "a/b".toList)
          (sampleCollaborators.token "a/b".toList)
          (dockerfileGitSource sampleQuery "a/b".toList
            "https://host/a/b/Dockerfile".toList) = some "ab-repo-x7k2".toList ∧
      collidingDockerfileRun.1.ComponentDetected =
        [("ab-repo-x7k2".toList,
          dockerfileDescription "ab-repo-x7k2".toList
            (dockerfileGitSource sampleQuery "ab".toList
              "https://host/ab/Dockerfile".toList))] ∧
      collidingDockerfileRun.1.ComponentDetected.lookup "ab-repo-x7k2".toList ≠
        some (dockerfileDescription "ab-repo-x7k2".toList
          (dockerfileGitSource sampleQuery "a/b".toList
            "https://host/a/b/Dockerfile".toList)) ∧
      entriesFor collidingDockerfileRun.1.ComponentDetected "a/b".toList = [] := by
  refine ⟨by decide, by decide, by decide, by decide, by decide, by decide⟩

/-- C22, amended: in a successful call, for an entry of the dockerfile map whose context
is not in the devfile map, a name is obtained from `getComponentName` and the second loop
assigns, under that name, the entry with no devfile found, language and project type
`Dockerfile`, and a stub with that name, the application `insert-application-name`, a git
source with the URL and revision of the query, the context, the link as dockerfile URL
and no devfile URL, and no port, route, replicas, resources or environment; only the
entries of the contexts visited afterwards are assigned after it; when no name generated
for another context of the call equals its name, the detection map holds that entry under
that name at the end; the context stays in the dockerfile map. -/
theorem updateComponentStub_dockerfile_only (c : Collaborators)
    (query : ComponentDetectionQuery)
    (devfilesMap devfilesURLMap dockerfileContextMap : List (Str × Str))
    (componentPortsMap : List (Str × List Int)) (final : DetectionState)
    (context link : Str)
    (hrun : updateComponentStub c (some query) devfilesMap devfilesURLMap
      dockerfileContextMap componentPortsMap = (final, none))
    (hkeys : (dockerfileContextMap.map Prod.fst).Nodup)
    (hmem : (context, link) ∈ dockerfileContextMap)
    (hnot : context ∉ devfilesMap.map Prod.fst) :
    ∃ name,
      getComponentName (c.noun context) (c.token context)
        { Context := context, URL := query.Spec.GitSource.URL,
          Revision := query.Spec.GitSource.Revision, DevfileURL := [],
          DockerfileURL := link } = some name ∧
      (∃ before after,
        dockerfileLoop c query after
          (mapSet before name
            (dockerfileDescription name (dockerfileGitSource query context link))) =
          (final.ComponentDetected, none) ∧
        ∀ entry ∈ after, entry ∈ final.dockerfileContextMap ∧ entry.1 ≠ context) ∧
      (noCollision c query devfilesMap dockerfileContextMap context →
        final.ComponentDetected.lookup name =
          some (dockerfileDescription name (dockerfileGitSource query context link))) ∧
      (context, link) ∈ final.dockerfileContextMap := by
  obtain ⟨middle, hdev, hdock, hmap⟩ := updateComponentStub_ok c query devfilesMap
    devfilesURLMap dockerfileContextMap componentPortsMap final hrun
  have hstays : (context, link) ∈ middle.dockerfileContextMap :=
    (devfileLoop_dockerfiles c query devfilesURLMap componentPortsMap devfilesMap _
      middle hdev (context, link)).mpr ⟨hmem, hnot⟩
  have hnodup := devfileLoop_dockerfiles_nodup c query devfilesURLMap componentPortsMap
    devfilesMap _ middle hdev hkeys
  obtain ⟨name, before, after, hname, hloop, hafter⟩ := dockerfileLoop_reaches c query _ _ _
    context link hdock hnodup hstays
  refine ⟨name, hname, ⟨before, after, hloop, ?_⟩, ?_, hmap ▸ hstays⟩
  · intro entry hentry
    rw [hmap]
    exact hafter entry hentry
  · intro hno
    obtain ⟨name2, hname2, hlook⟩ := dockerfileLoop_recorded c query _ _ _ context link hdock
      hnodup hstays (by
        intro other hin hne
        obtain ⟨entry, hentry, hfst⟩ := List.mem_map.mp hin
        have hinit := ((devfileLoop_dockerfiles c query devfilesURLMap componentPortsMap
          devfilesMap _ middle hdev entry).mp hentry).1
        exact hno other (List.mem_append_right _
          (List.mem_map.mpr ⟨entry, hinit, hfst⟩)) hne)
    have hsame : name2 = name := Option.some.inj (hname2.symm.trans hname)
    rw [← hsame]
    exact hlook

/-- Witness of C22: the context `docs`, which has a dockerfile and no devfile, next to the
context `app`, with the same token for both; the names do not collide and the entry of
`docs` is in the map under `docs-repo-x7k2`. -/
theorem updateComponentStub_dockerfile_only_witness :
    noCollision sampleCollaborators sampleQuery [("app".toList, "no-keys".toList)]
        sampleDockerfiles "docs".toList ∧
      sameTokenRun.1.ComponentDetected.lookup "docs-repo-x7k2".toList =
        some (dockerfileDescription "docs-repo-x7k2".toList
          (dockerfileGitSource sampleQuery "docs".toList
            "https://host/docs/Dockerfile".toList)) ∧
      ∃ name,
        getComponentName (sampleCollaborators.noun "docs".toList)
          (sampleCollaborators.token "docs".toList)
          { Context := "docs".toList, URL := sampleQuery.Spec.GitSource.URL,
            Revision := sampleQuery.Spec.GitSource.Revision, DevfileURL := [],
            DockerfileURL := "https://host/docs/Dockerfile".toList } = some name ∧
        sameTokenRun.1.ComponentDetected.lookup name =
          some (dockerfileDescription name
            (dockerfileGitSource sampleQuery "docs".toList
              "https://host/docs/Dockerfile".toList)) ∧
        ("docs".toList, "https://host/docs/Dockerfile".toList) ∈
          sameTokenRun.1.dockerfileContextMap :=
  have h := updateComponentStub_dockerfile_only sampleCollaborators sampleQuery
    [("app".toList, "no-keys".toList)] [] sampleDockerfiles [] sameTokenRun.1
    "docs".toList "https://host/docs/Dockerfile".toList (Prod.ext rfl (by decide))
    (by decide) (by decide) (by decide)
  ⟨by decide, by decide,
    h.elim fun name hname => ⟨name, hname.1, hname.2.2.1 (by decide), hname.2.2.2⟩⟩

theorem lookup_eq_none_of_gone (m : List (Str × Str)) (key : Str)
    (h : ∀ value, (key, value) ∉ m) : m.lookup key = none := by
  rw [List.lookup_eq_none_iff]
  intro entry hentry
  obtain ⟨k, v⟩ := entry
  simp only [bne_iff_ne, ne_eq]
  intro heq
  exact h v (heq ▸ hentry)

/-- C25, as stated, fails when two generated names collide.  With the devfile contexts
`a/b` and `ab`, both processed successfully, and the same token `x7k2` drawn for both, the
call succeeds; the description built for the context `a/b` has the name `ab-repo-x7k2`,
as has that of the context `ab`, and the detection map ends with one entry, under that
name, for the context `ab`: the entry of the context `a/b` is not recorded in it. -/
theorem updateComponentStub_devfile_entry_lost :
    collidingDevfileRun.2 = none ∧
      devfileComponentStub sampleCollaborators sampleQuery [] [] [] "a/b".toList
          "no-keys".toList =
        Except.ok ("ab-repo-x7k2".toList, plainDescription "a/b".toList) ∧
      collidingDevfileRun.1.ComponentDetected =
        [("ab-repo-x7k2".toList, plainDescription "ab".toList)] ∧
      collidingDevfileRun.1.ComponentDetected.lookup
          (plainDescription "a/b".toList).ComponentStub.ComponentName ≠
        some (plainDescription "a/b".toList) ∧
      entriesFor collidingDevfileRun.1.ComponentDetected "a/b".toList = [] := by
  refine ⟨by decide, rfl, by decide, by decide, by decide⟩

/-- C25, amended: in a successful call, every devfile context is processed: its devfile
parses and a description is built whose stub bears the component name generated for the
context.  The description has `DevfileFound` true exactly when the devfile-URL map holds a
non-empty URL for the context, and the language and project type of the parsed devfile;
its stub has the application `insert-application-name` and a git source with the context,
the URL and revision of the query, the devfile URL of the context and its dockerfile URL
as the dockerfile map held it before the call, the context being removed from that map
afterwards.  When no name generated for another context of the call equals its name, the
detection map holds that description at the end under the key equal to the component name
of its stub. -/
theorem updateComponentStub_records (c : Collaborators) (query : ComponentDetectionQuery)
    (devfilesMap devfilesURLMap dockerfileContextMap : List (Str × Str))
    (componentPortsMap : List (Str × List Int)) (final : DetectionState)
    (context devfileBytes : Str)
    (hrun : updateComponentStub c (some query) devfilesMap devfilesURLMap
      dockerfileContextMap componentPortsMap = (final, none))
    (hkeys : (devfilesMap.map Prod.fst).Nodup)
    (hmem : (context, devfileBytes) ∈ devfilesMap) :
    ∃ parsed name description,
      c.ParseDevfile devfileBytes = Except.ok parsed ∧
      devfileComponentStub c query devfilesURLMap dockerfileContextMap componentPortsMap
        context devfileBytes = Except.ok (name, description) ∧
      generatedName c query context = some name ∧
      description.ComponentStub.ComponentName = name ∧
      (description.DevfileFound = true ↔ mapGet devfilesURLMap context ≠ []) ∧
      description.Language = parsed.Metadata.Language ∧
      description.ProjectType = parsed.Metadata.ProjectType ∧
      description.ComponentStub.Application = "insert-application-name".toList ∧
      description.ComponentStub.Source.GitSource =
        some { Context := context,
               URL := query.Spec.GitSource.URL,
               Revision := query.Spec.GitSource.Revision,
               DevfileURL := mapGet devfilesURLMap context,
               DockerfileURL := mapGet dockerfileContextMap context } ∧
      mapGet final.dockerfileContextMap context = [] ∧
      (noCollision c query devfilesMap dockerfileContextMap context →
        final.ComponentDetected.lookup description.ComponentStub.ComponentName =
          some description) := by
  obtain ⟨middle, hdev, hdock, hmap⟩ := updateComponentStub_ok c query devfilesMap
    devfilesURLMap dockerfileContextMap componentPortsMap final hrun
  have hgone : ∀ link, (context, link) ∉ middle.dockerfileContextMap := by
    intro link hin
    have := (devfileLoop_dockerfiles c query devfilesURLMap componentPortsMap devfilesMap _
      middle hdev (context, link)).mp hin
    exact this.2 (List.mem_map.mpr ⟨(context, devfileBytes), hmem, rfl⟩)
  obtain ⟨name, description, hbody⟩ := devfileLoop_built c query devfilesURLMap
    componentPortsMap devfilesMap _ middle context devfileBytes hdev hkeys hmem
  simp only at hbody
  obtain ⟨parsed, hparse⟩ := devfileComponentStub_parsed c query devfilesURLMap
    dockerfileContextMap componentPortsMap context devfileBytes _ hbody
  obtain ⟨hgen, hfound, hlang, htype, _⟩ := devfileComponentStub_ok c query devfilesURLMap
    dockerfileContextMap componentPortsMap context devfileBytes parsed name description
    hparse hbody
  obtain ⟨hstubName, happ, hsource, _⟩ := devfileComponentStub_frame c query devfilesURLMap
    dockerfileContextMap componentPortsMap context devfileBytes parsed name description
    hparse hbody
  rw [generatedName_of_devfile] at hgen
  refine ⟨parsed, name, description, hparse, hbody, hgen, hstubName, ?_, hlang, htype, happ,
    hsource, ?_, ?_⟩
  · rw [hfound]
    simp only [ne_eq, decide_eq_true_eq, List.length_eq_zero]
  · rw [hmap]
    unfold mapGet
    rw [lookup_eq_none_of_gone _ _ hgone]
    rfl
  · intro hno
    obtain ⟨name2, description2, hbody2, hlook⟩ := devfileLoop_recorded c query
      devfilesURLMap componentPortsMap devfilesMap _ middle context devfileBytes hdev hkeys
      hmem (fun other hin => hno other (List.mem_append_left _ hin))
    simp only at hbody2
    rw [hbody] at hbody2
    have hpair := Except.ok.inj hbody2
    have hn : name = name2 := congrArg Prod.fst hpair
    have hd : description = description2 := congrArg Prod.snd hpair
    subst hn hd
    rw [hstubName, dockerfileLoop_lookup c query _ _ _ name hdock ?_]
    · exact hlook
    · intro other link otherName hin hother heq
      have hne : other ≠ context := by
        intro hsame
        exact hgone link (hsame ▸ hin)
      have hinit := ((devfileLoop_dockerfiles c query devfilesURLMap componentPortsMap
        devfilesMap _ middle hdev (other, link)).mp hin).1
      refine hno other (List.mem_append_right _
        (List.mem_map.mpr ⟨(other, link), hinit, rfl⟩)) hne ?_
      rw [← generatedName_of_dockerfile c query other link, hother, hgen, heq]

/-- Witness of C25: a context with a devfile, a devfile URL and a dockerfile; the whole
call records the description under `app-repo-x7k2`, with both URLs in the git source, and
leaves the dockerfile map empty. -/
theorem updateComponentStub_records_witness :
    bothRun = ({ ComponentDetected := [("app-repo-x7k2".toList, bothDescription)],
                 dockerfileContextMap := [] }, none) ∧
      bothDescription.ComponentStub.Source.GitSource =
        some { Context := "app".toList,
               URL := "https://github.com/org/repo".toList,
               Revision := [],
               DevfileURL := "https://host/devfile.yaml".toList,
               DockerfileURL := "https://host/Dockerfile".toList } ∧
      bothRun.1.ComponentDetected.lookup "app-repo-x7k2".toList = some bothDescription ∧
      mapGet bothRun.1.dockerfileContextMap "app".toList = [] := by
  obtain ⟨parsed, name, description, _, hbody, _, hstubName, _, _, _, _, _, hgone, hlook⟩ :=
    updateComponentStub_records sampleCollaborators sampleQuery
      [("app".toList, "port-3000".toList)]
      [("app".toList, "https://host/devfile.yaml".toList)]
      [("app".toList, "https://host/Dockerfile".toList)] [] bothRun.1
      "app".toList "port-3000".toList (Prod.ext rfl (by decide)) (by decide) (by decide)
  have hb : devfileComponentStub sampleCollaborators sampleQuery
      [("app".toList, "https://host/devfile.yaml".toList)]
      [("app".toList, "https://host/Dockerfile".toList)] [] "app".toList
      "port-3000".toList = Except.ok ("app-repo-x7k2".toList, bothDescription) := rfl
  rw [hb] at hbody
  have hpair := Except.ok.inj hbody
  have hd : bothDescription = description := congrArg Prod.snd hpair
  subst hd
  exact ⟨by decide, by decide, hlook (by decide), hgone⟩

/-! ## The error that updateComponentStub returns -/

theorem firstError_append (l1 l2 : List (Option GoError)) :
    firstError (l1 ++ l2) =
      match firstError l1 with
      | some e => some e
      | none => firstError l2 := by
  induction l1 with
  | nil => rfl
  | cons x rest ih =>
    cases x with
    | none => exact ih
    | some e => rfl

theorem firstError_ne_none (l : List (Option GoError)) (x : Option GoError) (hx : x ∈ l)
    (hne : x ≠ none) : firstError l ≠ none := by
  induction l with
  | nil => exact absurd hx (List.not_mem_nil _)
  | cons y rest ih =>
    cases y with
    | some e => exact fun h => Option.noConfusion h
    | none =>
      rcases List.mem_cons.mp hx with h | h
      · exact absurd h hne
      · exact ih h

theorem firstError_of_passing (before after : List (Option GoError)) (x : Option GoError)
    (h : ∀ y ∈ before, y = none) : firstError (before ++ x :: after) = firstError (x :: after) := by
  induction before with
  | nil => rfl
  | cons y rest ih =>
    have hy : y = none := h y (List.mem_cons_self _ _)
    subst hy
    exact ih (fun z hz => h z (List.mem_cons_of_mem _ hz))

theorem follows_bind {α β : Type} (x : Except GoError α) (f : α → Except GoError β)
    (l1 l2 : List (Option GoError)) (P : α → Prop) (Q : β → Prop)
    (hx : follows x l1 P) (hf : ∀ a, P a → follows (f a) l2 Q) :
    follows (x.bind f) (l1 ++ l2) Q := by
  unfold follows at hx ⊢
  rw [firstError_append]
  cases h1 : firstError l1 with
  | some e =>
    rw [h1] at hx
    simp only
    rw [hx]
    rfl
  | none =>
    rw [h1] at hx
    obtain ⟨a, ha, hp⟩ := hx
    have h2 := hf a hp
    unfold follows at h2
    simp only
    rw [ha]
    exact h2

theorem follows_ok {α : Type} (a : α) (P : α → Prop) (h : P a) :
    follows (Except.ok a) [] P := ⟨a, rfl, h⟩

theorem readEnv_follows (c : Collaborators) (attrs : Attributes)
    (componentStub : ComponentSpec) :
    follows (readEnv c attrs componentStub)
      [fatal (attrs.GetInto c.keys.ContainerENVKey []).2]
      (fun state => fatal state.2 = none ∧
        state.1.TargetPort = componentStub.TargetPort) := by
  have he := getInto_error attrs c.keys.ContainerENVKey componentStub.Env
  unfold follows readEnv
  cases hf : fatal (attrs.GetInto c.keys.ContainerENVKey []).2 with
  | some e =>
    rw [← he] at hf
    simp only [firstError, hf]
  | none =>
    rw [← he] at hf
    simp only [firstError, hf]
    exact ⟨_, rfl, hf, rfl⟩

theorem readPort_follows (c : Collaborators) (attrs : Attributes) (state : StubState)
    (hb : fatal state.2 = none) :
    follows (readPort c attrs state)
      [if state.1.TargetPort = 0 then
        fatal (attrs.GetNumber c.numberOf c.keys.ContainerImagePortKey).2 else none]
      (fun result => fatal result.2 = none) := by
  have hs := fatal_storeError_of_benign
    (attrs.GetNumber c.numberOf c.keys.ContainerImagePortKey).2 state.2 hb
  unfold follows readPort
  by_cases hport : state.1.TargetPort = 0
  · simp only [hport, if_true]
    cases hf : fatal (attrs.GetNumber c.numberOf c.keys.ContainerImagePortKey).2 with
    | some e =>
      rw [hf] at hs
      simp only [firstError, hs]
    | none =>
      rw [hf] at hs
      simp only [firstError, hs]
      exact ⟨_, rfl, hs⟩
  · simp only [hport, if_false, firstError]
    exact ⟨_, rfl, hb⟩

theorem readRoute_follows (c : Collaborators) (attrs : Attributes) (state : StubState)
    (hb : fatal state.2 = none) :
    follows (readRoute c attrs state) [fatal (attrs.GetString c.keys.RouteKey).2]
      (fun result => fatal result.2 = none) := by
  have hs := fatal_storeError_of_benign (attrs.GetString c.keys.RouteKey).2 state.2 hb
  unfold follows readRoute
  cases hf : fatal (attrs.GetString c.keys.RouteKey).2 with
  | some e =>
    rw [hf] at hs
    simp only [firstError, hs]
  | none =>
    rw [hf] at hs
    simp only [firstError, hs]
    exact ⟨_, rfl, hs⟩

theorem readReplicas_follows (c : Collaborators) (attrs : Attributes) (state : StubState)
    (hb : fatal state.2 = none) :
    follows (readReplicas c attrs state)
      [fatal (attrs.GetNumber c.numberOf c.keys.ReplicaKey).2]
      (fun result => fatal result.2 = none) := by
  have hs := fatal_storeError_of_benign
    (attrs.GetNumber c.numberOf c.keys.ReplicaKey).2 state.2 hb
  unfold follows readReplicas
  cases hf : fatal (attrs.GetNumber c.numberOf c.keys.ReplicaKey).2 with
  | some e =>
    rw [hf] at hs
    simp only [firstError, hs]
  | none =>
    rw [hf] at hs
    simp only [firstError, hs]
    exact ⟨_, rfl, hs⟩

theorem readResource_follows (c : Collaborators) (attrs : Attributes) (key : Str)
    (name : ResourceName) (state : ResourceList × Option GoError)
    (hb : fatal state.2 = none) :
    follows (readResource c attrs key name state) (resourceSteps c attrs key)
      (fun result => fatal result.2 = none) := by
  have hs := fatal_storeError_of_benign (attrs.GetString key).2 state.2 hb
  unfold follows readResource resourceSteps parseFailure
  cases hf : fatal (attrs.GetString key).2 with
  | some e =>
    rw [hf] at hs
    simp only [firstError, hs]
  | none =>
    rw [hf] at hs
    by_cases ht : (attrs.GetString key).1 = []
    · simp only [firstError, hs, ht, if_true, ne_eq, not_true_eq_false, if_false]
      exact ⟨_, rfl, hs⟩
    · cases hq : c.ParseQuantity (attrs.GetString key).1 with
      | error e =>
        simp only [firstError, hs, ht, if_false, ne_eq, not_false_eq_true, if_true, hq]
      | ok quantity =>
        simp only [firstError, hs, ht, if_false, ne_eq, not_false_eq_true, if_true, hq]
        exact ⟨_, rfl, hs⟩

theorem readLimits_follows (c : Collaborators) (attrs : Attributes) (state : StubState)
    (hb : fatal state.2 = none) :
    follows (readLimits c attrs state)
      (resourceSteps c attrs c.keys.CpuLimitKey ++
        (resourceSteps c attrs c.keys.MemoryLimitKey ++
          (resourceSteps c attrs c.keys.StorageLimitKey ++ [])))
      (fun result => fatal result.2 = none) := by
  unfold readLimits
  refine follows_bind _ _ _ _ _ _ (readResource_follows c attrs _ _ _ hb) fun r1 h1 => ?_
  refine follows_bind _ _ _ _ _ _ (readResource_follows c attrs _ _ _ h1) fun r2 h2 => ?_
  refine follows_bind _ _ _ _ _ _ (readResource_follows c attrs _ _ _ h2) fun r3 h3 => ?_
  exact follows_ok _ _ h3

theorem readRequests_follows (c : Collaborators) (attrs : Attributes) (state : StubState)
    (hb : fatal state.2 = none) :
    follows (readRequests c attrs state)
      (resourceSteps c attrs c.keys.CpuRequestKey ++
        (resourceSteps c attrs c.keys.MemoryRequestKey ++
          (resourceSteps c attrs c.keys.StorageRequestKey ++ [])))
      (fun result => fatal result.2 = none) := by
  unfold readRequests
  refine follows_bind _ _ _ _ _ _ (readResource_follows c attrs _ _ _ hb) fun r1 h1 => ?_
  refine follows_bind _ _ _ _ _ _ (readResource_follows c attrs _ _ _ h1) fun r2 h2 => ?_
  refine follows_bind _ _ _ _ _ _ (readResource_follows c attrs _ _ _ h2) fun r3 h3 => ?_
  exact follows_ok _ _ h3

theorem populateFromAttributes_follows (c : Collaborators) (attrs : Attributes)
    (componentStub : ComponentSpec) :
    follows (populateFromAttributes c attrs componentStub)
      (extractionSteps c attrs componentStub.TargetPort) (fun _ => True) := by
  show follows _
    ([fatal (attrs.GetInto c.keys.ContainerENVKey []).2] ++
      ([if componentStub.TargetPort = 0 then
          fatal (attrs.GetNumber c.numberOf c.keys.ContainerImagePortKey).2 else none] ++
        ([fatal (attrs.GetString c.keys.RouteKey).2] ++
          ([fatal (attrs.GetNumber c.numberOf c.keys.ReplicaKey).2] ++
            ((resourceSteps c attrs c.keys.CpuLimitKey ++
                (resourceSteps c attrs c.keys.MemoryLimitKey ++
                  (resourceSteps c attrs c.keys.StorageLimitKey ++ []))) ++
              ((resourceSteps c attrs c.keys.CpuRequestKey ++
                  (resourceSteps c attrs c.keys.MemoryRequestKey ++
                    (resourceSteps c attrs c.keys.StorageRequestKey ++ []))) ++ [])))))) _
  unfold populateFromAttributes
  refine follows_bind _ _ _ _ _ _ (readEnv_follows c attrs componentStub) fun s1 h1 => ?_
  have hport := readPort_follows c attrs s1 h1.1
  rw [h1.2] at hport
  refine follows_bind _ _ _ _ _ _ hport fun s2 h2 => ?_
  refine follows_bind _ _ _ _ _ _ (readRoute_follows c attrs s2 h2) fun s3 h3 => ?_
  refine follows_bind _ _ _ _ _ _ (readReplicas_follows c attrs s3 h3) fun s4 h4 => ?_
  refine follows_bind _ _ _ _ _ _ (readLimits_follows c attrs s4 h4) fun s5 h5 => ?_
  refine follows_bind _ _ _ _ _ _ (readRequests_follows c attrs s5 h5) fun s6 _ => ?_
  exact follows_ok _ _ trivial

theorem devfileComponentStub_follows (c : Collaborators) (query : ComponentDetectionQuery)
    (devfilesURLMap dockerfiles : List (Str × Str))
    (componentPortsMap : List (Str × List Int)) (context devfileBytes : Str) :
    follows (devfileComponentStub c query devfilesURLMap dockerfiles componentPortsMap
      context devfileBytes) [contextError c query componentPortsMap context devfileBytes]
      (fun _ => True) := by
  have hgen := generatedName_of_devfile c query devfilesURLMap dockerfiles context
  unfold contextGitSource at hgen
  unfold follows devfileComponentStub contextError
  cases hparse : c.ParseDevfile devfileBytes with
  | error e => simp only [firstError]
  | ok parsed =>
    simp only [getComponents_kubernetes, hgen]
    cases hname : generatedName c query context with
    | none => simp only [firstError]
    | some componentName =>
      simp only
      cases hkube : kubernetesComponents parsed with
      | nil =>
        simp only [firstError]
        exact ⟨_, rfl, trivial⟩
      | cons first rest =>
        simp only
        have hpop := populateFromAttributes_follows c first.Attributes
          (initialStub componentName
            { Context := context, URL := query.Spec.GitSource.URL,
              Revision := query.Spec.GitSource.Revision,
              DevfileURL := mapGet devfilesURLMap context,
              DockerfileURL := mapGet dockerfiles context }
            ((componentPortsMap.lookup context).getD []))
        rw [initialStub_targetPort] at hpop
        unfold follows at hpop
        unfold scannedPort
        cases hfe : firstError (extractionSteps c first.Attributes
            (((componentPortsMap.lookup context).getD []).headD 0)) with
        | some e =>
          rw [hfe] at hpop
          simp only at hpop
          simp only [firstError, hpop]
        | none =>
          rw [hfe] at hpop
          obtain ⟨stub, hstub, _⟩ := hpop
          simp only [firstError, hstub]
          exact ⟨_, rfl, trivial⟩

theorem devfileLoop_error (c : Collaborators) (query : ComponentDetectionQuery)
    (devfilesURLMap : List (Str × Str)) (componentPortsMap : List (Str × List Int))
    (devfilesMap : List (Str × Str)) (e : GoError)
    (h : firstError (devfilesMap.map fun entry =>
      contextError c query componentPortsMap entry.1 entry.2) = some e)
    (state : DetectionState) :
    (devfileLoop c query devfilesURLMap componentPortsMap devfilesMap state).2 = some e := by
  induction devfilesMap generalizing state with
  | nil => exact Option.noConfusion h
  | cons head rest ih =>
    obtain ⟨context, devfileBytes⟩ := head
    have hbody := devfileComponentStub_follows c query devfilesURLMap
      state.dockerfileContextMap componentPortsMap context devfileBytes
    unfold follows at hbody
    simp only [List.map_cons] at h
    cases herr : contextError c query componentPortsMap context devfileBytes with
    | some e1 =>
      rw [herr] at h hbody
      simp only [firstError] at h hbody
      have he : e1 = e := Option.some.inj h
      subst he
      simp only [devfileLoop, hbody]
    | none =>
      rw [herr] at h hbody
      simp only [firstError] at h hbody
      obtain ⟨built, hbuilt, _⟩ := hbody
      obtain ⟨componentName, description⟩ := built
      rw [devfileLoop_cons_ok c query devfilesURLMap componentPortsMap context devfileBytes
        rest state componentName description hbuilt]
      exact ih h _

theorem updateComponentStub_error (c : Collaborators) (query : ComponentDetectionQuery)
    (devfilesMap devfilesURLMap dockerfileContextMap : List (Str × Str))
    (componentPortsMap : List (Str × List Int)) (e : GoError)
    (h : firstError (devfilesMap.map fun entry =>
      contextError c query componentPortsMap entry.1 entry.2) = some e) :
    (updateComponentStub c (some query) devfilesMap devfilesURLMap dockerfileContextMap
      componentPortsMap).2 = some e := by
  have hloop := devfileLoop_error c query devfilesURLMap componentPortsMap devfilesMap e h
    { ComponentDetected :=
        if query.Status.ComponentDetected.length = 0 then []
        else query.Status.ComponentDetected,
      dockerfileContextMap := dockerfileContextMap }
  unfold updateComponentStub
  simp only
  split
  · rename_i state err hres
    rw [hres] at hloop
    exact hloop
  · rename_i state hres
    rw [hres] at hloop
    exact Option.noConfusion hloop

theorem extractionSteps_of_readFails (c : Collaborators) (attrs : Attributes) (scanned : Int)
    (h : readFails c attrs scanned) : firstError (extractionSteps c attrs scanned) ≠ none := by
  rcases h with h | ⟨hport, h⟩ | h | h | ⟨key, hkey, h⟩
  · exact firstError_ne_none _ _ (by simp [extractionSteps]) h
  · refine firstError_ne_none _
      (if scanned = 0 then fatal (attrs.GetNumber c.numberOf c.keys.ContainerImagePortKey).2
        else none) (by simp [extractionSteps]) ?_
    rw [if_pos hport]
    exact h
  · exact firstError_ne_none _ _ (by simp [extractionSteps]) h
  · exact firstError_ne_none _ _ (by simp [extractionSteps]) h
  · refine firstError_ne_none _ (fatal (attrs.GetString key).2) ?_ h
    simp only [resourceKeys, List.mem_cons, List.mem_singleton, List.not_mem_nil,
      or_false] at hkey
    rcases hkey with hk | hk | hk | hk | hk | hk <;> subst hk <;>
      simp [extractionSteps, resourceSteps]

/-- C17, as stated, fails on two inputs.  A devfile whose port attribute is an object
(its read fails with a decoding error) in a context whose scanned port is 8080: the call
returns no error, since the port attribute is not read.  A devfile whose environment
attribute and route attribute are both malformed: the call returns the error of the
environment read, not that of the route read. -/
theorem updateComponentStub_read_error_not_returned :
    (Attributes.GetNumber sampleNumberOf
        [(sampleKeys.ContainerImagePortKey, AttrValue.structured)]
        sampleKeys.ContainerImagePortKey).2 =
        some (GoError.attributeDecode sampleKeys.ContainerImagePortKey) ∧
      (sampleRun "port-broken".toList [8080]).2 = none ∧
      (Attributes.GetString
        [(sampleKeys.ContainerENVKey, AttrValue.string "x".toList),
         (sampleKeys.RouteKey, AttrValue.structured)] sampleKeys.RouteKey).2 =
        some (GoError.attributeDecode sampleKeys.RouteKey) ∧
      (sampleRun "env-and-route-broken".toList []).2 =
        some (GoError.attributeDecode sampleKeys.ContainerENVKey) ∧
      (sampleRun "env-and-route-broken".toList []).2 ≠
        some (GoError.attributeDecode sampleKeys.RouteKey) := by
  refine ⟨by decide, by decide, by decide, by decide, by decide⟩

/-- C17, amended: when a devfile context is among those visited, its devfile parses and a
read of one of the ten recognized keys on its first Kubernetes component fails with an
error other than key-not-found (for the port key: while the scanned port of the context
is 0, the only case in which the port is read), the call returns an error `e` instead of
succeeding, whatever the other keys hold, whatever the scan maps hold and in whatever
order the contexts are visited.  The error `e` is that of the first context, in the order
of the visit, that has one, the error of a context being that of its first failing step:
the parse of its devfile, the making of its name, then the reads of the environment, of
the port when it is read, of the route and of the replicas, and for each resource key its
read followed by the parse of its string.  The extraction on this context has such a
first failing step, with error `own`; it is the error of the context when a name can be
made for it, and then `e` is `own` when no context visited before has an error.  When
every noun drawn is non-empty a name is made for every context, so `e` is an error value
returned by the devfile parser, an attribute read or the quantity parser.  Conversely a
context none of whose steps fails gets its description, whatever the scan maps hold: with
a scanned port other than 0 the port is no step, and a malformed port raises no error. -/
theorem updateComponentStub_read_error (c : Collaborators) (query : ComponentDetectionQuery)
    (devfilesMap devfilesURLMap dockerfileContextMap : List (Str × Str))
    (componentPortsMap : List (Str × List Int)) (context devfileBytes : Str)
    (parsed : ParsedDevfile) (first : DevfileComponent) (rest : List DevfileComponent)
    (hmem : (context, devfileBytes) ∈ devfilesMap)
    (hparse : c.ParseDevfile devfileBytes = Except.ok parsed)
    (hfirst : kubernetesComponents parsed = first :: rest)
    (hfail : readFails c first.Attributes (scannedPort componentPortsMap context)) :
    ∃ e own,
      (updateComponentStub c (some query) devfilesMap devfilesURLMap dockerfileContextMap
        componentPortsMap).2 = some e ∧
      firstError (devfilesMap.map fun entry =>
        contextError c query componentPortsMap entry.1 entry.2) = some e ∧
      firstError (extractionSteps c first.Attributes
        (scannedPort componentPortsMap context)) = some own ∧
      (c.noun context ≠ [] →
        contextError c query componentPortsMap context devfileBytes = some own ∧
        (∀ dockerfiles, devfileComponentStub c query devfilesURLMap dockerfiles
          componentPortsMap context devfileBytes = Except.error own) ∧
        ∀ before after, devfilesMap = before ++ (context, devfileBytes) :: after →
          (∀ entry ∈ before,
            contextError c query componentPortsMap entry.1 entry.2 = none) →
          e = own) ∧
      ((∀ entry ∈ devfilesMap, c.noun entry.1 ≠ []) →
        ∀ entry ∈ devfilesMap, generatedName c query entry.1 ≠ none) ∧
      (∀ (ports : List (Str × List Int)) (other otherBytes : Str)
        (dockerfiles : List (Str × Str)),
        contextError c query ports other otherBytes = none →
        ∃ built, devfileComponentStub c query devfilesURLMap dockerfiles ports other
          otherBytes = Except.ok built) := by
  have hbuilt : ∀ (ports : List (Str × List Int)) (other otherBytes : Str)
      (dockerfiles : List (Str × Str)),
      contextError c query ports other otherBytes = none →
      ∃ built, devfileComponentStub c query devfilesURLMap dockerfiles ports other
        otherBytes = Except.ok built := by
    intro ports other otherBytes dockerfiles hnone
    have hbody := devfileComponentStub_follows c query devfilesURLMap dockerfiles ports other
      otherBytes
    unfold follows at hbody
    rw [hnone] at hbody
    obtain ⟨built, hok, _⟩ := hbody
    exact ⟨built, hok⟩
  have hnames : (∀ entry ∈ devfilesMap, c.noun entry.1 ≠ []) →
      ∀ entry ∈ devfilesMap, generatedName c query entry.1 ≠ none := by
    intro hnouns entry hentry hnone
    obtain ⟨name, hname⟩ := getComponentName_isSome (c.noun entry.1) (c.token entry.1)
      (dockerfileGitSource query entry.1 []) (hnouns entry hentry)
    have hname2 : generatedName c query entry.1 = some name := hname
    rw [hname2] at hnone
    exact Option.noConfusion hnone
  cases hown : firstError (extractionSteps c first.Attributes
      (scannedPort componentPortsMap context)) with
  | none => exact absurd hown (extractionSteps_of_readFails c first.Attributes _ hfail)
  | some own =>
    have hctx : contextError c query componentPortsMap context devfileBytes ≠ none := by
      unfold contextError
      rw [hparse]
      simp only [hfirst]
      cases generatedName c query context with
      | none => exact fun h => Option.noConfusion h
      | some name =>
        simp only [hown]
        exact fun h => Option.noConfusion h
    have hall : firstError (devfilesMap.map fun entry =>
        contextError c query componentPortsMap entry.1 entry.2) ≠ none :=
      firstError_ne_none _ _
        (List.mem_map.mpr ⟨(context, devfileBytes), hmem, rfl⟩) hctx
    cases he : firstError (devfilesMap.map fun entry =>
        contextError c query componentPortsMap entry.1 entry.2) with
    | none => exact absurd he hall
    | some e =>
      refine ⟨e, own, updateComponentStub_error c query devfilesMap devfilesURLMap
        dockerfileContextMap componentPortsMap e he, rfl, rfl, ?_, hnames, hbuilt⟩
      intro hnoun
      obtain ⟨name, hname⟩ := getComponentName_isSome (c.noun context) (c.token context)
        (dockerfileGitSource query context []) hnoun
      have hname2 : generatedName c query context = some name := hname
      have hthis : contextError c query componentPortsMap context devfileBytes =
          some own := by
        unfold contextError
        rw [hparse]
        simp only [hfirst, hname2, hown]
      refine ⟨hthis, ?_, ?_⟩
      · intro dockerfiles
        have hbody := devfileComponentStub_follows c query devfilesURLMap dockerfiles
          componentPortsMap context devfileBytes
        unfold follows at hbody
        rw [hthis] at hbody
        exact hbody
      · intro before after hsplit hbefore
        rw [hsplit, List.map_append, List.map_cons, firstError_of_passing] at he
        · rw [hthis] at he
          exact (Option.some.inj he).symm
        · intro y hy
          obtain ⟨entry, hentry, hy2⟩ := List.mem_map.mp hy
          rw [← hy2]
          exact hbefore entry hentry

/-- Witness of C17: the devfile whose port attribute is an object, in a context without a
scanned port, returns the decoding error of the port key; the devfile whose environment
and route attributes are both malformed returns the decoding error of the environment
key; with both devfiles, the error returned is that of the context visited first; and no
description is built for the context of the first devfile, whose error is the decoding
error of the port key, whereas with the scanned port 8080 its description is built. -/
theorem updateComponentStub_read_error_witness :
    (sampleRun "port-broken".toList []).2 =
        some (GoError.attributeDecode "deployment/container-port".toList) ∧
      (sampleRun "env-and-route-broken".toList []).2 =
        some (GoError.attributeDecode "deployment/containerENV".toList) ∧
      (updateComponentStub sampleCollaborators (some sampleQuery)
          [("app".toList, "port-broken".toList),
           ("docs".toList, "env-and-route-broken".toList)] [] [] []).2 =
        some (GoError.attributeDecode "deployment/container-port".toList) ∧
      (updateComponentStub sampleCollaborators (some sampleQuery)
          [("docs".toList, "env-and-route-broken".toList),
           ("app".toList, "port-broken".toList)] [] [] []).2 =
        some (GoError.attributeDecode "deployment/containerENV".toList) ∧
      devfileComponentStub sampleCollaborators sampleQuery [] [] [("app".toList, [])]
          "app".toList "port-broken".toList =
        Except.error (GoError.attributeDecode "deployment/container-port".toList) ∧
      ∃ built, devfileComponentStub sampleCollaborators sampleQuery [] []
        [("app".toList, [8080])] "app".toList "port-broken".toList = Except.ok built := by
  have portDevfile : sampleCollaborators.ParseDevfile "port-broken".toList =
      Except.ok (goDevfile [kubernetesComponent
        [(sampleKeys.ContainerImagePortKey, AttrValue.structured)]]) := rfl
  obtain ⟨e1, own1, h1, hfe1, hown1, hctx1, _, hpass⟩ := updateComponentStub_read_error sampleCollaborators
    sampleQuery [("app".toList, "port-broken".toList)] [] [] [("app".toList, [])]
    "app".toList "port-broken".toList _
    (kubernetesComponent [(sampleKeys.ContainerImagePortKey, AttrValue.structured)]) []
    (by decide) portDevfile rfl (Or.inr (Or.inl ⟨by decide, by decide⟩))
  obtain ⟨e2, own2, h2, hfe2, _, _, _, _⟩ := updateComponentStub_read_error sampleCollaborators
    sampleQuery [("app".toList, "env-and-route-broken".toList)] [] []
    [("app".toList, [])] "app".toList "env-and-route-broken".toList
    (goDevfile [kubernetesComponent
      [(sampleKeys.ContainerENVKey, AttrValue.string "x".toList),
       (sampleKeys.RouteKey, AttrValue.structured)]])
    (kubernetesComponent
      [(sampleKeys.ContainerENVKey, AttrValue.string "x".toList),
       (sampleKeys.RouteKey, AttrValue.structured)]) []
    (by decide) rfl rfl (Or.inr (Or.inr (Or.inl (by decide))))
  obtain ⟨e3, own3, h3, hfe3, _, _, _, _⟩ := updateComponentStub_read_error sampleCollaborators
    sampleQuery [("app".toList, "port-broken".toList),
      ("docs".toList, "env-and-route-broken".toList)] [] [] []
    "app".toList "port-broken".toList _
    (kubernetesComponent [(sampleKeys.ContainerImagePortKey, AttrValue.structured)]) []
    (by decide) portDevfile rfl (Or.inr (Or.inl ⟨by decide, by decide⟩))
  obtain ⟨e4, own4, h4, hfe4, _, _, _, _⟩ := updateComponentStub_read_error sampleCollaborators
    sampleQuery [("docs".toList, "env-and-route-broken".toList),
      ("app".toList, "port-broken".toList)] [] [] []
    "app".toList "port-broken".toList _
    (kubernetesComponent [(sampleKeys.ContainerImagePortKey, AttrValue.structured)]) []
    (by decide) portDevfile rfl (Or.inr (Or.inl ⟨by decide, by decide⟩))
  have v1 : some e1 = some (GoError.attributeDecode "deployment/container-port".toList) :=
    hfe1.symm.trans (by decide)
  have v2 : some e2 = some (GoError.attributeDecode "deployment/containerENV".toList) :=
    hfe2.symm.trans (by decide)
  have v3 : some e3 = some (GoError.attributeDecode "deployment/container-port".toList) :=
    hfe3.symm.trans (by decide)
  have v4 : some e4 = some (GoError.attributeDecode "deployment/containerENV".toList) :=
    hfe4.symm.trans (by decide)
  have w1 : some own1 = some (GoError.attributeDecode "deployment/container-port".toList) :=
    hown1.symm.trans (by decide)
  have hbody := (hctx1 (by decide)).2.1 []
  rw [Option.some.inj w1] at hbody
  exact ⟨h1.trans v1, h2.trans v2, h3.trans v3, h4.trans v4, hbody,
    hpass [("app".toList, [8080])] "app".toList "port-broken".toList [] (by decide)⟩

end ApplicationService
